import Mathlib

/-! # homebrew-OS: process control, scheduler and file-system decoder

A shallow embedding of the kernel's C sources (`student-distrib/`) and the
properties proved about it.

Conventions of the embedding.

* Machine integers are `Nat`; a `uint8_t` store is reduced `% 256` where the
  C expression can exceed the type, `int32_t` results are `Int`.
* An array or a string reached through a pointer is a *view* `Nat → Nat`
  (index to byte); a string passed in by a user program is the `List Nat` of
  the bytes at the pointer, read up to its first zero byte or its end.
  A store outside the declared object is the outcome `fault`, except for the
  single terminator byte that `execute` stores at `fname[32]` or at
  `localargbuf[-1]`: it lands in the neighbouring byte of the stack frame, and
  the call goes on.
* Uninitialised locals are explicit arguments (the bytes found on the stack).
* A loop without a static bound takes fuel; running out of fuel is `hang`.
* A PCB is addressed by the address of its 8 KiB block; kernel memory outside
  the PCBs (the stacks above them, video memory) is not part of the state.
* The terminal driver works on keyboard state that is not part of `kernel_t`;
  where a system call reaches it, what the driver does is an argument. The
  driver's own `terminal_read`, `keyboard_open` and `process_keyboard_input`
  are modelled on the globals of `keyboard.c` (`keyboard_t`), and `update_vid`
  on flat physical memory (`screen_t`).
-/

namespace HomebrewOS

/-! ## Constants -/

/-- Modelled from the spec: `_8MB` of the absent `lib.h`, the 8 MiB top of the kernel stacks. -/
def _8MB : Nat := 0x800000

/-- Modelled from the spec: `_8KB` of the absent `lib.h`, the size of one kernel stack. -/
def _8KB : Nat := 0x2000

/-- Modelled from the spec: `ALIGN_8KB` of the absent `lib.h`, the mask `~(8 KiB - 1)`. -/
def ALIGN_8KB : Nat := 0xFFFFE000

def IN_USE : Int := 1
def NOT_IN_USE : Int := 0
def FILE_TYPE_RTC : Nat := 0
def FILE_TYPE_DIRECTORY : Nat := 1
def FILE_TYPE_REGULAR_FILE : Nat := 2
def PROGRAM_LOAD_ADDR : Nat := 0x08048000
def ENTRY_POINT_OFFSET : Nat := 24
def INITIAL_SHELLS_BITMASK : Nat := 0x70
def INITIAL_KERNEL_STACK_SIZE : Nat := 60
def MAX_NUM_FS_DENTRIES : Nat := 63
def MAX_FILENAME_LENGTH : Nat := 32
def FS_PAGE_SIZE : Nat := 0x1000
def FS_STATS_SIZE : Nat := 64
def TERMINAL_BUFFER_MAX_SIZE : Nat := 1024
def MAX_NUM_OF_PROCESSES : Nat := 8
def PROGRAM_IMG_ENTRY : Nat := 0x20
def MAX_PAGE_TABLE_SIZE : Nat := 1024

/-! ## lib.c: string helpers -/

/-- The view of a list as a C string: the bytes of the list, then zeros. -/
def view (l : List Nat) : Nat → Nat := fun i => l.getD i 0

/-- The characters of a buffer up to (not including) the first zero byte. -/
def cstr (l : List Nat) : List Nat := l.takeWhile (fun b => b != 0)

/-- The value of a byte read through an `int8_t` pointer. -/
def int8 (b : Nat) : Int := if b % 256 < 128 then (b % 256 : Nat) else ((b % 256 : Nat) : Int) - 256

/-- The value of a `uint32_t` converted to `int32_t`. -/
def int32 (n : Nat) : Int :=
  if n % 4294967296 < 2147483648 then (n % 4294967296 : Nat) else ((n % 4294967296 : Nat) : Int) - 4294967296

/-- The loop of `strlen`: `len` counts up from `a` until a zero byte; the fuel
bounds the scan by the size of the address space. -/
def strlen_loop (s : Nat → Nat) : Nat → Nat → Option Nat
  | _, 0 => none
  | len, fuel + 1 => if s len = 0 then some len else strlen_loop s (len + 1) fuel

/-- `strlen(s)`; `none` when no zero byte exists in the whole address space. -/
def strlen (s : Nat → Nat) : Option Nat := strlen_loop s 0 4294967296

/-- The loop of `strncmp` from index `i`, with `n - i` iterations left. -/
def strncmp_loop (s1 s2 : Nat → Nat) : Nat → Nat → Int
  | _, 0 => 0
  | i, k + 1 =>
    if s1 i ≠ s2 i ∨ s1 i = 0 then int8 (s1 i) - int8 (s2 i)
    else strncmp_loop s1 s2 (i + 1) k

/-- `strncmp(s1, s2, n)`. -/
def strncmp (s1 s2 : Nat → Nat) (n : Nat) : Int := strncmp_loop s1 s2 0 n

/-- The bytes `strcpy` stores for a source string of length `len`: its
characters and the terminator. -/
def strcpy_bytes (src : Nat → Nat) (len : Nat) : List Nat := (List.range len).map src ++ [0]

/-- The contents of a buffer after `bytes` have been stored from index 0 on. -/
def store_bytes (bytes : List Nat) (old : Nat → Nat) : Nat → Nat :=
  fun i => if i < bytes.length then bytes.getD i 0 else old i

/-- One store `a[i] = v` into an array seen as a view. -/
def store (a : Nat → Nat) (i v : Nat) : Nat → Nat := fun j => if j = i then v else a j

/-! ## files.c: the read-only file system -/

structure fs_stats_t where
  num_dentries : Nat
  num_inodes : Nat
  num_datablocks : Nat

structure dentry_t where
  filename : List Nat
  filetype : Nat
  inode : Nat

/-- The globals of `files.c`. `mem` is memory seen from `bb_start`: byte `a`
of it is the byte at address `bb_start + a`. `fs_dentries` is `bb_start + 64`
and `inodes` is `bb_start + 4096`, so only `data_start` is kept (as an offset). -/
structure filesys_t where
  mem : Nat → Nat
  fs_stats : fs_stats_t
  data_start : Nat
  dir_reads : Nat

/-- A little-endian 32-bit word of memory. -/
def read32 (mem : Nat → Nat) (a : Nat) : Nat :=
  mem a % 256 + 256 * (mem (a + 1) % 256) + 65536 * (mem (a + 2) % 256)
    + 16777216 * (mem (a + 3) % 256)

/-- `fs_init`: the globals for an image at `bb_start`. -/
def fs_init (mem : Nat → Nat) : filesys_t :=
  { mem := mem
    fs_stats := { num_dentries := read32 mem 0, num_inodes := read32 mem 4,
                  num_datablocks := read32 mem 8 }
    data_start := (read32 mem 4 + 1) * FS_PAGE_SIZE
    dir_reads := 0 }

/-- Offset of `fs_dentries[i]` (64 bytes each). -/
def dentry_addr (i : Nat) : Nat := FS_STATS_SIZE + 64 * i

/-- The string `fs_dentries[i].filename` as a view. -/
def dentry_filename (fs : filesys_t) (i : Nat) : Nat → Nat := fun j => fs.mem (dentry_addr i + j)

/-- `fs_dentries[i].filetype`. -/
def dentry_filetype (fs : filesys_t) (i : Nat) : Nat := read32 fs.mem (dentry_addr i + 32)

/-- `fs_dentries[i].inode`. -/
def dentry_inode (fs : filesys_t) (i : Nat) : Nat := read32 fs.mem (dentry_addr i + 36)

/-- `inodes[i].size`. -/
def inode_size (fs : filesys_t) (i : Nat) : Nat := read32 fs.mem (FS_PAGE_SIZE + FS_PAGE_SIZE * i)

/-- `inodes[i].data_blocks[k]`. -/
def inode_data_block (fs : filesys_t) (i k : Nat) : Nat :=
  read32 fs.mem (FS_PAGE_SIZE + FS_PAGE_SIZE * i + 4 + 4 * k)

/-- Results of a kernel routine that can fail to return normally. -/
inductive result_t (α : Type) where
  | ok (a : α)
  | fault
  | hang

/-- The loop of `read_dentry_by_name` from entry `i`, with `n` entries left.
`some d` is return value 0 with `*dentry = d`, `none` is return value -1.
The `strcpy` into the 64-byte `dentry_t` leaves that object when the name has
64 or more characters. -/
def read_dentry_by_name_loop (fs : filesys_t) (fname : Nat → Nat) :
    Nat → Nat → result_t (Option dentry_t)
  | _, 0 => .ok none
  | i, n + 1 =>
    match strlen (dentry_filename fs i), strlen fname with
    | some la, some lb =>
      if la = lb ∧ strncmp (dentry_filename fs i) fname lb = 0 then
        if la + 1 > 64 then .fault
        else .ok (some { filename := (List.range (min la 32)).map (dentry_filename fs i)
                         filetype := dentry_filetype fs i
                         inode := dentry_inode fs i })
      else read_dentry_by_name_loop fs fname (i + 1) n
    | _, _ => .hang

/-- `read_dentry_by_name(fname, &dentry)`. -/
def read_dentry_by_name (fs : filesys_t) (fname : Nat → Nat) : result_t (Option dentry_t) :=
  read_dentry_by_name_loop fs fname 0 MAX_NUM_FS_DENTRIES

/-- The `while` loop of `read_data` with `n = length - total_successful_reads`
iterations left. Returns the return value and the bytes stored in `buf[0..]`. -/
def read_data_loop (fs : filesys_t) (inode offset : Nat) :
    Nat → Nat → Nat → Nat → Nat → List Nat → Int × List Nat
  | 0, total, _, _, _, acc => (int32 total, acc)
  | n + 1, total, loc, cur, read_addr, acc =>
    if loc ≥ FS_PAGE_SIZE then
      if inode_data_block fs inode (cur + 1) ≥ fs.fs_stats.num_datablocks then (-1, acc)
      else if total + offset ≥ inode_size fs inode then (int32 total, acc)
      else
        read_data_loop fs inode offset n (total + 1) 1 (cur + 1)
          (fs.data_start + inode_data_block fs inode (cur + 1) * FS_PAGE_SIZE + 1)
          (acc ++ [fs.mem (fs.data_start + inode_data_block fs inode (cur + 1) * FS_PAGE_SIZE)])
    else if total + offset ≥ inode_size fs inode then (int32 total, acc)
    else
      read_data_loop fs inode offset n (total + 1) (loc + 1) cur (read_addr + 1)
        (acc ++ [fs.mem read_addr])

/-- `read_data(inode, offset, buf, length)`: the return value and the bytes
stored in `buf[0..]`. -/
def read_data (fs : filesys_t) (inode offset length : Nat) : Int × List Nat :=
  if inode ≥ fs.fs_stats.num_inodes then (-1, [])
  else if offset ≥ inode_size fs inode then (0, [])
  else if inode_data_block fs inode (offset / FS_PAGE_SIZE) ≥ fs.fs_stats.num_datablocks then (-1, [])
  else
    read_data_loop fs inode offset length 0 (offset % FS_PAGE_SIZE) (offset / FS_PAGE_SIZE)
      (fs.data_start + inode_data_block fs inode (offset / FS_PAGE_SIZE) * FS_PAGE_SIZE
        + offset % FS_PAGE_SIZE) []

/-- `fs_read(fname, offset, buf, length)`: the return value and the new
contents of `buf`. A null `fname` or `buf` is `none`. -/
def fs_read (fs : filesys_t) (fname : Option (Nat → Nat)) (offset : Nat)
    (buf : Option (Nat → Nat)) (length : Nat) : result_t (Int × Option (Nat → Nat)) :=
  match fname, buf with
  | some name, some b =>
    match read_dentry_by_name fs name with
    | .ok none => .ok (-1, some b)
    | .ok (some dentry) =>
      .ok ((read_data fs dentry.inode offset length).1,
           some (store_bytes (read_data fs dentry.inode offset length).2 b))
    | .fault => .fault
    | .hang => .hang
  | _, _ => .ok (-1, buf)

/-- `fs_load(fname, address)`: the return value and the bytes stored from
`address` on. -/
def fs_load (fs : filesys_t) (fname : Option (Nat → Nat)) : result_t (Int × List Nat) :=
  match fname with
  | none => .ok (-1, [])
  | some name =>
    match read_dentry_by_name fs name with
    | .ok none => .ok (-1, [])
    | .ok (some dentry) =>
      if (read_data fs dentry.inode 0 (inode_size fs dentry.inode)).1 ≠ 0 then
        .ok (-1, (read_data fs dentry.inode 0 (inode_size fs dentry.inode)).2)
      else .ok (0, (read_data fs dentry.inode 0 (inode_size fs dentry.inode)).2)
    | .fault => .fault
    | .hang => .hang

/-! ## syscalls.h: the process control block -/

/-- The value of a `jumptable` pointer: one of the five file operations
tables of `syscalls.c`, `NULL`, or some other address. -/
inductive jumptable_t where
  | NULL
  | stdin_fops_table
  | stdout_fops_table
  | rtc_fops_table
  | file_fops_table
  | dir_fops_table
  | other (addr : Nat)
  deriving DecidableEq

structure file_descriptor_t where
  jumptable : jumptable_t
  inode : Int
  fileposition : Int
  flags : Int

/-- The struct `pcb_t`. `filenames` is the 8 x 32 array flattened (byte
`32 * fd + j`), `argbuf_pad` the two padding bytes between `argbuf[100]`
(offset 394) and the 4-aligned `has_child` (offset 496). -/
structure pcb_t where
  fds : Nat → file_descriptor_t
  filenames : Nat → Nat
  parent_ksp : Nat
  parent_kbp : Nat
  process_number : Nat
  parent_process_number : Nat
  argbuf : Nat → Nat
  argbuf_pad : Nat → Nat
  has_child : Nat
  tty_number : Nat
  ksp_before_change : Nat
  kbp_before_change : Nat

/-- The byte at PCB offset `a` after `bytes` were stored from offset `off` on. -/
def stored_byte (off : Nat) (bytes : List Nat) (a old : Nat) : Nat :=
  if off ≤ a ∧ a < off + bytes.length then bytes.getD (a - off) 0 else old

/-- Replace byte `k` (0 the least significant) of the word `w` by `b`. -/
def set_byte (w k b : Nat) : Nat := w - (w / 256 ^ k % 256) * 256 ^ k + b * 256 ^ k

/-- The little-endian word at PCB offset `a` after `bytes` were stored from
offset `off` on. -/
def stored_word (off : Nat) (bytes : List Nat) (a w : Nat) : Nat :=
  let w0 := if off ≤ a ∧ a < off + bytes.length then set_byte w 0 (bytes.getD (a - off) 0) else w
  let w1 := if off ≤ a + 1 ∧ a + 1 < off + bytes.length then
    set_byte w0 1 (bytes.getD (a + 1 - off) 0) else w0
  let w2 := if off ≤ a + 2 ∧ a + 2 < off + bytes.length then
    set_byte w1 2 (bytes.getD (a + 2 - off) 0) else w1
  if off ≤ a + 3 ∧ a + 3 < off + bytes.length then set_byte w2 3 (bytes.getD (a + 3 - off) 0)
  else w2

/-- The PCB after a run of bytes was stored from offset `off >= 128` of the
struct on (a `strcpy` into `filenames[fd]`, offset `128 + 32 * fd`, or into
`argbuf`, offset 394), by the i386 layout of `pcb_t`: a string longer than its
array runs on into the fields behind it. Bytes past the 512 bytes of the
struct land in the stack area of the same 8 KiB block, which is not modelled. -/
def pcb_store (p : pcb_t) (off : Nat) (bytes : List Nat) : pcb_t :=
  { p with
    filenames := fun j => if j < 256 then stored_byte off bytes (128 + j) (p.filenames j)
      else p.filenames j
    parent_ksp := stored_word off bytes 384 p.parent_ksp
    parent_kbp := stored_word off bytes 388 p.parent_kbp
    process_number := stored_byte off bytes 392 p.process_number
    parent_process_number := stored_byte off bytes 393 p.parent_process_number
    argbuf := fun j => if j < 100 then stored_byte off bytes (394 + j) (p.argbuf j) else p.argbuf j
    argbuf_pad := fun j => if j < 2 then stored_byte off bytes (494 + j) (p.argbuf_pad j)
      else p.argbuf_pad j
    has_child := stored_word off bytes 496 p.has_child
    tty_number := stored_word off bytes 500 p.tty_number
    ksp_before_change := stored_word off bytes 504 p.ksp_before_change
    kbp_before_change := stored_word off bytes 508 p.kbp_before_change }

/-! ## paging.c -/

/-- A page-table entry with the bit fields `setup_new_task` assigns. -/
structure pte_t where
  present : Nat
  read_write : Nat
  user_supervisor : Nat
  write_through : Nat
  cache_disabled : Nat
  accessed : Nat
  dirty : Nat
  pat : Nat
  global : Nat
  avail : Nat
  page_addr : Nat

/-- A page-directory entry: the bit fields of its `KB` and `MB` views as
`setup_new_task` names them (`table_addr` belongs to `KB`, `dirty`, `pat` and
`page_addr` to `MB`). -/
structure pde_t where
  present : Nat
  read_write : Nat
  user_supervisor : Nat
  write_through : Nat
  cache_disabled : Nat
  accessed : Nat
  dirty : Nat
  page_size : Nat
  global : Nat
  avail : Nat
  pat : Nat
  page_addr : Nat
  table_addr : Nat

/-! ## The kernel state -/

/-- The paging globals: `page_dir_addr` (`syscalls.c`), `page_dir_addr1`
(`scheduler.c`), `new_page_dir_addr` (`paging.c`), the control registers, the
arrays `page_directories` and `new_page_table` and their link-time addresses. -/
structure paging_t where
  page_dir_addr : Nat
  page_dir_addr1 : Nat
  new_page_dir_addr : Nat
  cr0 : Nat
  cr3 : Nat
  cr4 : Nat
  addr_page_directories : Nat
  addr_new_page_table : Nat
  page_directories : Nat → Nat → pde_t
  new_page_table : Nat → pte_t

/-- The globals the modelled routines read and write. `pcbs a` is the PCB at
address `a`; `program_img n` is the memory at `PROGRAM_LOAD_ADDR` in the
address space of page directory `n`. -/
structure kernel_t where
  running_processes : Nat
  kernel_stack_bottom : Nat
  current_process_number : Nat
  tss_esp0 : Nat
  process_term_number : Nat
  pcbs : Nat → pcb_t
  program_img : Nat → Nat → Nat
  fs : filesys_t
  paging : paging_t

/-- How a kernel entry point ends: `ret` is a C `return` to its caller;
`to_the_user_space eip` is the `iret` of `to_the_user_space(eip)`, which does
not return; `leave_ret` is the `leave; ret` executed after `%esp` and `%ebp`
were loaded with the given values, with `%eax = eax`. -/
inductive outcome_t where
  | ret (eax : Int) (k : kernel_t)
  | to_the_user_space (eip : Nat) (k : kernel_t)
  | leave_ret (eax : Int) (esp ebp : Nat) (k : kernel_t)
  | fault
  | hang

/-- The kernel state an outcome leaves, when it leaves one. -/
def outcome_t.state : outcome_t → Option kernel_t
  | .ret _ k => some k
  | .to_the_user_space _ k => some k
  | .leave_ret _ _ _ k => some k
  | .fault => none
  | .hang => none

/-- The address of the PCB of process slot `n`: `_8MB - (_8KB)*(n + 1)`. -/
def pcb_addr (n : Nat) : Nat := _8MB - _8KB * (n + 1)

/-- `set_running_processes(value)`, also the assignments to `running_processes`. -/
@[simps]
def set_running_processes (k : kernel_t) (value : Nat) : kernel_t :=
  { k with running_processes := value }

/-- `set_kernel_stack_bottom(value)`, also the assignments to `kernel_stack_bottom`. -/
@[simps]
def set_kernel_stack_bottom (k : kernel_t) (value : Nat) : kernel_t :=
  { k with kernel_stack_bottom := value }

/-- `set_current_process_number(value)`, also the assignments to `current_process_number`. -/
@[simps]
def set_current_process_number (k : kernel_t) (value : Nat) : kernel_t :=
  { k with current_process_number := value }

/-- The assignment `tss.esp0 = value`. -/
@[simps]
def set_tss_esp0 (k : kernel_t) (value : Nat) : kernel_t :=
  { k with tss_esp0 := value }

/-- `set_process_term_number(value)` of `lib.c`: stores `value` if it is below 3. -/
@[simps]
def set_process_term_number (k : kernel_t) (value : Nat) : kernel_t :=
  { k with process_term_number := if value < 3 then value else k.process_term_number }

/-- The state after `f` was applied to the PCB at address `a`. -/
@[simps]
def update_pcb (k : kernel_t) (a : Nat) (f : pcb_t → pcb_t) : kernel_t :=
  { k with pcbs := fun b => if b = a then f (k.pcbs a) else k.pcbs b }

/-- The state after `bytes` were stored from `PROGRAM_LOAD_ADDR` on in the
address space of page directory `n`. -/
@[simps]
def load_program_img (k : kernel_t) (n : Nat) (bytes : List Nat) : kernel_t :=
  { k with program_img := fun m =>
      if m = n then store_bytes bytes (k.program_img n) else k.program_img m }

/-- The state with the paging globals replaced. -/
@[simps]
def set_paging (k : kernel_t) (p : paging_t) : kernel_t :=
  { k with paging := p }

/-! ## paging.c: setup_new_task -/

/-- `&page_directories[n]`. -/
def paging_t.page_directory_addr (p : paging_t) (n : Nat) : Nat := p.addr_page_directories + 4096 * n

/-- The control-register sequence that loads `%cr3` with `a & 0xFFFFFFE7`
and sets `cr4 |= 0x90`, `cr0 |= 0x80000000`. -/
def paging_t.load_cr3 (p : paging_t) (a : Nat) : paging_t :=
  { p with cr3 := a &&& 0xFFFFFFE7, cr4 := p.cr4 ||| 0x90, cr0 := p.cr0 ||| 0x80000000 }

/-- The page table and the three directory entries `setup_new_task` writes
for `process_number`, and the load of `%cr3`. -/
def paging_t.new_task (p : paging_t) (process_number : Nat) : paging_t :=
  paging_t.load_cr3
    { p with
      new_page_dir_addr := p.page_directory_addr process_number
      new_page_table := fun i =>
        if i < MAX_PAGE_TABLE_SIZE then
          { present := if i = 0 then 0 else 1, read_write := 1, user_supervisor := 1,
            write_through := 0, cache_disabled := 0, accessed := 0, dirty := 0, pat := 0,
            global := 1, avail := 0, page_addr := i }
        else p.new_page_table i
      page_directories := fun n e =>
        if n = process_number then
          if e = 0 then
            { p.page_directories n e with
              present := 1, read_write := 1, user_supervisor := 1, write_through := 0,
              cache_disabled := 0, accessed := 0, page_size := 0, global := 0, avail := 0,
              table_addr := p.addr_new_page_table >>> 12 }
          else if e = 1 then
            { p.page_directories n e with
              present := 1, read_write := 1, user_supervisor := 0, write_through := 0,
              cache_disabled := 0, accessed := 0, dirty := 0, page_size := 1, global := 1,
              avail := 0, pat := 0, page_addr := 1 }
          else if e = PROGRAM_IMG_ENTRY then
            { p.page_directories n e with
              present := 1, read_write := 1, user_supervisor := 1, write_through := 0,
              cache_disabled := 0, accessed := 0, dirty := 0, page_size := 1, global := 0,
              avail := 0, pat := 0, page_addr := process_number + 1 }
          else p.page_directories n e
        else p.page_directories n e }
    (p.page_directory_addr process_number)

/-- `setup_new_task(process_number)`: the return value and the new state. -/
def setup_new_task (k : kernel_t) (process_number : Nat) : Int × kernel_t :=
  if process_number ≥ MAX_NUM_OF_PROCESSES then (-1, k)
  else (0, set_paging k (k.paging.new_task process_number))

/-- The assignment of `&page_directories[n]` to `page_dir_addr` and the load
of `%cr3` with it, as in `halt`. -/
def paging_t.switch_to (p : paging_t) (n : Nat) : paging_t :=
  paging_t.load_cr3 { p with page_dir_addr := p.page_directory_addr n } (p.page_directory_addr n)

/-- The assignment of `&page_directories[n]` to `page_dir_addr` and to
`page_dir_addr1` and the load of `%cr3` with it, as in `pit_interruption`. -/
def paging_t.switch_to1 (p : paging_t) (n : Nat) : paging_t :=
  paging_t.load_cr3
    { p with page_dir_addr := p.page_directory_addr n, page_dir_addr1 := p.page_directory_addr n }
    (p.page_directory_addr n)

/-! ## syscalls.c: open -/

/-- The string literal `"stdin"`. -/
def str_stdin : List Nat := [115, 116, 100, 105, 110]

/-- The string literal `"stdout"`. -/
def str_stdout : List Nat := [115, 116, 100, 111, 117, 116]

/-- The string literal `"shell"`. -/
def str_shell : List Nat := [115, 104, 101, 108, 108]

/-- `rtc_open()` of `rtc.c`, which always returns 0. -/
def rtc_open : Int := 0

/-- The PCB with `fds[fd].jumptable = jumptable` and `fds[fd].flags = IN_USE`. -/
def pcb_t.open_std (p : pcb_t) (fd : Nat) (jumptable : jumptable_t) : pcb_t :=
  { p with fds := fun i =>
      if i = fd then { p.fds i with jumptable := jumptable, flags := IN_USE } else p.fds i }

/-- `open_stdin(fd)`. -/
def open_stdin (k : kernel_t) (fd : Nat) : kernel_t :=
  update_pcb k (k.kernel_stack_bottom &&& ALIGN_8KB) fun p => p.open_std fd .stdin_fops_table

/-- `open_stdout(fd)`. -/
def open_stdout (k : kernel_t) (fd : Nat) : kernel_t :=
  update_pcb k (k.kernel_stack_bottom &&& ALIGN_8KB) fun p => p.open_std fd .stdout_fops_table

/-- The search of `open` for the first free descriptor from `i` on, with `n`
descriptors left to look at. -/
def open_find_fd (p : pcb_t) : Nat → Nat → Option Nat
  | _, 0 => none
  | i, n + 1 => if (p.fds i).flags = NOT_IN_USE then some i else open_find_fd p (i + 1) n

/-- The PCB after `open` filled descriptor `i` for `tempdentry` and copied the
`len` characters of `filename` into `filenames[i]`. -/
def pcb_t.open_file (p : pcb_t) (i : Nat) (tempdentry : dentry_t) (filename : Nat → Nat)
    (len : Nat) : pcb_t :=
  pcb_store
    { p with fds := fun j =>
        if j = i then
          { p.fds j with
            jumptable :=
              if tempdentry.filetype = FILE_TYPE_RTC then .rtc_fops_table
              else if tempdentry.filetype = FILE_TYPE_DIRECTORY then .dir_fops_table
              else if tempdentry.filetype = FILE_TYPE_REGULAR_FILE then .file_fops_table
              else (p.fds j).jumptable
            flags := IN_USE
            inode := int32 tempdentry.inode }
        else p.fds j }
    (128 + 32 * i) (strcpy_bytes filename len)

/-- The system call `open(filename)` (`open` is a keyword here): the return
value and the new state. -/
def sys_open (k : kernel_t) (filename : List Nat) : result_t (Int × kernel_t) :=
  if strncmp (view filename) (view str_stdin) 5 = 0 then .ok (0, open_stdin k 0)
  else if strncmp (view filename) (view str_stdout) 5 = 0 then .ok (0, open_stdout k 1)
  else
    match read_dentry_by_name k.fs (view filename) with
    | .fault => .fault
    | .hang => .hang
    | .ok none => .ok (-1, k)
    | .ok (some tempdentry) =>
      match open_find_fd (k.pcbs (k.kernel_stack_bottom &&& ALIGN_8KB)) 2 6 with
      | none => .ok (-1, k)
      | some i =>
        if tempdentry.filetype = FILE_TYPE_RTC ∧ rtc_open = -1 then .ok (-1, k)
        else
          match strlen (view filename) with
          | none => .hang
          | some len =>
            .ok (i, update_pcb k (k.kernel_stack_bottom &&& ALIGN_8KB) fun p =>
              p.open_file i tempdentry (view filename) len)

/-! ## syscalls.c: execute -/

/-- The uninitialised locals of `execute` as found on the stack. -/
structure execute_locals_t where
  fname : Nat → Nat
  buf : Nat → Nat
  localargbuf : Nat → Nat
  open_process : Nat

/-- The locals of the command-parsing loop of `execute`. -/
structure parse_t where
  i : Nat
  first_space_reached : Nat
  length_of_fname : Nat
  fname : Nat → Nat
  localargbuf : Nat → Nat

/-- The parsing loop of `execute` over the bytes of `command` from index
`st.i` on. `none` is `return -1`. `fname` has 32 bytes and `localargbuf` has
`TERMINAL_BUFFER_MAX_SIZE`. After a name of 32 bytes the terminator is stored
at `fname[32]`, the stack byte that follows the array: it is index 32 of the
view `fname`, and it is taken not to be a byte of another local that `execute`
reads afterwards. An argument byte stored past the end of `localargbuf` is a
`fault`. -/
def execute_parse_loop : List Nat → parse_t → result_t (Option parse_t)
  | [], st => .ok (some st)
  | c :: cs, st =>
    if c = 0 then .ok (some st)
    else if c = 32 ∧ st.first_space_reached = 0 then
      if st.i ≤ 32 then
        execute_parse_loop cs
          { st with i := st.i + 1, first_space_reached := 1, length_of_fname := st.i,
                    fname := store st.fname st.i 0 }
      else .fault
    else if st.first_space_reached = 1 then
      if st.i - st.length_of_fname - 1 < TERMINAL_BUFFER_MAX_SIZE then
        execute_parse_loop cs
          { st with i := st.i + 1,
                    localargbuf := store st.localargbuf (st.i - st.length_of_fname - 1) c }
      else .fault
    else if st.i ≥ 32 ∧ st.first_space_reached = 0 then .ok none
    else if st.i < 32 then
      execute_parse_loop cs { st with i := st.i + 1, fname := store st.fname st.i c }
    else .fault

/-- The two terminators stored after the parsing loop (lines 235 to 240). The
index `i - length_of_fname - 1` is computed in `uint32_t`. For the empty
command it is `0xFFFFFFFF`, and the store goes to `localargbuf[-1]`, the stack
byte before the array, which leaves `localargbuf` as it was; for a name of 32
bytes without a space the terminator of the name goes to `fname[32]`, index 32
of the view. Both bytes are taken not to belong to a local that `execute`
reads afterwards. Any other index outside the arrays is a `fault`. -/
def execute_parse_end (st : parse_t) : result_t (Option parse_t) :=
  if (st.i + 4294967296 - st.length_of_fname - 1) % 4294967296 < TERMINAL_BUFFER_MAX_SIZE then
    if st.first_space_reached = 0 then
      if st.i ≤ 32 then
        .ok (some { st with
          localargbuf := store st.localargbuf
            ((st.i + 4294967296 - st.length_of_fname - 1) % 4294967296) 0
          fname := store st.fname st.i 0 })
      else .fault
    else
      .ok (some { st with
        localargbuf := store st.localargbuf
          ((st.i + 4294967296 - st.length_of_fname - 1) % 4294967296) 0 })
  else if (st.i + 4294967296 - st.length_of_fname - 1) % 4294967296 = 4294967295 then
    if st.first_space_reached = 0 then
      if st.i ≤ 32 then .ok (some { st with fname := store st.fname st.i 0 })
      else .fault
    else .ok (some st)
  else .fault

/-- The parsing of `command` in `execute` (lines 211 to 240). -/
def execute_parse (l : execute_locals_t) (command : List Nat) : result_t (Option parse_t) :=
  match execute_parse_loop command
      { i := 0, first_space_reached := 0, length_of_fname := 0, fname := l.fname,
        localargbuf := l.localargbuf } with
  | .fault => .fault
  | .hang => .hang
  | .ok none => .ok none
  | .ok (some st) => execute_parse_end st

/-- The four bytes `magic_nums` of `execute`. -/
def magic_nums : List Nat := [0x7f, 0x45, 0x4c, 0x46]

/-- The loop `entry_point |= (buf[i] << 8*i)` for `i = 0..3`, in `uint32_t`. -/
def save_entry_point (entry_point : Nat) (buf : Nat → Nat) : Nat :=
  (((entry_point ||| (buf 0 <<< 0) % 4294967296) ||| (buf 1 <<< 8) % 4294967296)
    ||| (buf 2 <<< 16) % 4294967296) ||| (buf 3 <<< 24) % 4294967296

/-- How the slot search of `execute` ends. -/
inductive slot_t where
  | found (open_process running_processes : Nat)
  | full
  | fallthrough
  deriving DecidableEq

/-- The slot search of `execute` (lines 258 to 273) at index `i` with `n = 8 - i`
iterations left: `found i rp` is the `break` with the new bitmask, `full` is
`return -1`, `fallthrough` the exit by `i < 8`. -/
def execute_find_slot (running_processes : Nat) : Nat → Nat → Nat → slot_t
  | 0, _, _ => .fallthrough
  | n + 1, i, bitmask =>
    if running_processes &&& bitmask = 0 then .found i (running_processes ||| bitmask)
    else if bitmask >>> 1 = 0 then .full
    else execute_find_slot running_processes n (i + 1) (bitmask >>> 1)

/-- The PCB of the new process after lines 299 to 347 of `execute`, given the
PCB `parent` found at `esp & ALIGN_8KB` (already marked as having a child):
the stack pointers, the parent and terminal, the process number, the reset of
the descriptors and the copy of the arguments, in this order. -/
def pcb_t.execute_fill (p : pcb_t) (esp ebp : Nat) (first : Bool) (parent_process_number : Nat)
    (tty_number : Nat) (open_process : Nat) (args : List Nat) : pcb_t :=
  pcb_store
    { p with
      parent_ksp := esp
      parent_kbp := ebp
      parent_process_number := if first then 0 else parent_process_number
      tty_number := if first then 1 else tty_number
      process_number := open_process
      fds := fun i =>
        if i < 8 then { p.fds i with inode := 0, fileposition := 0, flags := NOT_IN_USE }
        else p.fds i }
    394 args

/-- Lines 296 to 350 of `execute`: the PCB of `open_process` is filled, the
parent found at `esp & ALIGN_8KB` gets `has_child = 1` (unless this is the
first process, `running_processes == 0xC0`), and `kernel_stack_bottom` and
`tss.esp0` are set. `args` are the bytes `strcpy` copies from `localargbuf`.
The parent's `process_number` is read before, and its `tty_number` after,
`has_child = 1` is stored in it. -/
def execute_fill (k : kernel_t) (esp ebp : Nat) (open_process : Nat) (args : List Nat) :
    kernel_t :=
  set_kernel_stack_bottom
    (set_tss_esp0
      (update_pcb
        (update_pcb k (esp &&& ALIGN_8KB) fun p =>
          if k.running_processes = 0xC0 then p else { p with has_child := 1 })
        (pcb_addr open_process) fun p =>
          p.execute_fill esp ebp (k.running_processes = 0xC0)
            (k.pcbs (esp &&& ALIGN_8KB)).process_number
            (k.pcbs (esp &&& ALIGN_8KB)).tty_number open_process args)
      (_8MB - _8KB * open_process - 4))
    (_8MB - _8KB * open_process - 4)

/-- Lines 296 to 357 of `execute`: fill the PCB of `open_process`, open stdin
and stdout, and leave for user space. -/
def execute_start (k : kernel_t) (esp ebp : Nat) (open_process : Nat) (args : List Nat)
    (entry_point : Nat) : outcome_t :=
  match sys_open (execute_fill k esp ebp open_process args) str_stdin with
  | .fault => .fault
  | .hang => .hang
  | .ok (_, kd) =>
    match sys_open kd str_stdout with
    | .fault => .fault
    | .hang => .hang
    | .ok (_, ke) => .to_the_user_space entry_point ke

/-- Lines 275 to 294 of `execute`, after the slot `open_process` was taken:
read the entry point, set up paging, load the image. -/
def execute_load (k : kernel_t) (esp ebp : Nat) (st : parse_t) (buf : Nat → Nat)
    (open_process : Nat) : outcome_t :=
  match fs_read k.fs (some st.fname) ENTRY_POINT_OFFSET (some buf) 4 with
  | .fault => .fault
  | .hang => .hang
  | .ok (r, buf2) =>
    if r = -1 then .ret (-1) k
    else if (setup_new_task k open_process).1 = -1 then .ret (-1) (setup_new_task k open_process).2
    else
      match fs_load k.fs (some st.fname) with
      | .fault => .fault
      | .hang => .hang
      | .ok (_, img) =>
        match strlen st.localargbuf with
        | none => .hang
        | some len =>
          execute_start (load_program_img (setup_new_task k open_process).2 open_process img)
            esp ebp open_process (strcpy_bytes st.localargbuf len)
            (save_entry_point 0 (buf2.getD buf))

/-- `execute(command)` called with `%esp = esp`, `%ebp = ebp` and the stack
contents `l`; `command = none` is the null pointer. -/
def execute (k : kernel_t) (esp ebp : Nat) (l : execute_locals_t) (command : Option (List Nat)) :
    outcome_t :=
  match command with
  | none => .ret (-1) k
  | some command =>
    match execute_parse l command with
    | .fault => .fault
    | .hang => .hang
    | .ok none => .ret (-1) k
    | .ok (some st) =>
      match fs_read k.fs (some st.fname) 0 (some l.buf) 4 with
      | .fault => .fault
      | .hang => .hang
      | .ok (r, buf1) =>
        if r = -1 then .ret (-1) k
        else if strncmp (buf1.getD l.buf) (view magic_nums) 4 ≠ 0 then .ret (-1) k
        else
          match execute_find_slot k.running_processes 8 0 0x80 with
          | .full => .ret (-1) k
          | .fallthrough => execute_load k esp ebp st (buf1.getD l.buf) l.open_process
          | .found open_process running_processes =>
            execute_load
              (set_current_process_number (set_running_processes k running_processes)
                open_process)
              esp ebp st (buf1.getD l.buf) open_process

/-! ## syscalls.c: halt -/

/-- The uninitialised locals of `halt` as found on the stack. -/
structure halt_locals_t where
  buf : Nat → Nat
  entry_point : Nat

/-- The loop of `halt` that builds the mask clearing the bit of the caller:
`n` iterations of `bitmask = (bitmask >> 1) + 0x80` in `uint8_t`. -/
def halt_bitmask : Nat → Nat → Nat
  | 0, bitmask => bitmask
  | n + 1, bitmask => halt_bitmask n (((bitmask >>> 1) + 0x80) % 256)

/-- Lines 104 to 137 of `halt`: the state in which the parent resumes. -/
def halt_switch (k : kernel_t) (process_number parent_process_number : Nat) : kernel_t :=
  set_kernel_stack_bottom
    (set_tss_esp0
      (set_paging
        (update_pcb
          (set_current_process_number
            (set_running_processes k
              (k.running_processes &&& halt_bitmask process_number 0x7F))
            parent_process_number)
          (pcb_addr parent_process_number) fun p => { p with has_child := 0 })
        (k.paging.switch_to parent_process_number))
      (_8MB - _8KB * parent_process_number - 4))
    (_8MB - _8KB * parent_process_number - 4)

/-- `halt(status)` called with the stack contents `l`. Console output
(`printf`) is not part of the state. -/
def halt (k : kernel_t) (l : halt_locals_t) (status : Nat) : outcome_t :=
  if (k.pcbs (k.kernel_stack_bottom &&& ALIGN_8KB)).parent_process_number = 0 then
    match fs_read k.fs (some (view str_shell)) ENTRY_POINT_OFFSET (some l.buf) 4 with
    | .fault => .fault
    | .hang => .hang
    | .ok (r, buf) =>
      if r = -1 then .ret (-1) k
      else .to_the_user_space (save_entry_point l.entry_point (buf.getD l.buf)) k
  else
    .leave_ret ((status % 256 : Nat) : Int)
      (k.pcbs (k.kernel_stack_bottom &&& ALIGN_8KB)).parent_ksp
      (k.pcbs (k.kernel_stack_bottom &&& ALIGN_8KB)).parent_kbp
      (halt_switch k (k.pcbs (k.kernel_stack_bottom &&& ALIGN_8KB)).process_number
        (k.pcbs (k.kernel_stack_bottom &&& ALIGN_8KB)).parent_process_number)

/-! ## syscalls.c: bootup -/

/-- The PCB of shell `i` after lines 424 to 494 of `bootup`. -/
def pcb_t.bootup_fill (p : pcb_t) (esp ebp i : Nat) : pcb_t :=
  { p with
    parent_ksp := esp
    parent_kbp := ebp
    parent_process_number := 0
    process_number := i
    fds := fun j =>
      if j < 8 then { p.fds j with inode := 0, fileposition := 0, flags := NOT_IN_USE }
      else p.fds j
    has_child := 0
    tty_number := i - 1
    ksp_before_change := _8MB - _8KB * i - 4 - INITIAL_KERNEL_STACK_SIZE
    kbp_before_change := _8MB - _8KB * i - 4 - INITIAL_KERNEL_STACK_SIZE }

/-- One iteration of the loop of `bootup`, for shell `i`; `none` is
`return -1`. The frame pushed on the new kernel stack lies outside the PCB. -/
def bootup_shell (k : kernel_t) (esp ebp : Nat) (i : Nat) : result_t (Option kernel_t) :=
  if (setup_new_task k i).1 = -1 then .ok none
  else
    match fs_load k.fs (some (view str_shell)) with
    | .fault => .fault
    | .hang => .hang
    | .ok (_, img) =>
      match sys_open
          (set_kernel_stack_bottom
            (set_tss_esp0
              (update_pcb (load_program_img (setup_new_task k i).2 i img) (pcb_addr i) fun p =>
                p.bootup_fill esp ebp i)
              (_8MB - _8KB * i - 4))
            (_8MB - _8KB * i - 4))
          str_stdin with
      | .fault => .fault
      | .hang => .hang
      | .ok (_, k8) =>
        match sys_open k8 str_stdout with
        | .fault => .fault
        | .hang => .hang
        | .ok (_, k9) => .ok (some k9)

/-- `bootup()` called with `%esp = esp`, `%ebp = ebp` and the uninitialised
`buf`. The copies of video memory are not part of the state. -/
def bootup (k : kernel_t) (esp ebp : Nat) (buf : Nat → Nat) : outcome_t :=
  match fs_read k.fs (some (view str_shell)) ENTRY_POINT_OFFSET (some buf) 4 with
  | .fault => .fault
  | .hang => .hang
  | .ok (r, buf1) =>
    if r = -1 then .ret (-1) k
    else
      match bootup_shell k esp ebp 3 with
      | .fault => .fault
      | .hang => .hang
      | .ok none => .ret (-1) k
      | .ok (some k3) =>
        match bootup_shell k3 esp ebp 2 with
        | .fault => .fault
        | .hang => .hang
        | .ok none => .ret (-1) k3
        | .ok (some k2) =>
          match bootup_shell k2 esp ebp 1 with
          | .fault => .fault
          | .hang => .hang
          | .ok none => .ret (-1) k2
          | .ok (some k1) =>
            .to_the_user_space (save_entry_point 0 (buf1.getD buf))
              (set_current_process_number
                (set_running_processes k1 (k1.running_processes ||| INITIAL_SHELLS_BITMASK)) 1)

/-! ## scheduler.c -/

/-- The first loop of `pit_interruption`: `n` right shifts of `bitmask`. -/
def pit_bitmask : Nat → Nat → Nat
  | 0, bitmask => bitmask
  | n + 1, bitmask => pit_bitmask n (bitmask >>> 1)

/-- The `while` loop of `pit_interruption` (lines 66 to 91): the value of
`next_process_number` when the loop ends, `none` when the fuel runs out. -/
def pit_search (k : kernel_t) (current_process_number : Nat) : Nat → Nat → Nat → Option Nat
  | 0, _, _ => none
  | fuel + 1, next_process_number, bitmask =>
    if next_process_number = current_process_number then some next_process_number
    else if bitmask &&& (k.running_processes &&& 0x7F) ≠ 0
        ∧ (k.pcbs (pcb_addr next_process_number)).has_child = 0 then
      some next_process_number
    else
      pit_search k current_process_number fuel ((next_process_number + 1) % 8)
        (if bitmask >>> 1 = 0 then 0x80 else bitmask >>> 1)

/-- Lines 99 to 140 of `pit_interruption`: the state in which the process
`next_process_number` resumes. The terminal number is that of the PCB of the
process that is switched out. -/
def pit_switch (k : kernel_t) (esp ebp : Nat) (next_process_number : Nat) : kernel_t :=
  set_kernel_stack_bottom
    (set_tss_esp0
      (set_paging
        (set_process_term_number
          (set_current_process_number
            (update_pcb k (pcb_addr k.current_process_number) fun p =>
              { p with ksp_before_change := esp, kbp_before_change := ebp })
            next_process_number)
          (k.pcbs (pcb_addr k.current_process_number)).tty_number)
        (k.paging.switch_to1 next_process_number))
      (_8MB - _8KB * next_process_number - 4))
    (_8MB - _8KB * next_process_number - 4)

/-- `pit_interruption()` entered with `%esp = esp` and `%ebp = ebp` (the PIC
is not part of the state). -/
def pit_interruption (fuel : Nat) (k : kernel_t) (esp ebp : Nat) : outcome_t :=
  match pit_search k k.current_process_number fuel ((k.current_process_number + 1) % 8)
      (pit_bitmask ((k.current_process_number + 1) % 8) 0x80) with
  | none => .hang
  | some next_process_number =>
    if k.current_process_number = next_process_number then .ret 0 k
    else
      .leave_ret 0
        ((pit_switch k esp ebp next_process_number).pcbs
          (pcb_addr next_process_number)).ksp_before_change
        ((pit_switch k esp ebp next_process_number).pcbs
          (pcb_addr next_process_number)).kbp_before_change
        (pit_switch k esp ebp next_process_number)

/-- Eligibility of process `j` for the scheduler. -/
def eligible (k : kernel_t) (j : Nat) : Prop :=
  j ≠ 0 ∧ k.running_processes &&& (0x80 >>> j) ≠ 0 ∧ (k.pcbs (pcb_addr j)).has_child = 0

instance eligible_decidable (k : kernel_t) (j : Nat) : Decidable (eligible k j) := by
  unfold eligible; infer_instance

/-! ## A small system used to instantiate the theorems -/

/-- Memory that holds the listed bytes and zero elsewhere. -/
def mem_of (l : List (Nat × Nat)) : Nat → Nat := fun a => (l.lookup a).getD 0

/-- A file-system image with one directory entry, the regular file `shell`
of 28 bytes in data block 0: the four magic bytes and, at offset 24, the entry
point 0x08042010. -/
def demo_mem : Nat → Nat := mem_of
  [(0, 1), (4, 1), (8, 1),
   (64, 115), (65, 104), (66, 101), (67, 108), (68, 108), (96, 2), (100, 0),
   (4096, 28), (4100, 0),
   (8192, 0x7f), (8193, 0x45), (8194, 0x4c), (8195, 0x46),
   (8216, 0x10), (8217, 0x20), (8218, 0x04), (8219, 0x08)]

/-- An all-zero PCB. -/
def demo_pcb : pcb_t :=
  { fds := fun _ => { jumptable := .NULL, inode := 0, fileposition := 0, flags := 0 }
    filenames := fun _ => 0, parent_ksp := 0, parent_kbp := 0, process_number := 0,
    parent_process_number := 0, argbuf := fun _ => 0, argbuf_pad := fun _ => 0, has_child := 0,
    tty_number := 0, ksp_before_change := 0, kbp_before_change := 0 }

/-- Paging globals before `init_paging`. -/
def demo_paging : paging_t :=
  { page_dir_addr := 0, page_dir_addr1 := 0, new_page_dir_addr := 0, cr0 := 0, cr3 := 0,
    cr4 := 0, addr_page_directories := 0x500000, addr_new_page_table := 0x510000,
    page_directories := fun _ _ => ⟨0, 0, 0, 0, 0, 0, 0, 0, 0, 0, 0, 0, 0⟩
    new_page_table := fun _ => ⟨0, 0, 0, 0, 0, 0, 0, 0, 0, 0, 0⟩ }

/-- The kernel state before `bootup`: `running_processes = 0x80`,
`current_process_number = 0`, zeroed memory. -/
def demo_k0 : kernel_t :=
  { running_processes := 0x80, kernel_stack_bottom := 0, current_process_number := 0,
    tss_esp0 := 0, process_term_number := 0, pcbs := fun _ => demo_pcb,
    program_img := fun _ _ => 0, fs := fs_init demo_mem, paging := demo_paging }

/-- The state `bootup` leaves from `demo_k0`. -/
def demo_boot : kernel_t := ((bootup demo_k0 0x7FFF00 0x7FFF10 (fun _ => 0)).state).getD demo_k0

/-- Stack contents for `execute`: every byte of `localargbuf` is `'A'`. -/
def demo_locals : execute_locals_t :=
  { fname := fun _ => 0xAA, buf := fun _ => 0xBB, localargbuf := fun _ => 0x41, open_process := 9 }

/-- The state after the first shell of `demo_boot` executed `shell`. -/
def demo_run : kernel_t :=
  ((execute demo_boot 0x7FDF00 0x7FDF10 demo_locals (some str_shell)).state).getD demo_k0

/-- The state `execute` leaves when it starts the new process `open_process`
after marking it in `running_processes`: paging set up, image `img` loaded,
PCB filled with the argument bytes `args`, stdin and stdout opened. -/
def execute_result (k : kernel_t) (esp ebp open_process running_processes : Nat)
    (args img : List Nat) : kernel_t :=
  open_stdout
    (open_stdin
      (execute_fill
        (load_program_img
          (set_paging
            (set_current_process_number (set_running_processes k running_processes) open_process)
            (k.paging.new_task open_process))
          open_process img)
        esp ebp open_process args)
      0)
    1

/-- Byte `j` of the file with inode `inode`: the byte at position `j mod 4096`
of data block `data_blocks[j / 4096]`. -/
def file_byte (fs : filesys_t) (inode j : Nat) : Nat :=
  fs.mem (fs.data_start + inode_data_block fs inode (j / FS_PAGE_SIZE) * FS_PAGE_SIZE
    + j % FS_PAGE_SIZE)

/-- The array `a` after the bytes of `l` were stored at `a[i]`, `a[i+1]`, ... -/
def store_list (a : Nat → Nat) : Nat → List Nat → Nat → Nat
  | _, [] => a
  | i, c :: cs => store_list (store a i c) (i + 1) cs

/-! ## Reachable states -/

/-- The states the kernel reaches after `bootup` entered user space: any
sequence of calls of `execute`, of `halt` and of timer ticks, each with
arbitrary registers and stack contents, that end with a state (they return or
leave for user space). -/
inductive Reachable : kernel_t → Prop where
  | boot (k0 : kernel_t) (esp ebp : Nat) (buf : Nat → Nat) (e : Nat) (k : kernel_t) :
      bootup k0 esp ebp buf = .to_the_user_space e k → Reachable k
  | exec (k : kernel_t) (esp ebp : Nat) (l : execute_locals_t) (command : Option (List Nat))
      (k' : kernel_t) :
      Reachable k → (execute k esp ebp l command).state = some k' → Reachable k'
  | exit (k : kernel_t) (l : halt_locals_t) (status : Nat) (k' : kernel_t) :
      Reachable k → (halt k l status).state = some k' → Reachable k'
  | tick (fuel : Nat) (k : kernel_t) (esp ebp : Nat) (k' : kernel_t) :
      Reachable k → (pit_interruption fuel k esp ebp).state = some k' → Reachable k'

/-- The states reached from the initial value `running_processes = 0x80`:
`bootup` entered user space, and then any sequence of calls of `execute`, of
`halt` and of timer ticks. The system calls run on the kernel stack of the
current process, so `execute` is entered with `%esp` in the 8 KiB block of
`kernel_stack_bottom`; everything else (stack contents, `%ebp`, the command,
the status) is arbitrary. -/
inductive ReachableFromInit : kernel_t → Prop where
  | boot (k0 : kernel_t) (esp ebp : Nat) (buf : Nat → Nat) (e : Nat) (k : kernel_t) :
      k0.running_processes = 0x80 → bootup k0 esp ebp buf = .to_the_user_space e k →
      ReachableFromInit k
  | exec (k : kernel_t) (esp ebp : Nat) (l : execute_locals_t) (command : Option (List Nat))
      (k' : kernel_t) :
      ReachableFromInit k → esp &&& ALIGN_8KB = k.kernel_stack_bottom &&& ALIGN_8KB →
      (execute k esp ebp l command).state = some k' → ReachableFromInit k'
  | exit (k : kernel_t) (l : halt_locals_t) (status : Nat) (k' : kernel_t) :
      ReachableFromInit k → (halt k l status).state = some k' → ReachableFromInit k'
  | tick (fuel : Nat) (k : kernel_t) (esp ebp : Nat) (k' : kernel_t) :
      ReachableFromInit k → (pit_interruption fuel k esp ebp).state = some k' →
      ReachableFromInit k'

/-- Process `n` is one of the processes 1..7 and is marked in
`running_processes`. -/
def live (k : kernel_t) (n : Nat) : Prop :=
  1 ≤ n ∧ n ≤ 7 ∧ k.running_processes &&& (0x80 >>> n) ≠ 0

/-- The shape of the process table in a running system: the sentinel bit is
set, the current process is live and runs on its own kernel stack, the PCB of
every live process carries its own number, a nonzero parent number names a
live process that is marked as having a child, no two live processes have the
same parent, and the current process is nobody's parent. -/
structure process_tree (k : kernel_t) : Prop where
  sentinel : k.running_processes &&& 0x80 ≠ 0
  current : live k k.current_process_number
  stack : k.kernel_stack_bottom = _8MB - _8KB * k.current_process_number - 4
  numbered : ∀ n, live k n → (k.pcbs (pcb_addr n)).process_number = n
  parent : ∀ n, live k n → (k.pcbs (pcb_addr n)).parent_process_number ≠ 0 →
    live k (k.pcbs (pcb_addr n)).parent_process_number
      ∧ (k.pcbs (pcb_addr (k.pcbs (pcb_addr n)).parent_process_number)).has_child ≠ 0
  one_child : ∀ n m, live k n → live k m → (k.pcbs (pcb_addr n)).parent_process_number ≠ 0 →
    (k.pcbs (pcb_addr n)).parent_process_number = (k.pcbs (pcb_addr m)).parent_process_number →
    n = m
  leaf : ∀ n, live k n →
    (k.pcbs (pcb_addr n)).parent_process_number ≠ k.current_process_number

/-! ## syscalls.c: read, close and getargs -/

/-- The value of an `int32_t` converted to `uint32_t`. -/
def uint32 (i : Int) : Nat := (i % 4294967296).toNat

/-- Byte `k` (0 the least significant) of the little-endian word `w`. -/
def word_byte (w k : Nat) : Nat := w / 256 ^ k % 256

/-- The byte at offset `a` of the struct `pcb_t`, for the members behind the
array `fds` (offsets 128 to 511), by the i386 layout. -/
def pcb_t.byte (p : pcb_t) (a : Nat) : Nat :=
  if a < 128 then 0
  else if a < 384 then p.filenames (a - 128)
  else if a < 388 then word_byte p.parent_ksp (a - 384)
  else if a < 392 then word_byte p.parent_kbp (a - 388)
  else if a = 392 then p.process_number
  else if a = 393 then p.parent_process_number
  else if a < 494 then p.argbuf (a - 394)
  else if a < 496 then p.argbuf_pad (a - 494)
  else if a < 500 then word_byte p.has_child (a - 496)
  else if a < 504 then word_byte p.tty_number (a - 500)
  else if a < 508 then word_byte p.ksp_before_change (a - 504)
  else if a < 512 then word_byte p.kbp_before_change (a - 508)
  else 0

/-- The string that starts at offset `off` of the PCB (`filenames[fd]` is at
`128 + 32 * fd`, `argbuf` at 394), as a view: an array without a zero byte
runs on into the members behind it. `none` when there is no zero byte up to
the end of the struct: the string then runs on into the stack area, which is
not modelled. -/
def pcb_t.string_at (p : pcb_t) (off : Nat) : Option (Nat → Nat) :=
  if (List.range (512 - off)).any (fun j => p.byte (off + j) == 0) then
    some fun j => if off + j < 512 then p.byte (off + j) else 0
  else none

/-- The assignments to the globals of `files.c`. -/
@[simps]
def set_fs (k : kernel_t) (fs : filesys_t) : kernel_t :=
  { k with fs := fs }

/-- `file_read(buf, length, fname, offset)`. -/
def file_read (fs : filesys_t) (buf : Option (Nat → Nat)) (length : Nat)
    (fname : Option (Nat → Nat)) (offset : Nat) : result_t (Int × Option (Nat → Nat)) :=
  fs_read fs fname offset buf length

/-- `dir_read(buf)`: the return value, the new contents of `buf` and the new
globals of `files.c`. -/
def dir_read (fs : filesys_t) (buf : Nat → Nat) : result_t (Int × (Nat → Nat) × filesys_t) :=
  if fs.dir_reads ≥ fs.fs_stats.num_dentries then .ok (0, buf, { fs with dir_reads := 0 })
  else
    match strlen (dentry_filename fs fs.dir_reads) with
    | none => .hang
    | some len =>
      .ok (int32 len, store_bytes (strcpy_bytes (dentry_filename fs fs.dir_reads) len) buf,
        { fs with dir_reads := (fs.dir_reads + 1) % 4294967296 })

/-- `rtc_read()` of `rtc.c`: it returns 0 once the next RTC interrupt has
occurred (the flag it waits for is not part of the state). -/
def rtc_read : Int := 0

/-- `no_function()`, which always returns 0. -/
def no_function : Int := 0

/-- The PCB with `fds[fd].fileposition += bytesread`, in `int32_t`. -/
def pcb_t.add_fileposition (p : pcb_t) (fd : Nat) (bytesread : Int) : pcb_t :=
  { p with fds := fun i =>
      if i = fd then
        { p.fds i with fileposition := int32 (uint32 ((p.fds i).fileposition + bytesread)) }
      else p.fds i }

/-- The system call `read(fd, buf, nbytes)`: the return value, the new
contents of `buf` and the new state. The call through `jumptable[1]` reaches
`file_read`, `dir_read`, `rtc_read`, `no_function` (stdout) or `terminal_read`
(stdin); the terminal driver works on the keyboard state, which is not part of
`kernel_t`, so what `terminal_read(buf, nbytes)` does is the argument
`terminal`. A call through a null or unknown table is a `fault`. -/
def read (k : kernel_t) (fd : Int) (buf : Option (Nat → Nat)) (nbytes : Int)
    (terminal : (Nat → Nat) → Int → result_t (Int × (Nat → Nat))) :
    result_t (Int × Option (Nat → Nat) × kernel_t) :=
  match buf with
  | none => .ok (-1, none, k)
  | some b =>
    if fd < 0 ∨ fd > 7
        ∨ ((k.pcbs (k.kernel_stack_bottom &&& ALIGN_8KB)).fds fd.toNat).flags = NOT_IN_USE then
      .ok (-1, some b, k)
    else
      match ((k.pcbs (k.kernel_stack_bottom &&& ALIGN_8KB)).fds fd.toNat).jumptable with
      | .NULL => .fault
      | .other _ => .fault
      | .stdin_fops_table =>
        match terminal b nbytes with
        | .fault => .fault
        | .hang => .hang
        | .ok (bytesread, b') =>
          .ok (bytesread, some b', update_pcb k (k.kernel_stack_bottom &&& ALIGN_8KB) fun p =>
            p.add_fileposition fd.toNat bytesread)
      | .stdout_fops_table =>
        .ok (no_function, some b, update_pcb k (k.kernel_stack_bottom &&& ALIGN_8KB) fun p =>
          p.add_fileposition fd.toNat no_function)
      | .rtc_fops_table =>
        .ok (rtc_read, some b, update_pcb k (k.kernel_stack_bottom &&& ALIGN_8KB) fun p =>
          p.add_fileposition fd.toNat rtc_read)
      | .dir_fops_table =>
        match dir_read k.fs b with
        | .fault => .fault
        | .hang => .hang
        | .ok (bytesread, b', fs') =>
          .ok (bytesread, some b',
            update_pcb (set_fs k fs') (k.kernel_stack_bottom &&& ALIGN_8KB) fun p =>
              p.add_fileposition fd.toNat bytesread)
      | .file_fops_table =>
        match (k.pcbs (k.kernel_stack_bottom &&& ALIGN_8KB)).string_at (128 + 32 * fd.toNat) with
        | none => .fault
        | some filename =>
          match file_read k.fs (some b) (uint32 nbytes) (some filename)
              (uint32 ((k.pcbs (k.kernel_stack_bottom &&& ALIGN_8KB)).fds fd.toNat).fileposition)
            with
          | .fault => .fault
          | .hang => .hang
          | .ok (bytesread, b') =>
            .ok (bytesread, b', update_pcb k (k.kernel_stack_bottom &&& ALIGN_8KB) fun p =>
              p.add_fileposition fd.toNat bytesread)

/-- The system call `close(fd)`: the return value and the new state. The call
through `jumptable[3]` reaches `rtc_close`, `file_close`, `dir_close` or
`no_function`, which all return 0; through a null or unknown table it is a
`fault`. -/
def close (k : kernel_t) (fd : Int) : result_t (Int × kernel_t) :=
  if fd < 2 ∨ fd > 7
      ∨ ((k.pcbs (k.kernel_stack_bottom &&& ALIGN_8KB)).fds fd.toNat).flags = NOT_IN_USE then
    .ok (-1, k)
  else
    match ((k.pcbs (k.kernel_stack_bottom &&& ALIGN_8KB)).fds fd.toNat).jumptable with
    | .NULL => .fault
    | .other _ => .fault
    | _ =>
      .ok (0, update_pcb k (k.kernel_stack_bottom &&& ALIGN_8KB) fun p =>
        { p with fds := fun i =>
            if i = fd.toNat then
              { jumptable := .NULL, inode := 0, fileposition := 0, flags := NOT_IN_USE }
            else p.fds i })

/-- The system call `getargs(buf, nbytes)`: the return value and the new
contents of `buf`. The comparison `strlen(argbuf) > nbytes` is unsigned. -/
def getargs (k : kernel_t) (buf : Option (Nat → Nat)) (nbytes : Int) :
    result_t (Int × Option (Nat → Nat)) :=
  match buf with
  | none => .ok (-1, none)
  | some b =>
    if nbytes = 0 then .ok (-1, some b)
    else
      match (k.pcbs (k.kernel_stack_bottom &&& ALIGN_8KB)).string_at 394 with
      | none => .fault
      | some argbuf =>
        match strlen argbuf with
        | none => .hang
        | some len =>
          if len > uint32 nbytes then .ok (-1, some b)
          else .ok (0, some (store_bytes (strcpy_bytes argbuf len) b))

/-! ## A second file system used to instantiate the theorems -/

/-- A file-system image with two inodes and one data block. The regular file
`f` (inode 0) has size 4096 and `g` (inode 1) has size 8192; in both inodes
`data_blocks[0]` is 0 and `data_blocks[1]` is 1, which is not below the number
of data blocks. Data block 0 ends with the bytes `a` to `f`. -/
def demo_mem2 : Nat → Nat := mem_of
  [(0, 2), (4, 2), (8, 1),
   (64, 102), (96, 2), (100, 0),
   (128, 103), (160, 2), (164, 1),
   (4097, 0x10), (4100, 0), (4104, 1),
   (8193, 0x20), (8196, 0), (8200, 1),
   (12288, 0x7f), (12289, 0x45), (12290, 0x4c), (12291, 0x46),
   (16378, 97), (16379, 98), (16380, 99), (16381, 100), (16382, 101), (16383, 102)]

/-- The file system of `demo_mem2`. -/
def demo_fs2 : filesys_t := fs_init demo_mem2

/-- A kernel state on `demo_fs2`: process 1 is current and its PCB is zeroed
except for the descriptors 0 and 1, which are in use. -/
def demo_k2 : kernel_t :=
  { running_processes := 0xC0, kernel_stack_bottom := _8MB - _8KB * 1 - 4,
    current_process_number := 1, tss_esp0 := _8MB - _8KB * 1 - 4, process_term_number := 0,
    pcbs := fun _ => (demo_pcb.open_std 0 .stdin_fops_table).open_std 1 .stdout_fops_table,
    program_img := fun _ _ => 0, fs := demo_fs2, paging := demo_paging }

/-- The string literal `"f"`. -/
def str_f : List Nat := [102]

/-- A terminal driver that delivers nothing. -/
def demo_terminal : (Nat → Nat) → Int → result_t (Int × (Nat → Nat)) := fun b _ => .ok (0, b)

/-- Every directory entry holds a zero byte: the string `filename` of each of
the 63 entries ends inside the 64-byte entry. -/
def dentries_terminated (fs : filesys_t) : Prop :=
  ∀ i, i < MAX_NUM_FS_DENTRIES → ∃ j, j < 64 ∧ dentry_filename fs i j = 0

/-- The state after process 1 of `demo_k2` opened the file `f`. -/
def demo_k2_open : kernel_t :=
  match sys_open demo_k2 str_f with
  | .ok (_, k) => k
  | _ => demo_k2

/-- The state `demo_k2` with all eight descriptors of process 1 in use. -/
def demo_k2_full : kernel_t :=
  update_pcb demo_k2 (demo_k2.kernel_stack_bottom &&& ALIGN_8KB) fun p =>
    { p with fds := fun i =>
        if i < 2 then p.fds i
        else { jumptable := .file_fops_table, inode := 0, fileposition := 0, flags := IN_USE } }

/-- The state after the first shell of `demo_boot` executed `shell ab`. -/
def demo_args : kernel_t :=
  ((execute demo_boot 0x7FDF00 0x7FDF10 demo_locals (some (str_shell ++ [32, 97, 98]))).state).getD
    demo_k0

/-- Successive system calls `read(fd, buf, n)` for the `n` of a list, all on
the same buffer: the values returned, the final contents of the buffer and
the final state. -/
def read_calls (k : kernel_t) (fd : Int) (b : Nat → Nat)
    (terminal : (Nat → Nat) → Int → result_t (Int × (Nat → Nat))) :
    List Int → result_t (List Int × (Nat → Nat) × kernel_t)
  | [] => .ok ([], b, k)
  | n :: ns =>
    match read k fd (some b) n terminal with
    | .fault => .fault
    | .hang => .hang
    | .ok (r, b', k') =>
      match read_calls k' fd (b'.getD b) terminal ns with
      | .fault => .fault
      | .hang => .hang
      | .ok (rs, b'', k'') => .ok (r :: rs, b'', k'')

/-- Written from the specification: the counts of successive reads of
`n₁, n₂, ...` bytes from a file of size `s` whose byte offset is `pos`; each
read returns `min(n, s - pos)` and advances the offset by that count. -/
def spec_read_counts (s : Nat) : Nat → List Nat → List Nat
  | _, [] => []
  | pos, n :: ns => min n (s - pos) :: spec_read_counts s (pos + min n (s - pos)) ns

/-! ## syscalls.c: vidmap -/

/-- Modelled from the spec: `_128MB` of the absent `lib.h`, the virtual
address 128 MiB of the program image. -/
def _128MB : Nat := 0x8000000

/-- Modelled from the spec: `_4MB` of the absent `lib.h`, the size of the
program page. -/
def _4MB : Nat := 0x400000

/-- Modelled from the spec: `_4KB` of the absent `lib.h`, the size of a text
video buffer. -/
def _4KB : Nat := 0x1000

/-- Modelled from the spec: `VIDEO` of the absent `lib.h`, the physical
address of text video memory. -/
def VIDEO : Nat := 0xB8000

/-- The addresses `VIDEO_BUF1`, `VIDEO_BUF2` and `VIDEO_BUF3` of the three
back-buffers: constants of the absent `lib.h` whose values the specification
does not give. -/
structure video_bufs_t where
  VIDEO_BUF1 : Nat
  VIDEO_BUF2 : Nat
  VIDEO_BUF3 : Nat

/-- `get_tty_number()`: the `tty_number` of the PCB of the current process. -/
def get_tty_number (k : kernel_t) : Nat :=
  (k.pcbs (k.kernel_stack_bottom &&& ALIGN_8KB)).tty_number

/-- The system call `vidmap(screen_start)`: the return value and the pointer
stored in `*screen_start`, `none` when nothing is stored. -/
def vidmap (k : kernel_t) (v : video_bufs_t) (screen_start : Nat) : Int × Option Nat :=
  if screen_start < _128MB ∨ screen_start > _128MB + _4MB then (-1, none)
  else
    match get_tty_number k with
    | 0 => (0, some v.VIDEO_BUF1)
    | 1 => (0, some v.VIDEO_BUF2)
    | 2 => (0, some v.VIDEO_BUF3)
    | _ => (0, none)

/-! ## keyboard.c: terminal_read -/

/-- The globals of `keyboard.c`. `command_buffer` is the array
`command_buffer[3][TERMINAL_BUFFER_MAX_SIZE]` flattened: byte `i` of terminal
`t` is at `1024 * t + i`. -/
structure keyboard_t where
  active_terminal : Nat
  command_buffer : Nat → Nat
  command_length : Nat → Nat
  cursor_x : Nat → Nat
  keyboardflag : Nat → Nat
  allow_terminal_read : Nat → Nat

/-- The copy loop of `terminal_read` from index `i` on with `n` iterations
left: `buf[i] = command_buffer[active_terminal][i]` and
`command_buffer[active_terminal][i] = NULL`. The result is the new `buf` and
the new `command_buffer`. -/
def terminal_read_loop (active_terminal : Nat) : Nat → Nat → (Nat → Nat) → (Nat → Nat) →
    (Nat → Nat) × (Nat → Nat)
  | 0, _, buf, command_buffer => (buf, command_buffer)
  | n + 1, i, buf, command_buffer =>
    terminal_read_loop active_terminal n (i + 1)
      (store buf i (command_buffer (TERMINAL_BUFFER_MAX_SIZE * active_terminal + i)))
      (store command_buffer (TERMINAL_BUFFER_MAX_SIZE * active_terminal + i) 0)

/-- `terminal_read(buf, nbytes)` called by the current process of `k`: the
return value, the new contents of `buf` and the new globals of `keyboard.c`.
The call spins while `allow_terminal_read[get_tty_number()]` is 0, which is a
`hang` here since no keyboard interrupt is part of the call: this is the run
in which no interrupt arrives between the statements of the function
(`terminal_read_interrupted` is a run with one). A store outside the arrays
(`active_terminal` above 2, or an index past the end of `command_buffer`) is a
`fault`. The calls `set_command_location` and `new_line` of `lib.c` act on the
screen state only, which is not part of `keyboard_t`. -/
def terminal_read (k : kernel_t) (kb : keyboard_t) (buf : Nat → Nat) (nbytes : Int) :
    result_t (Int × (Nat → Nat) × keyboard_t) :=
  if kb.allow_terminal_read (get_tty_number k) = 0 then .hang
  else if kb.active_terminal ≥ 3 then .fault
  else if TERMINAL_BUFFER_MAX_SIZE * kb.active_terminal + nbytes.toNat
      > 3 * TERMINAL_BUFFER_MAX_SIZE then .fault
  else
    .ok ((nbytes.toNat : Int),
      (terminal_read_loop kb.active_terminal nbytes.toNat 0 buf kb.command_buffer).1,
      { kb with
        command_buffer :=
          (terminal_read_loop kb.active_terminal nbytes.toNat 0 buf kb.command_buffer).2
        command_length := store kb.command_length kb.active_terminal 0
        cursor_x := store kb.cursor_x kb.active_terminal 0
        allow_terminal_read := store kb.allow_terminal_read kb.active_terminal 0 })

/-! ## rtc.c: rtc_write and update_vid -/

/-- The RTC state `rtc_write` works on: register A of the CMOS. -/
structure rtc_t where
  register_a : Nat

/-- The `switch` of `rtc_write`: the rate bits for `freq`, `none` for the
frequencies that return -1. -/
def rtc_rate (freq : Int) : Option Nat :=
  if freq = 8192 ∨ freq = 4096 ∨ freq = 2048 then none
  else if freq = 1024 then some 0x06
  else if freq = 512 then some 0x07
  else if freq = 256 then some 0x08
  else if freq = 128 then some 0x09
  else if freq = 64 then some 0x0A
  else if freq = 32 then some 0x0B
  else if freq = 16 then some 0x0C
  else if freq = 8 then some 0x0D
  else if freq = 4 then some 0x0E
  else if freq = 2 then some 0x0F
  else if freq = 0 then some 0x00
  else none

/-- `rtc_write(buf, nbytes)`: the return value and the new RTC state. `buf`
is the `int32_t` it points to, `none` for a null pointer. -/
def rtc_write (r : rtc_t) (buf : Option Int) (nbytes : Int) : Int × rtc_t :=
  if 4 ≠ nbytes then (-1, r)
  else
    match buf with
    | none => (-1, r)
    | some freq =>
      match rtc_rate freq with
      | none => (-1, r)
      | some rs => (0, { register_a := (0xF0 &&& r.register_a) ||| rs })

/-- The first and the last loop of `memcpy`: `n` single bytes are copied
from `src` to `dest`, lowest address first. -/
def memcpy_bytes (mem : Nat → Nat) : Nat → Nat → Nat → Nat → Nat
  | _, _, 0 => mem
  | dest, src, n + 1 => memcpy_bytes (store mem dest (mem src)) (dest + 1) (src + 1) n

/-- The `rep movsl` of `memcpy`: `n` double words are copied from `src` to
`dest`, lowest address first, each read in full before it is stored. -/
def memcpy_dwords (mem : Nat → Nat) : Nat → Nat → Nat → Nat → Nat
  | _, _, 0 => mem
  | dest, src, n + 1 =>
    memcpy_dwords
      (store (store (store (store mem dest (mem src)) (dest + 1) (mem (src + 1))) (dest + 2)
        (mem (src + 2))) (dest + 3) (mem (src + 3)))
      (dest + 4) (src + 4) n

/-- `memcpy(dest, src, n)` of `lib.c` on flat memory: single bytes until
`dest` is 4-aligned, then double words, then the remaining bytes. -/
def memcpy (mem : Nat → Nat) (dest src n : Nat) : Nat → Nat :=
  memcpy_bytes
    (memcpy_dwords (memcpy_bytes mem dest src (min n ((4 - dest % 4) % 4)))
      (dest + min n ((4 - dest % 4) % 4)) (src + min n ((4 - dest % 4) % 4))
      ((n - min n ((4 - dest % 4) % 4)) / 4))
    (dest + min n ((4 - dest % 4) % 4) + 4 * ((n - min n ((4 - dest % 4) % 4)) / 4))
    (src + min n ((4 - dest % 4) % 4) + 4 * ((n - min n ((4 - dest % 4) % 4)) / 4))
    ((n - min n ((4 - dest % 4) % 4)) % 4)

/-- The memory `update_vid` works on and `active_term` of `lib.c`. -/
structure screen_t where
  mem : Nat → Nat
  active_term : Nat

/-- `update_vid()`. -/
def update_vid (v : video_bufs_t) (s : screen_t) : screen_t :=
  match s.active_term with
  | 0 => { s with mem := memcpy s.mem VIDEO v.VIDEO_BUF1 _4KB }
  | 1 => { s with mem := memcpy s.mem VIDEO v.VIDEO_BUF2 _4KB }
  | 2 => { s with mem := memcpy s.mem VIDEO v.VIDEO_BUF3 _4KB }
  | _ => s

/-- The address of the back-buffer of terminal `t`. -/
def video_bufs_t.addr (v : video_bufs_t) (t : Nat) : Nat :=
  match t with
  | 0 => v.VIDEO_BUF1
  | 1 => v.VIDEO_BUF2
  | _ => v.VIDEO_BUF3

/-- No byte of the 4 KiB at `VIDEO` lies in one of the three back-buffers. -/
def video_bufs_t.apart (v : video_bufs_t) : Prop :=
  ∀ t, t < 3 → v.addr t + _4KB ≤ VIDEO ∨ VIDEO + _4KB ≤ v.addr t

/-! ## Further states used to instantiate the theorems -/

/-- An example of back-buffer addresses. -/
def demo_bufs : video_bufs_t :=
  { VIDEO_BUF1 := 0xB9000, VIDEO_BUF2 := 0xBA000, VIDEO_BUF3 := 0xBB000 }

/-- A keyboard state: terminal 1 is active and holds the command `cat`;
terminal 0 holds the command `ls`, and Enter was pressed there. -/
def demo_kb : keyboard_t :=
  { active_terminal := 1
    command_buffer := mem_of [(0, 108), (1, 115), (1024, 99), (1025, 97), (1026, 116)]
    command_length := mem_of [(0, 2), (1, 3)]
    cursor_x := mem_of [(0, 2), (1, 3)]
    keyboardflag := fun _ => 0
    allow_terminal_read := mem_of [(0, 1)] }

/-- A keyboard state: terminal 0 is active and holds the command `ls`, and
Enter was pressed there. -/
def demo_kb0 : keyboard_t :=
  { active_terminal := 0
    command_buffer := mem_of [(0, 108), (1, 115)]
    command_length := mem_of [(0, 2)]
    cursor_x := mem_of [(0, 2)]
    keyboardflag := fun _ => 0
    allow_terminal_read := mem_of [(0, 1)] }

/-- A file-system image with one directory entry: a regular file (type 2,
inode 0, size 0) whose name is 32 letters `a`, so that the name fills its
field and has no terminator. -/
def demo_mem3 : Nat → Nat := fun a =>
  if a = 0 ∨ a = 4 ∨ a = 8 then 1
  else if 64 ≤ a ∧ a < 96 then 97
  else if a = 96 then 2
  else 0

/-- The file system of `demo_mem3`. -/
def demo_fs3 : filesys_t := fs_init demo_mem3
/-- Successive calls `dir_read(buf)`, `m` of them, all on the same buffer:
the values returned, the final contents of the buffer and the final globals
of `files.c`. -/
def dir_read_calls (fs : filesys_t) (buf : Nat → Nat) :
    Nat → result_t (List Int × (Nat → Nat) × filesys_t)
  | 0 => .ok ([], buf, fs)
  | m + 1 =>
    match dir_read fs buf with
    | .fault => .fault
    | .hang => .hang
    | .ok (r, b, fs') =>
      match dir_read_calls fs' b m with
      | .fault => .fault
      | .hang => .hang
      | .ok (rs, b', fs'') => .ok (r :: rs, b', fs'')

/-- A screen state for `demo_bufs`: terminal 1 is active; the memory holds
`i % 7` at byte `i` of its back-buffer and 0xEE elsewhere. -/
def demo_screen : screen_t :=
  { mem := fun a => if 0xBA000 ≤ a ∧ a < 0xBB000 then (a - 0xBA000) % 7 else 0xEE
    active_term := 1 }

/-! ## keyboard.h and keyboard.c: the keyboard driver -/

def FLAG_SHIFT : Nat := 0x01
def FLAG_CAPS : Nat := 0x02
def FLAG_SHIFT_CAPS_MASK : Nat := 0x03
def FLAG_CTRL : Nat := 0x04
def MAKE_1 : Nat := 0x02
def MAKE_EQUALS : Nat := 0x0D
def MAKE_Q : Nat := 0x10
def MAKE_R_SQUARE_BRACKET : Nat := 0x1B
def MAKE_A : Nat := 0x1E
def MAKE_ACCENT : Nat := 0x29
def MAKE_BACKSLASH : Nat := 0x2B
def MAKE_SLASH : Nat := 0x35
def MAKE_SPACE : Nat := 0x39
def MAKE_ENTER : Nat := 0x1C
def MAKE_BKSP : Nat := 0x0E
def MAKE_DELETE : Nat := 0x53
def MAKE_CAPS : Nat := 0x3A
def MAKE_L_SHFT : Nat := 0x2A
def MAKE_R_SHFT : Nat := 0x36
def BREAK_L_SHFT : Nat := 0xAA
def BREAK_R_SHFT : Nat := 0xB6
def MAKE_L_CTRL : Nat := 0x1D
def BREAK_L_CTRL : Nat := 0x9D
def MAKE_L_ALT : Nat := 0x38
def BREAK_L_ALT : Nat := 0xB8
def EXTRAS : Nat := 0xE0
def MAKE_L_ARROW : Nat := 0x4B
def MAKE_R_ARROW : Nat := 0x4D
def MAKE_L : Nat := 0x26
def MAKE_F1 : Nat := 0x3B
def MAKE_F2 : Nat := 0x3C
def MAKE_F3 : Nat := 0x3D

/-- The initialisers of the four rows of `kbd_chars[4][128]` (row 0 plain,
1 Shift, 2 Caps, 3 Shift and Caps) as character codes; each has 90 entries and
the remaining bytes of a row are zero. -/
def kbd_chars_rows : List (List Nat) :=
  [
    [0, 0, 49, 50, 51, 52, 53, 54, 55, 56, 57, 48, 45, 61, 0, 0, 113, 119, 101, 114, 116, 121,
     117, 105, 111, 112, 91, 93, 0, 0, 97, 115, 100, 102, 103, 104, 106, 107, 108, 59, 39, 96, 0,
     92, 122, 120, 99, 118, 98, 110, 109, 44, 46, 47, 0, 42, 0, 32, 0, 0, 0, 0, 0, 0, 0, 0, 0, 0,
     0, 0, 0, 0, 0, 0, 45, 0, 0, 0, 43, 0, 0, 0, 0, 0, 0, 0, 0, 0, 0, 0],
    [0, 0, 33, 64, 35, 36, 37, 94, 38, 42, 40, 41, 95, 43, 0, 0, 81, 87, 69, 82, 84, 89, 85, 73,
     79, 80, 123, 125, 0, 0, 65, 83, 68, 70, 71, 72, 74, 75, 76, 58, 34, 126, 0, 124, 90, 88, 67,
     86, 66, 78, 77, 60, 62, 63, 0, 42, 0, 32, 0, 0, 0, 0, 0, 0, 0, 0, 0, 0, 0, 0, 0, 0, 0, 0,
     45, 0, 0, 0, 43, 0, 0, 0, 0, 0, 0, 0, 0, 0, 0, 0],
    [0, 0, 49, 50, 51, 52, 53, 54, 55, 56, 57, 48, 45, 61, 0, 0, 81, 87, 69, 82, 84, 89, 85, 73,
     79, 80, 91, 93, 0, 0, 65, 83, 68, 70, 71, 72, 74, 75, 76, 59, 39, 96, 0, 92, 90, 88, 67, 86,
     66, 78, 77, 44, 46, 47, 0, 42, 0, 32, 0, 0, 0, 0, 0, 0, 0, 0, 0, 0, 0, 0, 0, 0, 0, 0, 45, 0,
     0, 0, 43, 0, 0, 0, 0, 0, 0, 0, 0, 0, 0, 0],
    [0, 0, 33, 64, 35, 36, 37, 94, 38, 42, 40, 41, 95, 43, 0, 0, 113, 119, 101, 114, 116, 121,
     117, 105, 111, 112, 123, 125, 0, 0, 97, 115, 100, 102, 103, 104, 106, 107, 108, 58, 34, 126,
     0, 124, 122, 120, 99, 118, 98, 110, 109, 60, 62, 63, 0, 42, 0, 32, 0, 0, 0, 0, 0, 0, 0, 0,
     0, 0, 0, 0, 0, 0, 0, 0, 45, 0, 0, 0, 43, 0, 0, 0, 0, 0, 0, 0, 0, 0, 0, 0]
  ]

/-- `kbd_chars[flags][scancode]` for `flags < 4` and `scancode < 128`. -/
def kbd_chars (flags scancode : Nat) : Nat := (kbd_chars_rows.getD flags []).getD scancode 0

/-- `keyboard_open()`: the three command buffers, flags, lengths and cursors
are zeroed and terminal 0 is active. The calls into `lib.c` and the PIC act
on the screen and on ports only. -/
def keyboard_open (kb : keyboard_t) : keyboard_t :=
  { active_terminal := 0
    command_buffer := fun a => if a < 3 * TERMINAL_BUFFER_MAX_SIZE then 0 else kb.command_buffer a
    command_length := fun t => if t < 3 then 0 else kb.command_length t
    cursor_x := fun t => if t < 3 then 0 else kb.cursor_x t
    keyboardflag := fun t => if t < 3 then 0 else kb.keyboardflag t
    allow_terminal_read := fun t => if t < 3 then 0 else kb.allow_terminal_read t }

/-- The `while` loop of `place_character_at_index` with `n` iterations left,
on the flattened `command_buffer`; `a` is the address of
`command_buffer[active_terminal][index]`, so that `end_of_line` is at
`a + n - 1`: `command_buffer[..][end_of_line + 1] = command_buffer[..][end_of_line]`
and `end_of_line--`. -/
def place_character_loop (a : Nat) : Nat → (Nat → Nat) → Nat → Nat
  | 0, command_buffer => command_buffer
  | n + 1, command_buffer =>
    place_character_loop a n (store command_buffer (a + n + 1) (command_buffer (a + n)))

/-- `place_character_at_index(scancode, index)`. `index` and `end_of_line` are
`int`; the loop runs `end_of_line - index + 1` times when `index <= end_of_line`.
An access outside `command_buffer` is a `fault`. -/
def place_character_at_index (kb : keyboard_t) (scancode : Nat) (index : Int) :
    result_t keyboard_t :=
  if TERMINAL_BUFFER_MAX_SIZE * (kb.active_terminal : Int) + index < 0
      ∨ TERMINAL_BUFFER_MAX_SIZE * (kb.active_terminal : Int) + index
          ≥ 3 * TERMINAL_BUFFER_MAX_SIZE
      ∨ (index ≤ int32 (kb.command_length kb.active_terminal)
          ∧ TERMINAL_BUFFER_MAX_SIZE * (kb.active_terminal : Int)
              + int32 (kb.command_length kb.active_terminal) + 1
            ≥ 3 * TERMINAL_BUFFER_MAX_SIZE) then
    .fault
  else
    .ok { kb with
      command_buffer :=
        store
          (place_character_loop
            (TERMINAL_BUFFER_MAX_SIZE * (kb.active_terminal : Int) + index).toNat
            (int32 (kb.command_length kb.active_terminal) - index + 1).toNat kb.command_buffer)
          (TERMINAL_BUFFER_MAX_SIZE * (kb.active_terminal : Int) + index).toNat
          (kbd_chars (kb.keyboardflag kb.active_terminal &&& FLAG_SHIFT_CAPS_MASK) scancode)
      command_length :=
        store kb.command_length kb.active_terminal
          ((kb.command_length kb.active_terminal + 1) % 4294967296)
      cursor_x :=
        store kb.cursor_x kb.active_terminal
          ((kb.cursor_x kb.active_terminal + 1) % 4294967296) }

/-- The `while` loops of Backspace and Delete in `process_keyboard_input` with
`n` iterations left; `a` is the address of
`command_buffer[active_terminal][cursor_index]`:
`command_buffer[..][cursor_index] = command_buffer[..][cursor_index + 1]` and
`cursor_index++`. -/
def delete_loop : Nat → Nat → (Nat → Nat) → Nat → Nat
  | 0, _, command_buffer => command_buffer
  | n + 1, a, command_buffer =>
    delete_loop n (a + 1) (store command_buffer a (command_buffer (a + 1)))

/-- The `for` loop of Ctrl+L in `process_keyboard_input` from index `i` on,
with `n` iterations left: `command_buffer[active_terminal][i] = NULL`. -/
def clear_loop (active_terminal : Nat) : Nat → Nat → (Nat → Nat) → Nat → Nat
  | 0, _, command_buffer => command_buffer
  | n + 1, i, command_buffer =>
    clear_loop active_terminal n (i + 1)
      (store command_buffer (TERMINAL_BUFFER_MAX_SIZE * active_terminal + i) 0)

/-- `process_keyboard_input(scancode)`; `nextcode` is the byte the branch for
`EXTRAS` reads from the keyboard port. `cursor_index` is an `int`, the
comparisons with `command_length` are unsigned, and the decrements are taken
in `uint32_t`. An access outside the arrays (`active_terminal` above 2, or an
index outside `command_buffer`) is a `fault`. `set_active_term`,
`load_video_memory`, `clear_the_screen` and `update_cursor` act on the screen
and on ports only. -/
def process_keyboard_input (kb : keyboard_t) (scancode nextcode : Nat) : result_t keyboard_t :=
  if kb.active_terminal ≥ 3 then .fault
  else if kb.keyboardflag kb.active_terminal &&& FLAG_CTRL = 0
      ∧ ((scancode ≥ MAKE_1 ∧ scancode ≤ MAKE_EQUALS)
        ∨ (scancode ≥ MAKE_Q ∧ scancode ≤ MAKE_R_SQUARE_BRACKET)
        ∨ (scancode ≥ MAKE_A ∧ scancode ≤ MAKE_ACCENT)
        ∨ (scancode ≥ MAKE_BACKSLASH ∧ scancode ≤ MAKE_SLASH)
        ∨ scancode = MAKE_SPACE) then
    if (kb.command_length kb.active_terminal + 1) % 4294967296 < TERMINAL_BUFFER_MAX_SIZE then
      place_character_at_index kb scancode (int32 (kb.cursor_x kb.active_terminal))
    else .ok kb
  else if scancode = MAKE_ENTER then
    .ok { kb with allow_terminal_read := store kb.allow_terminal_read kb.active_terminal 1 }
  else if scancode = MAKE_BKSP then
    if int32 (kb.cursor_x kb.active_terminal) > 0 then
      if (int32 (kb.cursor_x kb.active_terminal) - 1).toNat
            < kb.command_length kb.active_terminal
          ∧ TERMINAL_BUFFER_MAX_SIZE * kb.active_terminal + kb.command_length kb.active_terminal
            ≥ 3 * TERMINAL_BUFFER_MAX_SIZE then
        .fault
      else
        .ok { kb with
          command_buffer :=
            delete_loop
              (kb.command_length kb.active_terminal
                - (int32 (kb.cursor_x kb.active_terminal) - 1).toNat)
              (TERMINAL_BUFFER_MAX_SIZE * kb.active_terminal
                + (int32 (kb.cursor_x kb.active_terminal) - 1).toNat)
              kb.command_buffer
          command_length :=
            store kb.command_length kb.active_terminal
              ((kb.command_length kb.active_terminal + 4294967295) % 4294967296)
          cursor_x :=
            store kb.cursor_x kb.active_terminal
              ((kb.cursor_x kb.active_terminal + 4294967295) % 4294967296) }
    else .ok kb
  else if scancode = MAKE_DELETE then
    if int32 (kb.cursor_x kb.active_terminal) ≥ 0
        ∧ (int32 (kb.cursor_x kb.active_terminal)).toNat
          < kb.command_length kb.active_terminal then
      if TERMINAL_BUFFER_MAX_SIZE * kb.active_terminal + kb.command_length kb.active_terminal
          ≥ 3 * TERMINAL_BUFFER_MAX_SIZE then
        .fault
      else
        .ok { kb with
          command_buffer :=
            delete_loop
              (kb.command_length kb.active_terminal
                - (int32 (kb.cursor_x kb.active_terminal)).toNat)
              (TERMINAL_BUFFER_MAX_SIZE * kb.active_terminal
                + (int32 (kb.cursor_x kb.active_terminal)).toNat)
              kb.command_buffer
          command_length :=
            store kb.command_length kb.active_terminal
              ((kb.command_length kb.active_terminal + 4294967295) % 4294967296) }
    else .ok kb
  else if scancode = MAKE_CAPS then
    .ok { kb with
      keyboardflag :=
        store kb.keyboardflag kb.active_terminal
          (kb.keyboardflag kb.active_terminal ^^^ FLAG_CAPS) }
  else if scancode = MAKE_L_SHFT ∨ scancode = MAKE_R_SHFT then
    .ok { kb with
      keyboardflag :=
        store kb.keyboardflag kb.active_terminal
          (kb.keyboardflag kb.active_terminal ||| FLAG_SHIFT) }
  else if scancode = BREAK_L_SHFT ∨ scancode = BREAK_R_SHFT then
    .ok { kb with
      keyboardflag :=
        store kb.keyboardflag kb.active_terminal (kb.keyboardflag kb.active_terminal &&& 0xFE) }
  else if scancode = MAKE_L_CTRL then
    .ok { kb with
      keyboardflag :=
        store kb.keyboardflag kb.active_terminal
          (kb.keyboardflag kb.active_terminal ||| FLAG_CTRL) }
  else if scancode = BREAK_L_CTRL then
    .ok { kb with
      keyboardflag :=
        store kb.keyboardflag kb.active_terminal (kb.keyboardflag kb.active_terminal &&& 0xFB) }
  else if scancode = MAKE_L_ALT then
    .ok { kb with
      keyboardflag :=
        store kb.keyboardflag kb.active_terminal (kb.keyboardflag kb.active_terminal ||| 0x08) }
  else if scancode = BREAK_L_ALT then
    .ok { kb with
      keyboardflag :=
        store kb.keyboardflag kb.active_terminal (kb.keyboardflag kb.active_terminal &&& 0xF7) }
  else if scancode ≥ MAKE_F1 ∧ scancode ≤ MAKE_F3 then
    if kb.keyboardflag kb.active_terminal &&& 0x8 ≠ 0 then
      if (scancode &&& 0x7) - 3 ≠ kb.active_terminal then
        .ok { kb with active_terminal := (scancode &&& 0x7) - 3 }
      else .ok kb
    else .ok kb
  else if scancode = EXTRAS then
    if nextcode = MAKE_L_ARROW ∧ kb.cursor_x kb.active_terminal > 0 then
      .ok { kb with
        cursor_x :=
          store kb.cursor_x kb.active_terminal
            ((kb.cursor_x kb.active_terminal + 4294967295) % 4294967296) }
    else if nextcode = MAKE_R_ARROW
        ∧ kb.cursor_x kb.active_terminal < kb.command_length kb.active_terminal then
      .ok { kb with
        cursor_x :=
          store kb.cursor_x kb.active_terminal
            ((kb.cursor_x kb.active_terminal + 1) % 4294967296) }
    else if nextcode = MAKE_L_CTRL then
      .ok { kb with
        keyboardflag :=
          store kb.keyboardflag kb.active_terminal
            (kb.keyboardflag kb.active_terminal ||| FLAG_CTRL) }
    else if nextcode = BREAK_L_CTRL then
      .ok { kb with
        keyboardflag :=
          store kb.keyboardflag kb.active_terminal
            (kb.keyboardflag kb.active_terminal &&& 0xFB) }
    else .ok kb
  else if kb.keyboardflag kb.active_terminal &&& FLAG_CTRL ≠ 0 then
    if scancode = MAKE_L then
      if TERMINAL_BUFFER_MAX_SIZE * kb.active_terminal + kb.command_length kb.active_terminal
          > 3 * TERMINAL_BUFFER_MAX_SIZE then
        .fault
      else
        .ok { kb with
          command_buffer :=
            clear_loop kb.active_terminal (kb.command_length kb.active_terminal) 0
              kb.command_buffer
          command_length := store kb.command_length kb.active_terminal 0
          cursor_x := store kb.cursor_x kb.active_terminal 0
          allow_terminal_read := store kb.allow_terminal_read kb.active_terminal 1
          keyboardflag :=
            store kb.keyboardflag kb.active_terminal
              (kb.keyboardflag kb.active_terminal &&& 0xFB) }
    else .ok kb
  else .ok kb

/-- The command of terminal `t`: the first `command_length[t]` bytes of
`command_buffer[t]`. -/
def keyboard_t.command (kb : keyboard_t) (t : Nat) : List Nat :=
  (List.range (kb.command_length t)).map fun i =>
    kb.command_buffer (TERMINAL_BUFFER_MAX_SIZE * t + i)

/-- For each of the three terminals, `cursor_x <= command_length <= 1023`. -/
def keyboard_t.cursor_in_command (kb : keyboard_t) : Prop :=
  ∀ t, t < 3 → kb.cursor_x t ≤ kb.command_length t ∧ kb.command_length t ≤ 1023

/-! ## States used to instantiate the theorems of the keyboard, open, read and execute -/

/-- A keyboard state: terminal 0 is active, holds the command `ls`, and its
Alt flag is set. -/
def demo_kb_alt : keyboard_t :=
  { active_terminal := 0
    command_buffer := mem_of [(0, 108), (1, 115)]
    command_length := mem_of [(0, 2)]
    cursor_x := mem_of [(0, 2)]
    keyboardflag := mem_of [(0, 8)]
    allow_terminal_read := fun _ => 0 }

/-- The string literal `"stdinfo"`. -/
def str_stdinfo : List Nat := [115, 116, 100, 105, 110, 102, 111]

/-- The string literal `"stdoux"`. -/
def str_stdoux : List Nat := [115, 116, 100, 111, 117, 120]

/-- A file-system image whose single directory entry is the regular file
`stdinfo` (inode 0, size 4, data block 0). -/
def demo_mem4 : Nat → Nat := mem_of
  [(0, 1), (4, 1), (8, 1),
   (64, 115), (65, 116), (66, 100), (67, 105), (68, 110), (69, 102), (70, 111), (96, 2),
   (100, 0), (4096, 4), (4100, 0)]

/-- The state `demo_k2` on the file system of `demo_mem4`. -/
def demo_k4 : kernel_t := set_fs demo_k2 (fs_init demo_mem4)

/-- The string literal `"g"`. -/
def str_g : List Nat := [103]

/-- The state after process 1 of `demo_k2` opened the file `g`. -/
def demo_k2_g : kernel_t :=
  match sys_open demo_k2 str_g with
  | .ok (_, k) => k
  | _ => demo_k2

/-- The state `demo_boot` in which the memory of the unused PCB slot 4 holds
`has_child = 1`. -/
def demo_boot_stale : kernel_t :=
  update_pcb demo_boot (pcb_addr 4) fun p => { p with has_child := 1 }

/-- The state after the first timer tick in `demo_boot`: process 2 runs. -/
def demo_tick : kernel_t :=
  ((pit_interruption 8 demo_boot 0x7FDF00 0x7FDF10).state).getD demo_boot

/-! ## A program whose name fills the 32 bytes of its field -/

/-- A file-system image with one directory entry, a regular file of 28 bytes
whose name is 32 letters `a`, so that the name fills the field `filename` and
has no terminator in it; data block 0 holds the four magic bytes and, at
offset 24, the entry point 0x08042010. -/
def demo_mem5 : Nat → Nat := fun a =>
  if 64 ≤ a ∧ a < 96 then 97
  else mem_of
    [(0, 1), (4, 1), (8, 1), (96, 2), (100, 0),
     (4096, 28), (4100, 0),
     (8192, 0x7f), (8193, 0x45), (8194, 0x4c), (8195, 0x46),
     (8216, 0x10), (8217, 0x20), (8218, 0x04), (8219, 0x08)] a

/-- The file system of `demo_mem5`. -/
def demo_fs5 : filesys_t := fs_init demo_mem5

/-- The state `demo_boot` on the file system `demo_fs5`. -/
def demo_k5 : kernel_t := set_fs demo_boot demo_fs5

/-! ## keyboard.c: terminal_read with a keyboard interrupt -/

/-- `terminal_read(buf, nbytes)` when one keyboard interrupt arrives between
the stores of lines 185 and 186; `read` enables interrupts with `sti()` before
it calls `terminal_read`. The copy loop and
`command_length[active_terminal] = 0` run, then the interrupt handler calls
`process_keyboard_input(scancode)`, then `cursor_x[active_terminal] = 0` and
`allow_terminal_read[active_terminal] = 0` run with the `active_terminal` the
handler left. -/
def terminal_read_interrupted (k : kernel_t) (kb : keyboard_t) (buf : Nat → Nat) (nbytes : Int)
    (scancode nextcode : Nat) : result_t (Int × (Nat → Nat) × keyboard_t) :=
  if kb.allow_terminal_read (get_tty_number k) = 0 then .hang
  else if kb.active_terminal ≥ 3 then .fault
  else if TERMINAL_BUFFER_MAX_SIZE * kb.active_terminal + nbytes.toNat
      > 3 * TERMINAL_BUFFER_MAX_SIZE then .fault
  else
    match process_keyboard_input
        { kb with
          command_buffer :=
            (terminal_read_loop kb.active_terminal nbytes.toNat 0 buf kb.command_buffer).2
          command_length := store kb.command_length kb.active_terminal 0 }
        scancode nextcode with
    | .fault => .fault
    | .hang => .hang
    | .ok kb1 =>
      if kb1.active_terminal ≥ 3 then .fault
      else
        .ok ((nbytes.toNat : Int),
          (terminal_read_loop kb.active_terminal nbytes.toNat 0 buf kb.command_buffer).1,
          { kb1 with
            cursor_x := store kb1.cursor_x kb1.active_terminal 0
            allow_terminal_read := store kb1.allow_terminal_read kb1.active_terminal 0 })

/-! # Properties -/

/-! ## Addresses and bit masks -/

theorem pcb_addr_of_stack_bottom (n : Nat) (h : n < 8) :
    (_8MB - _8KB * n - 4) &&& ALIGN_8KB = pcb_addr n := by
  interval_cases n <;> decide

theorem pcb_addr_inj (n m : Nat) (hn : n < 1023) (hm : m < 1023) (h : pcb_addr n = pcb_addr m) :
    n = m := by
  unfold pcb_addr _8MB _8KB at h
  omega

theorem land_land_zero (a b c : Nat) (h : b &&& c = 0) : a &&& b &&& c = 0 := by
  rw [Nat.land_assoc, h, Nat.and_zero]

theorem land_land_self (a b c : Nat) (h : b &&& c = c) : a &&& b &&& c = a &&& c := by
  rw [Nat.land_assoc, h]

/-! ## Strings -/

theorem strlen_loop_eq (s : Nat → Nat) (n : Nat) (hz : s n = 0) :
    ∀ fuel len, len ≤ n → n < len + fuel → (∀ j, len ≤ j → j < n → s j ≠ 0) →
      strlen_loop s len fuel = some n := by
  intro fuel
  induction fuel with
  | zero => intro len h1 h2; omega
  | succ fuel ih =>
    intro len h1 h2 hnz
    rw [strlen_loop]
    by_cases hlen : len = n
    · subst hlen
      rw [if_pos hz]
    · rw [if_neg (hnz len (le_refl len) (by omega))]
      exact ih (len + 1) (by omega) (by omega) (fun j hj1 hj2 => hnz j (by omega) hj2)

theorem strlen_eq (s : Nat → Nat) (n : Nat) (hz : s n = 0) (hn : n < 4294967296)
    (hnz : ∀ j, j < n → s j ≠ 0) : strlen s = some n :=
  strlen_loop_eq s n hz 4294967296 0 (Nat.zero_le n) (by omega) (fun j _ hj => hnz j hj)

theorem strlen_of_zero (s : Nat → Nat) (n : Nat) (hz : s n = 0) (hn : n < 4294967296) :
    ∃ m, m ≤ n ∧ strlen s = some m := by
  classical
  have hex : ∃ m, s m = 0 := ⟨n, hz⟩
  refine ⟨Nat.find hex, Nat.find_min' hex hz, ?_⟩
  exact strlen_eq s _ (Nat.find_spec hex) (lt_of_le_of_lt (Nat.find_min' hex hz) hn)
    (fun j hj => Nat.find_min hex hj)

theorem sys_open_stdin (k : kernel_t) : sys_open k str_stdin = .ok (0, open_stdin k 0) := by
  have h : strncmp (view str_stdin) (view str_stdin) 5 = 0 := by decide
  rw [sys_open, if_pos h]

theorem sys_open_stdout (k : kernel_t) : sys_open k str_stdout = .ok (0, open_stdout k 1) := by
  have h1 : ¬ strncmp (view str_stdout) (view str_stdin) 5 = 0 := by decide
  have h2 : strncmp (view str_stdout) (view str_stdout) 5 = 0 := by decide
  rw [sys_open, if_neg h1, if_pos h2]

/-! ## The slot search of execute -/

theorem execute_find_slot_eq (rp : Nat) :
    execute_find_slot rp 8 0 0x80 =
      if rp &&& 0x80 = 0 then .found 0 (rp ||| 0x80)
      else if rp &&& 0x40 = 0 then .found 1 (rp ||| 0x40)
      else if rp &&& 0x20 = 0 then .found 2 (rp ||| 0x20)
      else if rp &&& 0x10 = 0 then .found 3 (rp ||| 0x10)
      else if rp &&& 0x08 = 0 then .found 4 (rp ||| 0x08)
      else if rp &&& 0x04 = 0 then .found 5 (rp ||| 0x04)
      else if rp &&& 0x02 = 0 then .found 6 (rp ||| 0x02)
      else if rp &&& 0x01 = 0 then .found 7 (rp ||| 0x01)
      else .full := by
  simp [execute_find_slot]

theorem execute_find_slot_found (rp p rp' : Nat)
    (h : execute_find_slot rp 8 0 0x80 = .found p rp') :
    p < 8 ∧ rp &&& (0x80 >>> p) = 0 ∧ (∀ j, j < p → rp &&& (0x80 >>> j) ≠ 0)
      ∧ rp' = rp ||| (0x80 >>> p) := by
  rw [execute_find_slot_eq] at h
  split_ifs at h with h0 h1 h2 h3 h4 h5 h6 h7
  all_goals
    injection h with hp hr
    subst hp hr
    refine ⟨by decide, by assumption, ?_, rfl⟩
    intro j hj
    interval_cases j <;> assumption

theorem execute_find_slot_full (rp : Nat) :
    execute_find_slot rp 8 0 0x80 = .full ↔ ∀ j, j < 8 → rp &&& (0x80 >>> j) ≠ 0 := by
  rw [execute_find_slot_eq]
  constructor
  · intro h j hj
    split_ifs at h with h0 h1 h2 h3 h4 h5 h6 h7
    interval_cases j <;> assumption
  · intro h
    have h0 : ¬ rp &&& 0x80 = 0 := h 0 (by decide)
    have h1 : ¬ rp &&& 0x40 = 0 := h 1 (by decide)
    have h2 : ¬ rp &&& 0x20 = 0 := h 2 (by decide)
    have h3 : ¬ rp &&& 0x10 = 0 := h 3 (by decide)
    have h4 : ¬ rp &&& 0x08 = 0 := h 4 (by decide)
    have h5 : ¬ rp &&& 0x04 = 0 := h 5 (by decide)
    have h6 : ¬ rp &&& 0x02 = 0 := h 6 (by decide)
    have h7 : ¬ rp &&& 0x01 = 0 := h 7 (by decide)
    rw [if_neg h0, if_neg h1, if_neg h2, if_neg h3, if_neg h4, if_neg h5, if_neg h6, if_neg h7]

theorem execute_find_slot_first (rp p : Nat) (hp : p < 8) (hclear : rp &&& (0x80 >>> p) = 0)
    (hmin : ∀ j, j < p → rp &&& (0x80 >>> j) ≠ 0) :
    execute_find_slot rp 8 0 0x80 = .found p (rp ||| (0x80 >>> p)) := by
  by_cases hfull : execute_find_slot rp 8 0 0x80 = .full
  · exact absurd hclear ((execute_find_slot_full rp).1 hfull p hp)
  · rw [execute_find_slot_eq] at hfull ⊢
    split_ifs at hfull ⊢ with h0 h1 h2 h3 h4 h5 h6 h7
    all_goals first
      | exact absurd rfl hfull
      | (interval_cases p <;>
          first
            | rfl
            | exact absurd hclear (by assumption)
            | exact absurd (by assumption) (hmin 0 (by decide))
            | exact absurd (by assumption) (hmin 1 (by decide))
            | exact absurd (by assumption) (hmin 2 (by decide))
            | exact absurd (by assumption) (hmin 3 (by decide))
            | exact absurd (by assumption) (hmin 4 (by decide))
            | exact absurd (by assumption) (hmin 5 (by decide))
            | exact absurd (by assumption) (hmin 6 (by decide)))

/-! ## halt -/

/-- C3: a caller with process id `p` in [1,7] and parent id `q != 0` that
halts resumes its parent: exactly bit `0x80 >> p` of `running_processes` is
cleared, PCB `q` has `has_child = 0`, `q` is the current process and `tss.esp0`
and `kernel_stack_bottom` are `8 MiB - 8 KiB * q - 4`. -/
theorem halt_returns_to_parent (k : kernel_t) (l : halt_locals_t) (status p q : Nat)
    (hp : (k.pcbs (k.kernel_stack_bottom &&& ALIGN_8KB)).process_number = p)
    (hp1 : 1 ≤ p) (hp7 : p ≤ 7)
    (hq : (k.pcbs (k.kernel_stack_bottom &&& ALIGN_8KB)).parent_process_number = q)
    (hq0 : q ≠ 0) :
    ∃ esp ebp k', halt k l status = .leave_ret ((status % 256 : Nat) : Int) esp ebp k'
      ∧ k'.running_processes &&& (0x80 >>> p) = 0
      ∧ (∀ j, j < 8 → j ≠ p →
          k'.running_processes &&& (0x80 >>> j) = k.running_processes &&& (0x80 >>> j))
      ∧ (k'.pcbs (pcb_addr q)).has_child = 0
      ∧ k'.current_process_number = q
      ∧ k'.tss_esp0 = _8MB - _8KB * q - 4
      ∧ k'.kernel_stack_bottom = _8MB - _8KB * q - 4 := by
  subst hq
  simp only [halt, if_neg hq0, hp]
  refine ⟨_, _, _, rfl, ?_, ?_, ?_, rfl, rfl, rfl⟩
  · show k.running_processes &&& halt_bitmask p 0x7F &&& (0x80 >>> p) = 0
    apply land_land_zero
    interval_cases p <;> decide
  · intro j hj hjp
    show k.running_processes &&& halt_bitmask p 0x7F &&& (0x80 >>> j) = _
    apply land_land_self
    interval_cases p <;> interval_cases j <;> first | decide | exact absurd rfl hjp
  · simp [halt_switch]

theorem halt_returns_to_parent_witness :
    ∃ esp ebp k', halt demo_run ⟨fun _ => 0, 0⟩ 7 = .leave_ret ((7 % 256 : Nat) : Int) esp ebp k'
      ∧ k'.running_processes &&& (0x80 >>> 4) = 0
      ∧ (∀ j, j < 8 → j ≠ 4 →
          k'.running_processes &&& (0x80 >>> j) = demo_run.running_processes &&& (0x80 >>> j))
      ∧ (k'.pcbs (pcb_addr 1)).has_child = 0
      ∧ k'.current_process_number = 1
      ∧ k'.tss_esp0 = _8MB - _8KB * 1 - 4
      ∧ k'.kernel_stack_bottom = _8MB - _8KB * 1 - 4 :=
  halt_returns_to_parent demo_run ⟨fun _ => 0, 0⟩ 7 4 1 (by decide) (by decide) (by decide)
    (by decide) (by decide)

/-! ## The scheduler -/

theorem pit_bitmask_eq (n : Nat) (h : n < 8) : pit_bitmask n 0x80 = 0x80 >>> n := by
  interval_cases n <;> rfl

theorem pit_next_bitmask (n : Nat) (h : n < 8) :
    (if (0x80 >>> n) >>> 1 = 0 then 0x80 else (0x80 >>> n) >>> 1) = 0x80 >>> ((n + 1) % 8) := by
  interval_cases n <;> rfl

theorem pit_mask_eligible (k : kernel_t) (n : Nat) (h : n < 8) :
    ((0x80 >>> n) &&& (k.running_processes &&& 0x7F) ≠ 0
      ∧ (k.pcbs (pcb_addr n)).has_child = 0) ↔ eligible k n := by
  have hm : (0x80 >>> n) &&& (k.running_processes &&& 0x7F)
      = if n = 0 then 0 else k.running_processes &&& (0x80 >>> n) := by
    rw [Nat.land_comm, Nat.land_assoc]
    interval_cases n
    · exact Nat.and_zero _
    all_goals rfl
  rw [hm]
  unfold eligible
  by_cases h0 : n = 0 <;> simp [h0]

theorem pit_search_step (k : kernel_t) (c fuel d : Nat) (_hc : c < 8) (hd1 : 1 ≤ d) (hd7 : d ≤ 7) :
    pit_search k c (fuel + 1) ((c + d) % 8) (0x80 >>> ((c + d) % 8))
      = if eligible k ((c + d) % 8) then some ((c + d) % 8)
        else pit_search k c fuel ((c + (d + 1)) % 8) (0x80 >>> ((c + (d + 1)) % 8)) := by
  have hne : (c + d) % 8 ≠ c := by omega
  have hlt : (c + d) % 8 < 8 := Nat.mod_lt _ (by decide)
  have hnext : ((c + d) % 8 + 1) % 8 = (c + (d + 1)) % 8 := by omega
  rw [pit_search, if_neg hne, pit_next_bitmask _ hlt, hnext]
  by_cases he : eligible k ((c + d) % 8)
  · rw [if_pos ((pit_mask_eligible k _ hlt).2 he), if_pos he]
  · rw [if_neg (fun h => he ((pit_mask_eligible k _ hlt).1 h)), if_neg he]

theorem pit_search_none (k : kernel_t) (c : Nat) (hc : c < 8) :
    ∀ n d fuel, d + n = 8 → 1 ≤ d → n + 1 ≤ fuel →
      (∀ e, d ≤ e → e ≤ 7 → ¬ eligible k ((c + e) % 8)) →
      pit_search k c fuel ((c + d) % 8) (0x80 >>> ((c + d) % 8)) = some c := by
  intro n
  induction n with
  | zero =>
    intro d fuel hd _ hf _
    obtain ⟨f, rfl⟩ : ∃ f, fuel = f + 1 := ⟨fuel - 1, by omega⟩
    have h8 : (c + d) % 8 = c := by omega
    rw [pit_search, if_pos h8, h8]
  | succ n ih =>
    intro d fuel hd hd1 hf hne
    obtain ⟨f, rfl⟩ : ∃ f, fuel = f + 1 := ⟨fuel - 1, by omega⟩
    rw [pit_search_step k c f d hc hd1 (by omega), if_neg (hne d (le_refl d) (by omega))]
    exact ih (d + 1) f (by omega) (by omega) (by omega) (fun e h1 h2 => hne e (by omega) h2)

theorem pit_search_first (k : kernel_t) (c m : Nat) (hc : c < 8) (hm : m ≤ 7)
    (helig : eligible k ((c + m) % 8)) :
    ∀ n d fuel, d + n = m → 1 ≤ d → n + 1 ≤ fuel →
      (∀ e, d ≤ e → e < m → ¬ eligible k ((c + e) % 8)) →
      pit_search k c fuel ((c + d) % 8) (0x80 >>> ((c + d) % 8)) = some ((c + m) % 8) := by
  intro n
  induction n with
  | zero =>
    intro d fuel hd hd1 hf _
    obtain ⟨f, rfl⟩ : ∃ f, fuel = f + 1 := ⟨fuel - 1, by omega⟩
    have : d = m := by omega
    subst this
    rw [pit_search_step k c f d hc hd1 hm, if_pos helig]
  | succ n ih =>
    intro d fuel hd hd1 hf hne
    obtain ⟨f, rfl⟩ : ∃ f, fuel = f + 1 := ⟨fuel - 1, by omega⟩
    rw [pit_search_step k c f d hc hd1 (by omega), if_neg (hne d (le_refl d) (by omega))]
    exact ih (d + 1) f (by omega) (by omega) (by omega) (fun e h1 h2 => hne e (by omega) h2)

/-- C1: on a timer tick with current process `c`, the scheduler makes current
the first `j` in the order `(c+1) mod 8, (c+2) mod 8, ...` (`c` excluded) that
is not 0, is marked in `running_processes` and has `has_child = 0`; without
such a `j` it returns and leaves the whole state unchanged. -/
theorem pit_interruption_round_robin (fuel : Nat) (k : kernel_t) (esp ebp : Nat)
    (hc : k.current_process_number < 8) (hfuel : 8 ≤ fuel) :
    (∀ d, 1 ≤ d → d ≤ 7 → eligible k ((k.current_process_number + d) % 8) →
        (∀ e, 1 ≤ e → e < d → ¬ eligible k ((k.current_process_number + e) % 8)) →
        ∃ esp' ebp' k', pit_interruption fuel k esp ebp = .leave_ret 0 esp' ebp' k'
          ∧ k'.current_process_number = (k.current_process_number + d) % 8)
    ∧ ((∀ d, 1 ≤ d → d ≤ 7 → ¬ eligible k ((k.current_process_number + d) % 8)) →
        pit_interruption fuel k esp ebp = .ret 0 k) := by
  have hb := pit_bitmask_eq ((k.current_process_number + 1) % 8) (Nat.mod_lt _ (by decide))
  constructor
  · intro d hd1 hd7 helig hfirst
    have hs := pit_search_first k _ d hc hd7 helig (d - 1) 1 fuel (by omega) (le_refl 1)
      (by omega) hfirst
    have hne : k.current_process_number ≠ (k.current_process_number + d) % 8 := by omega
    rw [pit_interruption, hb, hs]
    simp only [if_neg hne]
    exact ⟨_, _, _, rfl, rfl⟩
  · intro hnone
    have hs := pit_search_none k _ hc 7 1 fuel rfl (le_refl 1) (by omega) hnone
    rw [pit_interruption, hb, hs]
    exact if_pos rfl

theorem pit_interruption_round_robin_witness :
    ∃ esp' ebp' k', pit_interruption 8 demo_boot 0x7FDF00 0x7FDF10 = .leave_ret 0 esp' ebp' k'
      ∧ k'.current_process_number = 2 :=
  (pit_interruption_round_robin 8 demo_boot 0x7FDF00 0x7FDF10 (by decide) (by decide)).1 1
    (by decide) (by decide) (by decide) (fun e h1 h2 => absurd h1 (by omega))

/-! ## execute: reading the file -/

theorem int32_ne_neg_one (n : Nat) (h : n < 2147483648) : int32 n ≠ -1 := by
  unfold int32
  rw [Nat.mod_eq_of_lt (by omega), if_pos h]
  omega

theorem read_data_loop_fst_ne (fs : filesys_t) (inode offset : Nat) :
    ∀ n total loc cur read_addr acc, loc + n ≤ FS_PAGE_SIZE → total + n < 2147483648 →
      (read_data_loop fs inode offset n total loc cur read_addr acc).1 ≠ -1 := by
  intro n
  induction n with
  | zero =>
    intro total loc cur read_addr acc _ h
    rw [read_data_loop]
    exact int32_ne_neg_one total (by omega)
  | succ n ih =>
    intro total loc cur read_addr acc h1 h2
    rw [read_data_loop, if_neg (by omega)]
    split
    · exact int32_ne_neg_one total (by omega)
    · exact ih _ _ _ _ _ (by omega) (by omega)

theorem read_data_fst_eq_neg_one (fs : filesys_t) (inode offset length : Nat)
    (h1 : offset % FS_PAGE_SIZE + length ≤ FS_PAGE_SIZE) (h2 : length < 2147483648) :
    (read_data fs inode offset length).1 = -1 ↔
      (inode ≥ fs.fs_stats.num_inodes ∨ (offset < inode_size fs inode ∧
        inode_data_block fs inode (offset / FS_PAGE_SIZE) ≥ fs.fs_stats.num_datablocks)) := by
  unfold read_data
  by_cases hi : inode ≥ fs.fs_stats.num_inodes
  · simp [hi]
  · rw [if_neg hi]
    by_cases ho : offset ≥ inode_size fs inode
    · rw [if_pos ho]
      constructor
      · intro h; exact absurd h (by decide)
      · rintro (h | ⟨h, _⟩)
        · exact absurd h hi
        · omega
    · rw [if_neg ho]
      by_cases hd : inode_data_block fs inode (offset / FS_PAGE_SIZE) ≥ fs.fs_stats.num_datablocks
      · rw [if_pos hd]
        simp only [true_iff]
        exact Or.inr ⟨by omega, hd⟩
      · rw [if_neg hd]
        constructor
        · intro h
          exact absurd h (read_data_loop_fst_ne fs inode offset _ _ _ _ _ _ h1 (by omega))
        · rintro (h | ⟨_, h⟩)
          · exact absurd h hi
          · exact absurd h hd

theorem read_data_entry_point_of_magic (fs : filesys_t) (inode : Nat)
    (h : (read_data fs inode 0 4).1 ≠ -1) : (read_data fs inode ENTRY_POINT_OFFSET 4).1 ≠ -1 := by
  intro h24
  apply h
  rw [read_data_fst_eq_neg_one fs inode _ 4 (by decide) (by decide)] at h24 ⊢
  rcases h24 with h24 | ⟨h1, h2⟩
  · exact Or.inl h24
  · refine Or.inr ⟨by unfold ENTRY_POINT_OFFSET at h1; omega, ?_⟩
    exact h2

theorem fs_read_entry_point_of_magic (fs : filesys_t) (fname b b' : Nat → Nat) (r : Int)
    (buf1 : Option (Nat → Nat)) (h : fs_read fs (some fname) 0 (some b) 4 = .ok (r, buf1))
    (hr : r ≠ -1) :
    ∃ dentry, read_dentry_by_name fs fname = .ok (some dentry)
      ∧ fs_read fs (some fname) ENTRY_POINT_OFFSET (some b') 4
          = .ok ((read_data fs dentry.inode ENTRY_POINT_OFFSET 4).1,
              some (store_bytes (read_data fs dentry.inode ENTRY_POINT_OFFSET 4).2 b'))
      ∧ (read_data fs dentry.inode ENTRY_POINT_OFFSET 4).1 ≠ -1 := by
  simp only [fs_read] at h ⊢
  cases hd : read_dentry_by_name fs fname with
  | fault => rw [hd] at h; cases h
  | hang => rw [hd] at h; cases h
  | ok d =>
    rw [hd] at h
    cases d with
    | none =>
      simp only [result_t.ok.injEq, Prod.mk.injEq] at h
      exact absurd h.1.symm hr
    | some dentry =>
      simp only [result_t.ok.injEq, Prod.mk.injEq] at h
      refine ⟨dentry, rfl, rfl, ?_⟩
      apply read_data_entry_point_of_magic
      rw [h.1]
      exact hr

theorem fs_load_of_dentry (fs : filesys_t) (fname : Nat → Nat) (dentry : dentry_t)
    (h : read_dentry_by_name fs fname = .ok (some dentry)) :
    ∃ r, fs_load fs (some fname)
      = .ok (r, (read_data fs dentry.inode 0 (inode_size fs dentry.inode)).2) := by
  simp only [fs_load, h]
  split
  · exact ⟨_, rfl⟩
  · exact ⟨_, rfl⟩

theorem setup_new_task_of_lt (k : kernel_t) (p : Nat) (h : p < 8) :
    setup_new_task k p = (0, set_paging k (k.paging.new_task p)) := by
  unfold setup_new_task MAX_NUM_OF_PROCESSES
  rw [if_neg (by omega)]

theorem execute_start_eq (k : kernel_t) (esp ebp p e : Nat) (args : List Nat) :
    execute_start k esp ebp p args e
      = .to_the_user_space e (open_stdout (open_stdin (execute_fill k esp ebp p args) 0) 1) := by
  simp only [execute_start, sys_open_stdin, sys_open_stdout]

/-! ## execute: the outcome -/

theorem execute_load_eq (k : kernel_t) (esp ebp : Nat) (st : parse_t) (b : Nat → Nat) (p : Nat)
    (dentry : dentry_t) (len : Nat)
    (hd : read_dentry_by_name k.fs st.fname = .ok (some dentry))
    (hr : (read_data k.fs dentry.inode ENTRY_POINT_OFFSET 4).1 ≠ -1) (hp : p < 8)
    (hlen : strlen st.localargbuf = some len) :
    execute_load k esp ebp st b p
      = .to_the_user_space
          (save_entry_point 0 (store_bytes (read_data k.fs dentry.inode ENTRY_POINT_OFFSET 4).2 b))
          (open_stdout
            (open_stdin
              (execute_fill
                (load_program_img (set_paging k (k.paging.new_task p)) p
                  (read_data k.fs dentry.inode 0 (inode_size k.fs dentry.inode)).2)
                esp ebp p (strcpy_bytes st.localargbuf len))
              0)
            1) := by
  obtain ⟨r, hload⟩ := fs_load_of_dentry k.fs st.fname dentry hd
  have hne : ¬ ((0 : Int) = -1) := by decide
  simp only [execute_load, fs_read, hd, if_neg hr, setup_new_task_of_lt k p hp, if_neg hne, hload,
    hlen, execute_start_eq, Option.getD_some]

theorem execute_load_hang (k : kernel_t) (esp ebp : Nat) (st : parse_t) (b : Nat → Nat) (p : Nat)
    (dentry : dentry_t)
    (hd : read_dentry_by_name k.fs st.fname = .ok (some dentry))
    (hr : (read_data k.fs dentry.inode ENTRY_POINT_OFFSET 4).1 ≠ -1) (hp : p < 8)
    (hnone : strlen st.localargbuf = none) :
    execute_load k esp ebp st b p = .hang := by
  obtain ⟨r, hload⟩ := fs_load_of_dentry k.fs st.fname dentry hd
  have hne : ¬ ((0 : Int) = -1) := by decide
  simp only [execute_load, fs_read, hd, if_neg hr, setup_new_task_of_lt k p hp, if_neg hne, hload,
    hnone]

theorem execute_found (k : kernel_t) (esp ebp : Nat) (l : execute_locals_t) (command : List Nat)
    (st : parse_t) (r : Int) (buf1 : Option (Nat → Nat)) (p rp' : Nat)
    (hparse : execute_parse l command = .ok (some st))
    (hread : fs_read k.fs (some st.fname) 0 (some l.buf) 4 = .ok (r, buf1)) (hr : r ≠ -1)
    (hmagic : strncmp (buf1.getD l.buf) (view magic_nums) 4 = 0)
    (hslot : execute_find_slot k.running_processes 8 0 0x80 = .found p rp')
    (hterm : strlen st.localargbuf ≠ none) :
    ∃ e len img, strlen st.localargbuf = some len ∧
      execute k esp ebp l (some command)
        = .to_the_user_space e
            (execute_result k esp ebp p rp' (strcpy_bytes st.localargbuf len) img) := by
  obtain ⟨dentry, hd, _, hr24⟩ := fs_read_entry_point_of_magic k.fs st.fname l.buf l.buf r buf1
    hread hr
  obtain ⟨hp, _⟩ := execute_find_slot_found _ _ _ hslot
  obtain ⟨len, hlen⟩ := Option.ne_none_iff_exists'.1 hterm
  have hload := execute_load_eq
    (set_current_process_number (set_running_processes k rp') p) esp ebp st (buf1.getD l.buf) p
    dentry len hd hr24 hp hlen
  have hm : ¬ strncmp (buf1.getD l.buf) (view magic_nums) 4 ≠ 0 := fun h => h hmagic
  simp only [execute, hparse, hread, if_neg hr, if_neg hm, hslot, hload]
  exact ⟨_, len, _, hlen, rfl⟩

theorem execute_found_hang (k : kernel_t) (esp ebp : Nat) (l : execute_locals_t)
    (command : List Nat) (st : parse_t) (r : Int) (buf1 : Option (Nat → Nat)) (p rp' : Nat)
    (hparse : execute_parse l command = .ok (some st))
    (hread : fs_read k.fs (some st.fname) 0 (some l.buf) 4 = .ok (r, buf1)) (hr : r ≠ -1)
    (hmagic : strncmp (buf1.getD l.buf) (view magic_nums) 4 = 0)
    (hslot : execute_find_slot k.running_processes 8 0 0x80 = .found p rp')
    (hnone : strlen st.localargbuf = none) :
    execute k esp ebp l (some command) = .hang := by
  obtain ⟨dentry, hd, _, hr24⟩ := fs_read_entry_point_of_magic k.fs st.fname l.buf l.buf r buf1
    hread hr
  obtain ⟨hp, _⟩ := execute_find_slot_found _ _ _ hslot
  have hload := execute_load_hang
    (set_current_process_number (set_running_processes k rp') p) esp ebp st (buf1.getD l.buf) p
    dentry hd hr24 hp hnone
  have hm : ¬ strncmp (buf1.getD l.buf) (view magic_nums) 4 ≠ 0 := fun h => h hmagic
  simp only [execute, hparse, hread, if_neg hr, if_neg hm, hslot, hload]

theorem execute_state_cases (k : kernel_t) (esp ebp : Nat) (l : execute_locals_t)
    (command : Option (List Nat)) (k' : kernel_t)
    (h : (execute k esp ebp l command).state = some k') :
    k' = k ∨ ∃ p rp' args img, execute_find_slot k.running_processes 8 0 0x80 = .found p rp'
      ∧ k' = execute_result k esp ebp p rp' args img := by
  cases command with
  | none =>
    simp only [execute, outcome_t.state, Option.some.injEq] at h
    exact Or.inl h.symm
  | some command =>
    cases hparse : execute_parse l command with
    | fault => simp [execute, hparse, outcome_t.state] at h
    | hang => simp [execute, hparse, outcome_t.state] at h
    | ok ost =>
      cases ost with
      | none =>
        simp only [execute, hparse, outcome_t.state, Option.some.injEq] at h
        exact Or.inl h.symm
      | some st =>
        cases hread : fs_read k.fs (some st.fname) 0 (some l.buf) 4 with
        | fault => simp [execute, hparse, hread, outcome_t.state] at h
        | hang => simp [execute, hparse, hread, outcome_t.state] at h
        | ok rb =>
          obtain ⟨r, buf1⟩ := rb
          by_cases hr : r = -1
          · simp only [execute, hparse, hread, if_pos hr, outcome_t.state, Option.some.injEq] at h
            exact Or.inl h.symm
          · by_cases hm : strncmp (buf1.getD l.buf) (view magic_nums) 4 ≠ 0
            · simp only [execute, hparse, hread, if_neg hr, if_pos hm, outcome_t.state,
                Option.some.injEq] at h
              exact Or.inl h.symm
            · cases hslot : execute_find_slot k.running_processes 8 0 0x80 with
              | full =>
                simp only [execute, hparse, hread, if_neg hr, if_neg hm, hslot, outcome_t.state,
                  Option.some.injEq] at h
                exact Or.inl h.symm
              | fallthrough =>
                rw [execute_find_slot_eq] at hslot
                split_ifs at hslot
              | found p rp' =>
                by_cases hnone : strlen st.localargbuf = none
                · rw [execute_found_hang k esp ebp l command st r buf1 p rp' hparse hread hr
                    (not_not.1 hm) hslot hnone] at h
                  simp only [outcome_t.state] at h
                  cases h
                · obtain ⟨e, len, img, _, hex⟩ := execute_found k esp ebp l command st r buf1 p
                    rp' hparse hread hr (not_not.1 hm) hslot hnone
                  rw [hex] at h
                  simp only [outcome_t.state, Option.some.injEq] at h
                  exact Or.inr ⟨p, rp', _, _, rfl, h.symm⟩

theorem execute_ret_unchanged (k : kernel_t) (esp ebp : Nat) (l : execute_locals_t)
    (command : Option (List Nat)) (v : Int) (k' : kernel_t)
    (h : execute k esp ebp l command = .ret v k') : v = -1 ∧ k' = k := by
  cases command with
  | none =>
    simp only [execute, outcome_t.ret.injEq] at h
    exact ⟨h.1.symm, h.2.symm⟩
  | some command =>
    cases hparse : execute_parse l command with
    | fault => simp [execute, hparse] at h
    | hang => simp [execute, hparse] at h
    | ok ost =>
      cases ost with
      | none =>
        simp only [execute, hparse, outcome_t.ret.injEq] at h
        exact ⟨h.1.symm, h.2.symm⟩
      | some st =>
        cases hread : fs_read k.fs (some st.fname) 0 (some l.buf) 4 with
        | fault => simp [execute, hparse, hread] at h
        | hang => simp [execute, hparse, hread] at h
        | ok rb =>
          obtain ⟨r, buf1⟩ := rb
          by_cases hr : r = -1
          · simp only [execute, hparse, hread, if_pos hr, outcome_t.ret.injEq] at h
            exact ⟨h.1.symm, h.2.symm⟩
          · by_cases hm : strncmp (buf1.getD l.buf) (view magic_nums) 4 ≠ 0
            · simp only [execute, hparse, hread, if_neg hr, if_pos hm, outcome_t.ret.injEq] at h
              exact ⟨h.1.symm, h.2.symm⟩
            · cases hslot : execute_find_slot k.running_processes 8 0 0x80 with
              | full =>
                simp only [execute, hparse, hread, if_neg hr, if_neg hm, hslot,
                  outcome_t.ret.injEq] at h
                exact ⟨h.1.symm, h.2.symm⟩
              | fallthrough =>
                rw [execute_find_slot_eq] at hslot
                split_ifs at hslot
              | found p rp' =>
                by_cases hnone : strlen st.localargbuf = none
                · rw [execute_found_hang k esp ebp l command st r buf1 p rp' hparse hread hr
                    (not_not.1 hm) hslot hnone] at h
                  cases h
                · obtain ⟨e, len, img, _, hex⟩ := execute_found k esp ebp l command st r buf1 p
                    rp' hparse hread hr (not_not.1 hm) hslot hnone
                  rw [hex] at h
                  cases h

theorem execute_result_globals (k : kernel_t) (esp ebp p rp' : Nat) (args img : List Nat) :
    (execute_result k esp ebp p rp' args img).running_processes = rp'
      ∧ (execute_result k esp ebp p rp' args img).current_process_number = p
      ∧ (execute_result k esp ebp p rp' args img).kernel_stack_bottom = _8MB - _8KB * p - 4
      ∧ (execute_result k esp ebp p rp' args img).tss_esp0 = _8MB - _8KB * p - 4
      ∧ (execute_result k esp ebp p rp' args img).fs = k.fs := by
  simp [execute_result, open_stdout, open_stdin, execute_fill]

theorem open_std_pcbs (k : kernel_t) (a : Nat) :
    (open_stdout (open_stdin k 0) 1).pcbs a =
      if a = k.kernel_stack_bottom &&& ALIGN_8KB then
        ((k.pcbs a).open_std 0 .stdin_fops_table).open_std 1 .stdout_fops_table
      else k.pcbs a := by
  unfold open_stdout open_stdin
  rw [update_pcb_kernel_stack_bottom]
  generalize k.kernel_stack_bottom &&& ALIGN_8KB = A
  simp only [update_pcb_pcbs]
  by_cases h : a = A
  · subst h
    simp only [if_true]
  · simp only [if_neg h]

theorem execute_fill_pcbs (k : kernel_t) (esp ebp p : Nat) (args : List Nat) (a : Nat) :
    (execute_fill k esp ebp p args).pcbs a =
      if a = pcb_addr p then
        (if a = esp &&& ALIGN_8KB then
            (if k.running_processes = 0xC0 then k.pcbs a else { k.pcbs a with has_child := 1 })
          else k.pcbs a).execute_fill esp ebp (k.running_processes = 0xC0)
          (k.pcbs (esp &&& ALIGN_8KB)).process_number
          (k.pcbs (esp &&& ALIGN_8KB)).tty_number p args
      else if a = esp &&& ALIGN_8KB then
        (if k.running_processes = 0xC0 then k.pcbs a else { k.pcbs a with has_child := 1 })
      else k.pcbs a := by
  unfold execute_fill
  generalize pcb_addr p = A
  generalize esp &&& ALIGN_8KB = E
  simp only [set_kernel_stack_bottom_pcbs, set_tss_esp0_pcbs, update_pcb_pcbs]
  by_cases h1 : a = A
  · subst h1
    simp only [if_true]
    by_cases h2 : a = E
    · subst h2
      simp only [if_true]
    · simp only [if_neg h2]
  · simp only [if_neg h1]
    by_cases h2 : a = E
    · subst h2
      simp only [if_true]
    · simp only [if_neg h2]

theorem execute_result_pcbs (k : kernel_t) (esp ebp p rp' : Nat) (args img : List Nat)
    (hp : p < 8) (a : Nat) :
    (execute_result k esp ebp p rp' args img).pcbs a =
      if a = pcb_addr p then
        (((if a = esp &&& ALIGN_8KB then
              (if rp' = 0xC0 then k.pcbs a else { k.pcbs a with has_child := 1 })
            else k.pcbs a).execute_fill esp ebp (rp' = 0xC0)
          (k.pcbs (esp &&& ALIGN_8KB)).process_number
          (k.pcbs (esp &&& ALIGN_8KB)).tty_number p args).open_std 0 .stdin_fops_table).open_std 1
          .stdout_fops_table
      else if a = esp &&& ALIGN_8KB then
        (if rp' = 0xC0 then k.pcbs a else { k.pcbs a with has_child := 1 })
      else k.pcbs a := by
  have hb := pcb_addr_of_stack_bottom p hp
  unfold execute_result
  obtain ⟨k0, hk0⟩ : ∃ k0, k0 = load_program_img
      (set_paging (set_current_process_number (set_running_processes k rp') p)
        (k.paging.new_task p)) p img := ⟨_, rfl⟩
  have hpcbs : ∀ b, k0.pcbs b = k.pcbs b := by intro b; rw [hk0]; rfl
  have hrp : k0.running_processes = rp' := by rw [hk0]; rfl
  rw [← hk0, open_std_pcbs, execute_fill_pcbs]
  have hksb : (execute_fill k0 esp ebp p args).kernel_stack_bottom = _8MB - _8KB * p - 4 := rfl
  rw [hksb, hb, hrp]
  generalize pcb_addr p = A
  generalize esp &&& ALIGN_8KB = E
  simp only [hpcbs]
  by_cases h1 : a = A
  · simp only [if_pos h1]
  · simp only [if_neg h1]

theorem execute_result_new_pcb_at (k : kernel_t) (esp ebp p rp' : Nat) (args img : List Nat)
    (hp : p < 8) (a : Nat) (ha : a = pcb_addr p) :
    ((execute_result k esp ebp p rp' args img).pcbs a).process_number = p
      ∧ ((execute_result k esp ebp p rp' args img).pcbs a).parent_process_number
          = (if rp' = 0xC0 then 0 else (k.pcbs (esp &&& ALIGN_8KB)).process_number)
      ∧ ((execute_result k esp ebp p rp' args img).pcbs a).tty_number
          = stored_word 394 args 500
              (if rp' = 0xC0 then 1 else (k.pcbs (esp &&& ALIGN_8KB)).tty_number)
      ∧ (((execute_result k esp ebp p rp' args img).pcbs a).fds 0).jumptable
          = .stdin_fops_table
      ∧ (((execute_result k esp ebp p rp' args img).pcbs a).fds 1).jumptable
          = .stdout_fops_table
      ∧ (∀ i, i < 8 →
          (((execute_result k esp ebp p rp' args img).pcbs a).fds i).inode = 0
          ∧ (((execute_result k esp ebp p rp' args img).pcbs a).fds i).fileposition = 0
          ∧ (((execute_result k esp ebp p rp' args img).pcbs a).fds i).flags
              = if i < 2 then IN_USE else NOT_IN_USE) := by
  rw [execute_result_pcbs k esp ebp p rp' args img hp a, if_pos ha]
  generalize (if a = esp &&& ALIGN_8KB then
      (if rp' = 0xC0 then k.pcbs a else { k.pcbs a with has_child := 1 })
    else k.pcbs a) = q
  generalize (k.pcbs (esp &&& ALIGN_8KB)).process_number = pp
  generalize (k.pcbs (esp &&& ALIGN_8KB)).tty_number = pt
  refine ⟨?_, ?_, ?_, ?_, ?_, ?_⟩
  · simp [pcb_t.open_std, pcb_t.execute_fill, pcb_store, stored_byte]
  · simp [pcb_t.open_std, pcb_t.execute_fill, pcb_store, stored_byte]
  · simp [pcb_t.open_std, pcb_t.execute_fill, pcb_store]
  · simp [pcb_t.open_std, pcb_t.execute_fill, pcb_store]
  · simp [pcb_t.open_std, pcb_t.execute_fill, pcb_store]
  · intro i hi
    interval_cases i <;> simp [pcb_t.open_std, pcb_t.execute_fill, pcb_store, IN_USE, NOT_IN_USE]

theorem execute_result_new_pcb (k : kernel_t) (esp ebp p rp' : Nat) (args img : List Nat)
    (hp : p < 8) :
    ((execute_result k esp ebp p rp' args img).pcbs (pcb_addr p)).process_number = p
      ∧ ((execute_result k esp ebp p rp' args img).pcbs (pcb_addr p)).parent_process_number
          = (if rp' = 0xC0 then 0 else (k.pcbs (esp &&& ALIGN_8KB)).process_number)
      ∧ ((execute_result k esp ebp p rp' args img).pcbs (pcb_addr p)).tty_number
          = stored_word 394 args 500
              (if rp' = 0xC0 then 1 else (k.pcbs (esp &&& ALIGN_8KB)).tty_number)
      ∧ (((execute_result k esp ebp p rp' args img).pcbs (pcb_addr p)).fds 0).jumptable
          = .stdin_fops_table
      ∧ (((execute_result k esp ebp p rp' args img).pcbs (pcb_addr p)).fds 1).jumptable
          = .stdout_fops_table
      ∧ (∀ i, i < 8 →
          (((execute_result k esp ebp p rp' args img).pcbs (pcb_addr p)).fds i).inode = 0
          ∧ (((execute_result k esp ebp p rp' args img).pcbs (pcb_addr p)).fds i).fileposition = 0
          ∧ (((execute_result k esp ebp p rp' args img).pcbs (pcb_addr p)).fds i).flags
              = if i < 2 then IN_USE else NOT_IN_USE) :=
  execute_result_new_pcb_at k esp ebp p rp' args img hp (pcb_addr p) rfl

/-! ## execute: slot allocation -/

/-- When the parse, the read of the first four bytes and the magic check
succeed and the argument string is terminated, `execute` takes the smallest
`i` in [0,7] whose bit `0x80 >> i` is clear, sets that bit and uses `i` as the
new process id; with all eight bits set it returns -1 and leaves the state
unchanged. -/
theorem execute_allocates_lowest_free_slot (k : kernel_t) (esp ebp : Nat) (l : execute_locals_t)
    (command : List Nat) (st : parse_t) (r : Int) (buf1 : Option (Nat → Nat))
    (hparse : execute_parse l command = .ok (some st))
    (hread : fs_read k.fs (some st.fname) 0 (some l.buf) 4 = .ok (r, buf1)) (hr : r ≠ -1)
    (hmagic : strncmp (buf1.getD l.buf) (view magic_nums) 4 = 0)
    (hterm : strlen st.localargbuf ≠ none) :
    (∀ i, i < 8 → k.running_processes &&& (0x80 >>> i) = 0 →
        (∀ j, j < i → k.running_processes &&& (0x80 >>> j) ≠ 0) →
        ∃ e k', execute k esp ebp l (some command) = .to_the_user_space e k'
          ∧ k'.running_processes = k.running_processes ||| (0x80 >>> i)
          ∧ k'.current_process_number = i
          ∧ (k'.pcbs (pcb_addr i)).process_number = i)
    ∧ ((∀ i, i < 8 → k.running_processes &&& (0x80 >>> i) ≠ 0) →
        execute k esp ebp l (some command) = .ret (-1) k) := by
  constructor
  · intro i hi hclear hmin
    have hslot := execute_find_slot_first k.running_processes i hi hclear hmin
    obtain ⟨e, len, img, _, hex⟩ := execute_found k esp ebp l command st r buf1 i _ hparse hread
      hr hmagic hslot hterm
    refine ⟨e, _, hex, ?_, ?_, ?_⟩
    · exact (execute_result_globals k esp ebp i _ _ img).1
    · exact (execute_result_globals k esp ebp i _ _ img).2.1
    · exact (execute_result_new_pcb k esp ebp i _ _ img hi).1
  · intro hall
    have hslot := (execute_find_slot_full k.running_processes).2 hall
    have hm : ¬ strncmp (buf1.getD l.buf) (view magic_nums) 4 ≠ 0 := fun h => h hmagic
    simp only [execute, hparse, hread, if_neg hr, if_neg hm, hslot]

theorem execute_allocates_lowest_free_slot_witness :
    ∃ e k', execute demo_boot 0x7FDF00 0x7FDF10 demo_locals (some str_shell)
        = .to_the_user_space e k'
      ∧ k'.running_processes = demo_boot.running_processes ||| (0x80 >>> 4)
      ∧ k'.current_process_number = 4
      ∧ (k'.pcbs (pcb_addr 4)).process_number = 4 :=
  (execute_allocates_lowest_free_slot demo_boot 0x7FDF00 0x7FDF10 demo_locals str_shell _ _ _
    rfl rfl (by decide) (by decide) (by decide)).1 4 (by decide) (by decide) (by decide)

/-! ## execute: the magic check -/

theorem read_data_four (fs : filesys_t) (inode : Nat) (hino : inode < fs.fs_stats.num_inodes)
    (hsize : 4 ≤ inode_size fs inode)
    (hdb : inode_data_block fs inode 0 < fs.fs_stats.num_datablocks) :
    read_data fs inode 0 4
      = (4, [file_byte fs inode 0, file_byte fs inode 1, file_byte fs inode 2,
             file_byte fs inode 3]) := by
  have h0 : ¬ inode ≥ fs.fs_stats.num_inodes := by omega
  have h1 : ¬ 0 ≥ inode_size fs inode := by omega
  have h2 : ¬ inode_data_block fs inode (0 / FS_PAGE_SIZE) ≥ fs.fs_stats.num_datablocks := by
    simpa [FS_PAGE_SIZE] using hdb
  rw [read_data, if_neg h0, if_neg h1, if_neg h2]
  have e0 : ¬ 0 + 0 ≥ inode_size fs inode := by omega
  have e1 : ¬ 0 + 1 + 0 ≥ inode_size fs inode := by omega
  have e2 : ¬ 0 + 1 + 1 + 0 ≥ inode_size fs inode := by omega
  have e3 : ¬ 0 + 1 + 1 + 1 + 0 ≥ inode_size fs inode := by omega
  have p0 : ¬ 0 % FS_PAGE_SIZE ≥ FS_PAGE_SIZE := by decide
  have p1 : ¬ 0 % FS_PAGE_SIZE + 1 ≥ FS_PAGE_SIZE := by decide
  have p2 : ¬ 0 % FS_PAGE_SIZE + 1 + 1 ≥ FS_PAGE_SIZE := by decide
  have p3 : ¬ 0 % FS_PAGE_SIZE + 1 + 1 + 1 ≥ FS_PAGE_SIZE := by decide
  rw [read_data_loop, if_neg p0, if_neg e0, read_data_loop, if_neg p1, if_neg e1, read_data_loop,
    if_neg p2, if_neg e2, read_data_loop, if_neg p3, if_neg e3, read_data_loop]
  simp [file_byte, FS_PAGE_SIZE, int32, Nat.add_assoc]

theorem int8_sub_eq_zero (a b : Nat) (ha : a < 256) (hb : b < 256) :
    int8 a - int8 b = 0 ↔ a = b := by
  unfold int8
  rw [Nat.mod_eq_of_lt ha, Nat.mod_eq_of_lt hb]
  split <;> split <;> omega

theorem strncmp_magic (b : Nat → Nat) (hb : ∀ j, j < 4 → b j < 256) :
    strncmp b (view magic_nums) 4 = 0
      ↔ b 0 = 0x7f ∧ b 1 = 0x45 ∧ b 2 = 0x4c ∧ b 3 = 0x46 := by
  have m0 : view magic_nums 0 = 0x7f := rfl
  have m1 : view magic_nums 1 = 0x45 := rfl
  have m2 : view magic_nums 2 = 0x4c := rfl
  have m3 : view magic_nums 3 = 0x46 := rfl
  have i0 := int8_sub_eq_zero (b 0) 0x7f (hb 0 (by decide)) (by decide)
  have i1 := int8_sub_eq_zero (b 1) 0x45 (hb 1 (by decide)) (by decide)
  have i2 := int8_sub_eq_zero (b 2) 0x4c (hb 2 (by decide)) (by decide)
  have i3 := int8_sub_eq_zero (b 3) 0x46 (hb 3 (by decide)) (by decide)
  simp only [strncmp, strncmp_loop, m0, m1, m2, m3]
  by_cases h0 : b 0 = 0x7f
  · by_cases h1 : b 1 = 0x45
    · by_cases h2 : b 2 = 0x4c
      · by_cases h3 : b 3 = 0x46
        · simp [h0, h1, h2, h3]
        · simp [h0, h1, h2, h3, i3]
      · simp [h0, h1, h2, i2]
    · simp [h0, h1, i1]
  · simp [h0, i0]

theorem store_bytes_four (b0 b1 b2 b3 : Nat) (old : Nat → Nat) :
    store_bytes [b0, b1, b2, b3] old 0 = b0 ∧ store_bytes [b0, b1, b2, b3] old 1 = b1
      ∧ store_bytes [b0, b1, b2, b3] old 2 = b2 ∧ store_bytes [b0, b1, b2, b3] old 3 = b3 := by
  simp [store_bytes]

/-- When the lookup of the parsed name finds a file of at least four bytes,
`execute` returns -1 with the state unchanged if the first four bytes differ
from `0x7F 'E' 'L' 'F'`; if they are equal (and the inode and its first data
block are valid) the comparison of the bytes read yields 0 and `execute`
goes on to start the program whenever a process slot is free. -/
theorem execute_magic_check (k : kernel_t) (esp ebp : Nat) (l : execute_locals_t)
    (command : List Nat) (st : parse_t) (dentry : dentry_t)
    (hparse : execute_parse l command = .ok (some st))
    (hd : read_dentry_by_name k.fs st.fname = .ok (some dentry))
    (hsize : 4 ≤ inode_size k.fs dentry.inode)
    (hbytes : ∀ j, j < 4 → file_byte k.fs dentry.inode j < 256)
    (hterm : strlen st.localargbuf ≠ none) :
    ((List.range 4).map (file_byte k.fs dentry.inode) ≠ magic_nums →
        execute k esp ebp l (some command) = .ret (-1) k)
    ∧ ((List.range 4).map (file_byte k.fs dentry.inode) = magic_nums →
        dentry.inode < k.fs.fs_stats.num_inodes →
        inode_data_block k.fs dentry.inode 0 < k.fs.fs_stats.num_datablocks →
        (∃ buf1, fs_read k.fs (some st.fname) 0 (some l.buf) 4 = .ok (4, some buf1)
          ∧ strncmp buf1 (view magic_nums) 4 = 0)
        ∧ (execute_find_slot k.running_processes 8 0 0x80 ≠ .full →
            ∃ e k', execute k esp ebp l (some command) = .to_the_user_space e k')) := by
  have hlist : (List.range 4).map (file_byte k.fs dentry.inode)
      = [file_byte k.fs dentry.inode 0, file_byte k.fs dentry.inode 1,
         file_byte k.fs dentry.inode 2, file_byte k.fs dentry.inode 3] := rfl
  have hmagic_iff : ∀ old : Nat → Nat,
      strncmp (store_bytes [file_byte k.fs dentry.inode 0, file_byte k.fs dentry.inode 1,
          file_byte k.fs dentry.inode 2, file_byte k.fs dentry.inode 3] old) (view magic_nums) 4 = 0
        ↔ (List.range 4).map (file_byte k.fs dentry.inode) = magic_nums := by
    intro old
    obtain ⟨s0, s1, s2, s3⟩ := store_bytes_four (file_byte k.fs dentry.inode 0)
      (file_byte k.fs dentry.inode 1) (file_byte k.fs dentry.inode 2)
      (file_byte k.fs dentry.inode 3) old
    rw [strncmp_magic _ (by
      intro j hj
      interval_cases j
      · rw [s0]; exact hbytes 0 (by decide)
      · rw [s1]; exact hbytes 1 (by decide)
      · rw [s2]; exact hbytes 2 (by decide)
      · rw [s3]; exact hbytes 3 (by decide)), s0, s1, s2, s3, hlist]
    simp [magic_nums]
  constructor
  · intro hne
    by_cases hvalid : dentry.inode < k.fs.fs_stats.num_inodes
        ∧ inode_data_block k.fs dentry.inode 0 < k.fs.fs_stats.num_datablocks
    · have h4 := read_data_four k.fs dentry.inode hvalid.1 hsize hvalid.2
      have hr : ¬ ((4 : Int) = -1) := by decide
      have hm := (not_congr (hmagic_iff l.buf)).2 hne
      simp only [execute, hparse, fs_read, hd, h4, if_neg hr, Option.getD_some, ne_eq, hm,
        not_false_eq_true, if_true]
    · have hneg : (read_data k.fs dentry.inode 0 4).1 = -1 := by
        rw [read_data_fst_eq_neg_one k.fs dentry.inode 0 4 (by decide) (by decide)]
        by_cases hino : dentry.inode < k.fs.fs_stats.num_inodes
        · refine Or.inr ⟨by omega, ?_⟩
          have hdb : ¬ inode_data_block k.fs dentry.inode 0 < k.fs.fs_stats.num_datablocks :=
            fun h => hvalid ⟨hino, h⟩
          show inode_data_block k.fs dentry.inode 0 ≥ k.fs.fs_stats.num_datablocks
          omega
        · exact Or.inl (by omega)
      simp only [execute, hparse, fs_read, hd, hneg, if_true]
  · intro heq hino hdb
    have h4 := read_data_four k.fs dentry.inode hino hsize hdb
    have hread : fs_read k.fs (some st.fname) 0 (some l.buf) 4
        = .ok (4, some (store_bytes [file_byte k.fs dentry.inode 0, file_byte k.fs dentry.inode 1,
            file_byte k.fs dentry.inode 2, file_byte k.fs dentry.inode 3] l.buf)) := by
      simp only [fs_read, hd, h4]
    have hm := (hmagic_iff l.buf).2 heq
    refine ⟨⟨_, hread, hm⟩, ?_⟩
    intro hfull
    cases hslot : execute_find_slot k.running_processes 8 0 0x80 with
    | full => exact absurd hslot hfull
    | fallthrough =>
      rw [execute_find_slot_eq] at hslot
      split_ifs at hslot
    | found p rp' =>
      obtain ⟨e, len, img, _, hex⟩ := execute_found k esp ebp l command st 4 _ p rp' hparse hread
        (by decide) hm hslot hterm
      exact ⟨e, _, hex⟩

theorem execute_magic_check_witness :
    ∃ e k', execute demo_boot 0x7FDF00 0x7FDF10 demo_locals (some str_shell)
      = .to_the_user_space e k' :=
  ((execute_magic_check demo_boot 0x7FDF00 0x7FDF10 demo_locals str_shell _ _ rfl rfl
    (by decide) (by decide) (by decide)).2 (by decide) (by decide) (by decide)).2 (by decide)

/-! ## execute: parsing the command -/

theorem store_list_apply (l : List Nat) :
    ∀ (a : Nat → Nat) (i j : Nat),
      store_list a i l j = if i ≤ j ∧ j < i + l.length then l.getD (j - i) 0 else a j := by
  induction l with
  | nil =>
    intro a i j
    rw [store_list, if_neg (by simp)]
  | cons c cs ih =>
    intro a i j
    rw [store_list, ih]
    by_cases h1 : i + 1 ≤ j ∧ j < i + 1 + cs.length
    · rw [if_pos h1, if_pos (by simp only [List.length_cons]; omega)]
      obtain ⟨d, hd⟩ : ∃ d, j - i = d + 1 := ⟨j - i - 1, by omega⟩
      rw [hd, List.getD_cons_succ]
      congr 1
      omega
    · rw [if_neg h1]
      by_cases h2 : j = i
      · subst h2
        rw [if_pos (by simp only [List.length_cons]; omega)]
        simp [store]
      · rw [if_neg (by simp only [List.length_cons]; omega)]
        simp [store, h2]

theorem execute_parse_loop_name (name : List Nat) :
    ∀ (tail : List Nat) (st : parse_t), st.first_space_reached = 0 →
      st.i + name.length ≤ 32 → (∀ c ∈ name, c ≠ 0 ∧ c ≠ 32) →
      execute_parse_loop (name ++ tail) st
        = execute_parse_loop tail
            { st with i := st.i + name.length, fname := store_list st.fname st.i name } := by
  induction name with
  | nil =>
    intro tail st _ _ _
    rfl
  | cons c cs ih =>
    intro tail st hf hlen hc
    have hc0 := (hc c (List.mem_cons_self c cs)).1
    have hc32 := (hc c (List.mem_cons_self c cs)).2
    simp only [List.length_cons] at hlen
    have h1 : ¬ (c = 32 ∧ st.first_space_reached = 0) := fun h => hc32 h.1
    have h2 : ¬ st.first_space_reached = 1 := by omega
    have h3 : ¬ (st.i ≥ 32 ∧ st.first_space_reached = 0) := fun h => by omega
    have h4 : st.i < 32 := by omega
    rw [List.cons_append, execute_parse_loop, if_neg hc0, if_neg h1, if_neg h2, if_neg h3,
      if_pos h4]
    rw [ih tail { st with i := st.i + 1, fname := store st.fname st.i c } hf
      (by show st.i + 1 + cs.length ≤ 32; omega) (fun d hd => hc d (List.mem_cons_of_mem c hd))]
    have e : st.i + 1 + cs.length = st.i + (cs.length + 1) := by omega
    simp only [List.length_cons, store_list, e]

theorem execute_parse_loop_args (rest : List Nat) :
    ∀ (st : parse_t), st.first_space_reached = 1 → st.length_of_fname < st.i →
      st.i - st.length_of_fname - 1 + rest.length ≤ TERMINAL_BUFFER_MAX_SIZE →
      (∀ c ∈ rest, c ≠ 0) →
      execute_parse_loop rest st
        = .ok (some { st with
            i := st.i + rest.length
            localargbuf := store_list st.localargbuf (st.i - st.length_of_fname - 1) rest }) := by
  induction rest with
  | nil =>
    intro st _ _ _ _
    rfl
  | cons c cs ih =>
    intro st hf hi hlen hc
    have hc0 := hc c (List.mem_cons_self c cs)
    simp only [List.length_cons] at hlen
    have h1 : ¬ (c = 32 ∧ st.first_space_reached = 0) := fun h => by omega
    have h4 : st.i - st.length_of_fname - 1 < TERMINAL_BUFFER_MAX_SIZE := by omega
    rw [execute_parse_loop, if_neg hc0, if_neg h1, if_pos hf, if_pos h4]
    have e : st.i + 1 - st.length_of_fname - 1 = st.i - st.length_of_fname - 1 + 1 := by omega
    rw [ih { st with i := st.i + 1,
                     localargbuf := store st.localargbuf (st.i - st.length_of_fname - 1) c } hf
      (by show st.length_of_fname < st.i + 1; omega)
      (by show st.i + 1 - st.length_of_fname - 1 + cs.length ≤ TERMINAL_BUFFER_MAX_SIZE; omega)
      (fun d hd => hc d (List.mem_cons_of_mem c hd))]
    have e2 : st.i + 1 + cs.length = st.i + (cs.length + 1) := by omega
    simp only [List.length_cons, store_list, e, e2]

theorem execute_parse_name_args (l : execute_locals_t) (name rest : List Nat)
    (hn : ∀ c ∈ name, c ≠ 0 ∧ c ≠ 32) (hlen : name.length ≤ 32) (hr : ∀ c ∈ rest, c ≠ 0)
    (hrlen : rest.length < TERMINAL_BUFFER_MAX_SIZE) :
    execute_parse l (name ++ 32 :: rest)
      = .ok (some
          { i := name.length + 1 + rest.length
            first_space_reached := 1
            length_of_fname := name.length
            fname := store_list (store_list l.fname 0 name) name.length [0]
            localargbuf := store_list l.localargbuf 0 (rest ++ [0]) }) := by
  have hT : TERMINAL_BUFFER_MAX_SIZE = 1024 := rfl
  rw [hT] at hrlen
  unfold execute_parse
  rw [execute_parse_loop_name name (32 :: rest) _ rfl (by show 0 + name.length ≤ 32; omega) hn]
  have h0 : ¬ (32 : Nat) = 0 := by decide
  rw [execute_parse_loop, if_neg h0, if_pos ⟨rfl, rfl⟩,
    if_pos (by show 0 + name.length ≤ 32; omega)]
  rw [execute_parse_loop_args rest _ rfl (by show 0 + name.length < 0 + name.length + 1; omega)
    (by show 0 + name.length + 1 - (0 + name.length) - 1 + rest.length
          ≤ TERMINAL_BUFFER_MAX_SIZE
        rw [hT]; omega) hr]
  have e1 : name.length + 1 - name.length - 1 = 0 := by omega
  have e2 : (name.length + 1 + rest.length + 4294967296 - name.length - 1) % 4294967296
      = rest.length := by omega
  have e3 : 0 + name.length + 1 + rest.length = name.length + 1 + rest.length := by omega
  have e4 : 0 + name.length = name.length := by omega
  have h1 : ¬ (1 : Nat) = 0 := by decide
  simp only [execute_parse_end, e4, e3, e1, e2, hT, if_pos hrlen, if_neg h1, store_list]
  congr 3
  funext j
  rw [store_list_apply]
  unfold store
  rw [store_list_apply]
  simp only [List.length_append, List.length_singleton]
  by_cases hj : j = rest.length
  · subst hj
    simp
  · by_cases hj2 : j < rest.length
    · have a1 : 0 ≤ j ∧ j < 0 + (rest.length + 1) := by omega
      have a2 : 0 ≤ j ∧ j < 0 + rest.length := by omega
      rw [if_neg hj, if_pos a1, if_pos a2]
      simp only [Nat.sub_zero, List.getD_eq_getElem?_getD]
      rw [List.getElem?_append_left hj2]
    · have a1 : ¬ (0 ≤ j ∧ j < 0 + (rest.length + 1)) := by omega
      have a2 : ¬ (0 ≤ j ∧ j < 0 + rest.length) := by omega
      rw [if_neg hj, if_neg a1, if_neg a2]

theorem execute_parse_name_only (l : execute_locals_t) (name : List Nat)
    (hn : ∀ c ∈ name, c ≠ 0 ∧ c ≠ 32) (hlen1 : 1 ≤ name.length) (hlen : name.length ≤ 32) :
    execute_parse l name
      = .ok (some
          { i := name.length
            first_space_reached := 0
            length_of_fname := 0
            fname := store_list (store_list l.fname 0 name) name.length [0]
            localargbuf := store l.localargbuf (name.length - 1) 0 }) := by
  have hT : TERMINAL_BUFFER_MAX_SIZE = 1024 := rfl
  unfold execute_parse
  have happ : name = name ++ [] := (List.append_nil name).symm
  rw [happ, execute_parse_loop_name name [] _ rfl (by show 0 + name.length ≤ 32; omega) hn,
    ← happ, execute_parse_loop]
  have e2 : (name.length + 4294967296 - 0 - 1) % 4294967296 = name.length - 1 := by omega
  have e4 : 0 + name.length = name.length := by omega
  have h1 : name.length - 1 < 1024 := by omega
  have h2 : name.length ≤ 32 := by omega
  simp only [execute_parse_end, e4, e2, hT, if_pos h1, if_pos h2, if_true, store_list]

/-! ## execute: the new PCB -/

theorem lor_eq_zero_left {a b : Nat} (h : a ||| b = 0) : a = 0 := by
  apply Nat.eq_of_testBit_eq
  intro i
  have h2 := congrArg (fun x => x.testBit i) h
  simp only [Nat.testBit_or, Nat.zero_testBit, Bool.or_eq_false_iff] at h2
  rw [h2.1, Nat.zero_testBit]

theorem lor_eq_zero_right {a b : Nat} (h : a ||| b = 0) : b = 0 :=
  lor_eq_zero_left ((Nat.or_comm b a).trans h)

theorem execute_not_first_process (rp p q : Nat) (hp : p < 8) (hq1 : 1 ≤ q) (hq7 : q ≤ 7)
    (hsent : rp &&& 0x80 ≠ 0) (hlive : rp &&& (0x80 >>> q) ≠ 0)
    (hclear : rp &&& (0x80 >>> p) = 0) : rp ||| (0x80 >>> p) ≠ 0xC0 := by
  intro h
  have hp0 : p ≠ 0 := by
    intro h0
    subst h0
    exact hsent hclear
  have hpq : p ≠ q := by
    intro hpq
    subst hpq
    exact hlive hclear
  by_cases hq : q = 1
  · subst hq
    have h2 := Nat.and_distrib_right rp (0x80 >>> p) (0x80 >>> p)
    rw [h, hclear, Nat.zero_or] at h2
    interval_cases p <;> first | exact absurd rfl hp0 | exact absurd rfl hpq | exact absurd h2 (by decide)
  · have h2 := Nat.and_distrib_right rp (0x80 >>> p) (0x80 >>> q)
    rw [h] at h2
    have hC : 0xC0 &&& (0x80 >>> q) = 0 := by
      interval_cases q <;> first | exact absurd rfl hq | decide
    rw [hC] at h2
    exact hlive (lor_eq_zero_left h2.symm)

theorem execute_user_cases (k : kernel_t) (esp ebp : Nat) (l : execute_locals_t)
    (command : Option (List Nat)) (e : Nat) (k' : kernel_t)
    (h : execute k esp ebp l command = .to_the_user_space e k') :
    ∃ cmd st p rp' len img, command = some cmd ∧ execute_parse l cmd = .ok (some st)
      ∧ execute_find_slot k.running_processes 8 0 0x80 = .found p rp'
      ∧ strlen st.localargbuf = some len
      ∧ k' = execute_result k esp ebp p rp' (strcpy_bytes st.localargbuf len) img := by
  cases command with
  | none => simp [execute] at h
  | some command =>
    cases hparse : execute_parse l command with
    | fault => simp [execute, hparse] at h
    | hang => simp [execute, hparse] at h
    | ok ost =>
      cases ost with
      | none => simp [execute, hparse] at h
      | some st =>
        cases hread : fs_read k.fs (some st.fname) 0 (some l.buf) 4 with
        | fault => simp [execute, hparse, hread] at h
        | hang => simp [execute, hparse, hread] at h
        | ok rb =>
          obtain ⟨r, buf1⟩ := rb
          by_cases hr : r = -1
          · simp [execute, hparse, hread, hr] at h
          · by_cases hm : strncmp (buf1.getD l.buf) (view magic_nums) 4 ≠ 0
            · simp only [execute, hparse, hread, if_neg hr, if_pos hm] at h
              cases h
            · cases hslot : execute_find_slot k.running_processes 8 0 0x80 with
              | full =>
                simp only [execute, hparse, hread, if_neg hr, if_neg hm, hslot] at h
                cases h
              | fallthrough =>
                rw [execute_find_slot_eq] at hslot
                split_ifs at hslot
              | found p rp' =>
                by_cases hnone : strlen st.localargbuf = none
                · rw [execute_found_hang k esp ebp l command st r buf1 p rp' hparse hread hr
                    (not_not.1 hm) hslot hnone] at h
                  cases h
                · obtain ⟨e2, len, img, hlen, hex⟩ := execute_found k esp ebp l command st r
                    buf1 p rp' hparse hread hr (not_not.1 hm) hslot hnone
                  rw [hex] at h
                  simp only [outcome_t.to_the_user_space.injEq] at h
                  exact ⟨command, st, p, rp', len, img, rfl, hparse, rfl, hlen, h.2.symm⟩

theorem strcpy_bytes_length (s : Nat → Nat) (len : Nat) : (strcpy_bytes s len).length = len + 1 := by
  simp [strcpy_bytes]

theorem stored_word_of_short (bytes : List Nat) (w : Nat) (h : bytes.length ≤ 106) :
    stored_word 394 bytes 500 w = w := by
  unfold stored_word
  simp only []
  rw [if_neg (by omega), if_neg (by omega), if_neg (by omega), if_neg (by omega)]

/-- When a running process `q` in [1,7] executes a program whose argument
string has fewer than 106 characters, the new PCB `p` gets `process_number = p`,
`parent_process_number = q` and `q`'s `tty_number`, descriptors 2..7 free and
0, 1 bound to stdin and stdout, all with inode 0 and offset 0, and PCB `q` gets
`has_child = 1`. -/
theorem execute_fills_pcb (k : kernel_t) (esp ebp : Nat) (l : execute_locals_t)
    (command : Option (List Nat)) (e : Nat) (k' : kernel_t) (q : Nat)
    (h : execute k esp ebp l command = .to_the_user_space e k')
    (hsent : k.running_processes &&& 0x80 ≠ 0) (hq1 : 1 ≤ q) (hq7 : q ≤ 7)
    (hlive : k.running_processes &&& (0x80 >>> q) ≠ 0)
    (hesp : esp &&& ALIGN_8KB = pcb_addr q)
    (hpn : (k.pcbs (pcb_addr q)).process_number = q)
    (hargs : ∀ cmd st len, command = some cmd → execute_parse l cmd = .ok (some st) →
      strlen st.localargbuf = some len → len < 106) :
    (k'.pcbs (pcb_addr k'.current_process_number)).process_number = k'.current_process_number
      ∧ (k'.pcbs (pcb_addr k'.current_process_number)).parent_process_number = q
      ∧ (k'.pcbs (pcb_addr k'.current_process_number)).tty_number
          = (k.pcbs (pcb_addr q)).tty_number
      ∧ ((k'.pcbs (pcb_addr k'.current_process_number)).fds 0).jumptable = .stdin_fops_table
      ∧ ((k'.pcbs (pcb_addr k'.current_process_number)).fds 1).jumptable = .stdout_fops_table
      ∧ (∀ i, i < 8 →
          ((k'.pcbs (pcb_addr k'.current_process_number)).fds i).inode = 0
          ∧ ((k'.pcbs (pcb_addr k'.current_process_number)).fds i).fileposition = 0
          ∧ ((k'.pcbs (pcb_addr k'.current_process_number)).fds i).flags
              = if i < 2 then IN_USE else NOT_IN_USE)
      ∧ (k'.pcbs (pcb_addr q)).has_child = 1 := by
  obtain ⟨cmd, st, p, rp', len, img, hcmd, hparse, hslot, hlen, hk'⟩ :=
    execute_user_cases k esp ebp l command e k' h
  obtain ⟨hp, hclear, _, hrp'⟩ := execute_find_slot_found _ _ _ hslot
  have h106 := hargs cmd st len hcmd hparse hlen
  have hfirst : ¬ rp' = 0xC0 := by
    rw [hrp']
    exact execute_not_first_process _ p q hp hq1 hq7 hsent hlive hclear
  have hpq : p ≠ q := by
    intro hpq
    subst hpq
    exact hlive hclear
  have hcur : k'.current_process_number = p := by
    rw [hk']
    exact (execute_result_globals k esp ebp p rp' _ img).2.1
  obtain ⟨n1, n2, n3, n4, n5, n6⟩ := execute_result_new_pcb k esp ebp p rp'
    (strcpy_bytes st.localargbuf len) img hp
  rw [hcur, hk']
  refine ⟨n1, ?_, ?_, n4, n5, n6, ?_⟩
  · rw [n2, if_neg hfirst, hesp, hpn]
  · rw [n3, if_neg hfirst, hesp,
      stored_word_of_short _ _ (by rw [strcpy_bytes_length]; omega)]
  · have hne : ¬ pcb_addr q = pcb_addr p := fun hh =>
      hpq (pcb_addr_inj q p (by omega) (by omega) hh).symm
    rw [execute_result_pcbs k esp ebp p rp' _ img hp (pcb_addr q), if_neg hne, if_pos hesp.symm,
      if_neg hfirst]

/-! ## execute: arguments longer than `argbuf` -/

set_option maxRecDepth 100000 in
/-- C7 (code defect): `execute` copies the argument string with an unbounded
`strcpy` into the 100 bytes of `argbuf`. Shell 1 (terminal 0) executing
`"shell "` followed by 107 letters `a` reaches user space as process 4 with
parent 1, but the bytes copied past `argbuf` overwrite `tty_number` of the new
PCB, which is `0x61` and not the parent's `0`. -/
theorem execute_long_args_overwrite_tty :
    ∃ e k', execute demo_boot 0x7FDF00 0x7FDF10 demo_locals
        (some (str_shell ++ 32 :: List.replicate 107 97)) = .to_the_user_space e k'
      ∧ 0x7FDF00 &&& ALIGN_8KB = pcb_addr 1
      ∧ k'.current_process_number = 4
      ∧ (k'.pcbs (pcb_addr 4)).parent_process_number = 1
      ∧ (demo_boot.pcbs (pcb_addr 1)).tty_number = 0
      ∧ (k'.pcbs (pcb_addr 4)).tty_number = 0x61 :=
  ⟨_, _, rfl, by decide, by decide, by decide, by decide, by decide⟩

/-! ## execute: a program name of 32 bytes -/

set_option maxRecDepth 100000 in
/-- C8 (code defect): a program whose name has exactly 32 bytes is never
found. In `demo_k5` the single directory entry is a regular file whose name is
32 letters `a` and whose contents start with the magic bytes, and a process
slot is free. For the command of that name followed by `" b"` the parse stores
the terminator at `fname[32]`, the lookup of the name fails, because `strlen`
of the entry's name runs on into the file type, and `execute` returns -1 with
the state unchanged: no process is created and the argument `b` is stored in
no PCB. -/
theorem execute_name_32_bytes_not_found :
    demo_k5.fs.fs_stats.num_dentries = 1
      ∧ (List.range 32).map (dentry_filename demo_k5.fs 0) = List.replicate 32 97
      ∧ dentry_filetype demo_k5.fs 0 = 2
      ∧ (List.range 4).map (file_byte demo_k5.fs 0) = magic_nums
      ∧ demo_k5.running_processes = 0xF0
      ∧ (∃ st, execute_parse demo_locals (List.replicate 32 97 ++ [32, 98]) = .ok (some st)
          ∧ (List.range 33).map st.fname = List.replicate 32 97 ++ [0]
          ∧ (List.range 2).map st.localargbuf = [98, 0]
          ∧ read_dentry_by_name demo_k5.fs st.fname = .ok none)
      ∧ execute demo_k5 0x7FDF00 0x7FDF10 demo_locals (some (List.replicate 32 97 ++ [32, 98]))
          = .ret (-1) demo_k5 :=
  ⟨by decide, by decide, by decide, by decide, by decide, ⟨_, rfl, by decide, by decide, rfl⟩,
    rfl⟩

set_option maxRecDepth 100000 in
/-- C2 (code defect): the same defect as in C8. In `demo_k5` the command of 32
letters `a` names the executable image of the directory and process slot 4 is
free (`running_processes = 0xF0`), but `execute` returns -1 and takes no slot:
`running_processes` and `current_process_number` are left as they were. -/
theorem execute_name_32_bytes_takes_no_slot :
    (List.range 32).map (dentry_filename demo_k5.fs 0) = List.replicate 32 97
      ∧ dentry_filetype demo_k5.fs 0 = 2
      ∧ (List.range 4).map (file_byte demo_k5.fs 0) = magic_nums
      ∧ demo_k5.running_processes = 0xF0
      ∧ demo_k5.running_processes &&& (0x80 >>> 4) = 0
      ∧ demo_k5.current_process_number = 1
      ∧ ∃ k', execute demo_k5 0x7FDF00 0x7FDF10 demo_locals (some (List.replicate 32 97))
            = .ret (-1) k'
          ∧ k'.running_processes = 0xF0 ∧ k'.current_process_number = 1 :=
  ⟨by decide, by decide, by decide, by decide, by decide, by decide, _, rfl, by decide,
    by decide⟩

set_option maxRecDepth 100000 in
/-- C6 (code defect): the same defect as in C8. In `demo_k5` the file named by
32 letters `a` exists, has 28 bytes and starts with `0x7F 'E' 'L' 'F'`, but
the read of its first four bytes under that name returns -1, so `execute`
returns -1 before it compares them with the magic sequence. -/
theorem execute_name_32_bytes_fails_before_magic_check :
    (List.range 32).map (dentry_filename demo_k5.fs 0) = List.replicate 32 97
      ∧ dentry_inode demo_k5.fs 0 = 0
      ∧ inode_size demo_k5.fs 0 = 28
      ∧ (List.range 4).map (file_byte demo_k5.fs 0) = magic_nums
      ∧ (∃ b, fs_read demo_k5.fs (some (view (List.replicate 32 97))) 0 (some demo_locals.buf) 4
          = .ok (-1, b))
      ∧ execute demo_k5 0x7FDF00 0x7FDF10 demo_locals (some (List.replicate 32 97 ++ [32]))
          = .ret (-1) demo_k5 :=
  ⟨by decide, by decide, by decide, by decide, ⟨_, rfl⟩, rfl⟩

/-! ## execute: a command without arguments -/

/-- C9 (code defect): for a command without a space `execute` stores the
terminator of `localargbuf` at index `strlen(command) - 1` instead of index 0,
so the bytes before it are whatever the stack held. With the stack bytes of
`localargbuf` all `0x41`, executing `"shell"` stores the argument string
`"AAAA"` in the new PCB, not the empty string. -/
theorem execute_no_space_args_uninitialised :
    ∃ e k', execute demo_boot 0x7FDF00 0x7FDF10 demo_locals (some str_shell)
        = .to_the_user_space e k'
      ∧ k'.current_process_number = 4
      ∧ (List.range 5).map (k'.pcbs (pcb_addr 4)).argbuf = [0x41, 0x41, 0x41, 0x41, 0] :=
  ⟨_, _, rfl, by decide, by decide⟩

/-! ## halt of the root shell -/

/-- C10 (code defect): in the root-shell branch of `halt` the local
`entry_point` is not initialised before the loop ors the four bytes into it.
The state is left unchanged and, when the stack slot held 0, user space is
entered at the little-endian value `0x08042010` of bytes 24..27 of `shell`;
when the slot held `0xFF000000` it is entered at `0xFF042010`. -/
theorem halt_root_entry_point_uninitialised :
    (demo_boot.pcbs (demo_boot.kernel_stack_bottom &&& ALIGN_8KB)).parent_process_number = 0
      ∧ [file_byte demo_boot.fs 0 24, file_byte demo_boot.fs 0 25, file_byte demo_boot.fs 0 26,
          file_byte demo_boot.fs 0 27] = [0x10, 0x20, 0x04, 0x08]
      ∧ halt demo_boot ⟨fun _ => 0, 0⟩ 0 = .to_the_user_space 0x08042010 demo_boot
      ∧ halt demo_boot ⟨fun _ => 0, 0xFF000000⟩ 0 = .to_the_user_space 0xFF042010 demo_boot :=
  ⟨by decide, by decide, rfl, rfl⟩

/-! ## The kernel stack of the current process -/

theorem bootup_shell_globals (k : kernel_t) (esp ebp i : Nat) (k' : kernel_t)
    (h : bootup_shell k esp ebp i = .ok (some k')) :
    k'.running_processes = k.running_processes
      ∧ k'.current_process_number = k.current_process_number
      ∧ k'.kernel_stack_bottom = _8MB - _8KB * i - 4
      ∧ k'.tss_esp0 = _8MB - _8KB * i - 4 := by
  by_cases h1 : (setup_new_task k i).1 = -1
  · simp [bootup_shell, h1] at h
  · simp only [bootup_shell, if_neg h1] at h
    cases hl : fs_load k.fs (some (view str_shell)) with
    | fault => simp [hl] at h
    | hang => simp [hl] at h
    | ok ri =>
      obtain ⟨r, img⟩ := ri
      simp only [hl, sys_open_stdin, sys_open_stdout, result_t.ok.injEq, Option.some.injEq] at h
      subst h
      have hs : (setup_new_task k i).2.running_processes = k.running_processes
          ∧ (setup_new_task k i).2.current_process_number = k.current_process_number := by
        unfold setup_new_task
        split_ifs <;> exact ⟨rfl, rfl⟩
      simp [open_stdout, open_stdin, hs]

theorem bootup_cases (k0 : kernel_t) (esp ebp : Nat) (buf : Nat → Nat) (e : Nat) (k : kernel_t)
    (h : bootup k0 esp ebp buf = .to_the_user_space e k) :
    ∃ k3 k2 k1, bootup_shell k0 esp ebp 3 = .ok (some k3)
      ∧ bootup_shell k3 esp ebp 2 = .ok (some k2)
      ∧ bootup_shell k2 esp ebp 1 = .ok (some k1)
      ∧ k = set_current_process_number
          (set_running_processes k1 (k1.running_processes ||| INITIAL_SHELLS_BITMASK)) 1 := by
  unfold bootup at h
  cases hr : fs_read k0.fs (some (view str_shell)) ENTRY_POINT_OFFSET (some buf) 4 with
  | fault => simp [hr] at h
  | hang => simp [hr] at h
  | ok rb =>
    obtain ⟨r, buf1⟩ := rb
    simp only [hr] at h
    split_ifs at h with hr1
    cases h3 : bootup_shell k0 esp ebp 3 with
    | fault => simp [h3] at h
    | hang => simp [h3] at h
    | ok o3 =>
      cases o3 with
      | none => simp [h3] at h
      | some k3 =>
        simp only [h3] at h
        cases h2 : bootup_shell k3 esp ebp 2 with
        | fault => simp [h2] at h
        | hang => simp [h2] at h
        | ok o2 =>
          cases o2 with
          | none => simp [h2] at h
          | some k2 =>
            simp only [h2] at h
            cases h1 : bootup_shell k2 esp ebp 1 with
            | fault => simp [h1] at h
            | hang => simp [h1] at h
            | ok o1 =>
              cases o1 with
              | none => simp [h1] at h
              | some k1 =>
                simp only [h1, outcome_t.to_the_user_space.injEq] at h
                exact ⟨k3, k2, k1, rfl, h2, h1, h.2.symm⟩

theorem halt_state_cases (k : kernel_t) (l : halt_locals_t) (status : Nat) (k' : kernel_t)
    (h : (halt k l status).state = some k') :
    k' = k ∨ ((k.pcbs (k.kernel_stack_bottom &&& ALIGN_8KB)).parent_process_number ≠ 0
      ∧ k' = halt_switch k (k.pcbs (k.kernel_stack_bottom &&& ALIGN_8KB)).process_number
          (k.pcbs (k.kernel_stack_bottom &&& ALIGN_8KB)).parent_process_number) := by
  unfold halt at h
  split_ifs at h with h0
  · cases hr : fs_read k.fs (some (view str_shell)) ENTRY_POINT_OFFSET (some l.buf) 4 with
    | fault => simp [hr, outcome_t.state] at h
    | hang => simp [hr, outcome_t.state] at h
    | ok rb =>
      obtain ⟨r, buf⟩ := rb
      simp only [hr] at h
      split_ifs at h with h1
      · simp only [outcome_t.state, Option.some.injEq] at h
        exact Or.inl h.symm
      · simp only [outcome_t.state, Option.some.injEq] at h
        exact Or.inl h.symm
  · simp only [outcome_t.state, Option.some.injEq] at h
    exact Or.inr ⟨h0, h.symm⟩

theorem pit_interruption_state_cases (fuel : Nat) (k : kernel_t) (esp ebp : Nat) (k' : kernel_t)
    (h : (pit_interruption fuel k esp ebp).state = some k') :
    k' = k ∨ ∃ j, pit_search k k.current_process_number fuel ((k.current_process_number + 1) % 8)
          (pit_bitmask ((k.current_process_number + 1) % 8) 0x80) = some j
      ∧ k.current_process_number ≠ j ∧ k' = pit_switch k esp ebp j := by
  unfold pit_interruption at h
  cases hs : pit_search k k.current_process_number fuel ((k.current_process_number + 1) % 8)
      (pit_bitmask ((k.current_process_number + 1) % 8) 0x80) with
  | none => simp [hs, outcome_t.state] at h
  | some j =>
    simp only [hs] at h
    split_ifs at h with h1
    · simp only [outcome_t.state, Option.some.injEq] at h
      exact Or.inl h.symm
    · simp only [outcome_t.state, Option.some.injEq] at h
      exact Or.inr ⟨j, rfl, h1, h.symm⟩

/-- C4: in every state reached from the end of `bootup` by calls of `execute`,
of `halt` and timer ticks, `tss.esp0` and `kernel_stack_bottom` both equal
`8 MiB - 8 KiB * current_process_number - 4`. -/
theorem kernel_stack_of_current_process (k : kernel_t) (h : Reachable k) :
    k.tss_esp0 = _8MB - _8KB * k.current_process_number - 4
      ∧ k.kernel_stack_bottom = _8MB - _8KB * k.current_process_number - 4 := by
  induction h with
  | boot k0 esp ebp buf e k hb =>
    obtain ⟨k3, k2, k1, _, _, h1, hk⟩ := bootup_cases k0 esp ebp buf e k hb
    obtain ⟨_, _, hksb, hesp0⟩ := bootup_shell_globals k2 esp ebp 1 k1 h1
    subst hk
    exact ⟨hesp0, hksb⟩
  | exec k esp ebp l command k' _ hs ih =>
    rcases execute_state_cases k esp ebp l command k' hs with hk | ⟨p, rp', args, img, _, hk⟩
    · subst hk
      exact ih
    · obtain ⟨_, hcur, hksb, hesp0, _⟩ := execute_result_globals k esp ebp p rp' args img
      rw [hk, hcur]
      exact ⟨hesp0, hksb⟩
  | exit k l status k' _ hs ih =>
    rcases halt_state_cases k l status k' hs with hk | ⟨_, hk⟩
    · subst hk
      exact ih
    · subst hk
      exact ⟨rfl, rfl⟩
  | tick fuel k esp ebp k' _ hs ih =>
    rcases pit_interruption_state_cases fuel k esp ebp k' hs with hk | ⟨j, _, _, hk⟩
    · subst hk
      exact ih
    · subst hk
      exact ⟨rfl, rfl⟩

theorem kernel_stack_of_current_process_witness :
    Reachable demo_run
      ∧ demo_run.tss_esp0 = _8MB - _8KB * demo_run.current_process_number - 4
      ∧ demo_run.kernel_stack_bottom = _8MB - _8KB * demo_run.current_process_number - 4 :=
  have hr : Reachable demo_run :=
    Reachable.exec demo_boot 0x7FDF00 0x7FDF10 demo_locals (some str_shell) demo_run
      (Reachable.boot demo_k0 0x7FFF00 0x7FFF10 (fun _ => 0) 0x08042010 demo_boot rfl) rfl
  ⟨hr, kernel_stack_of_current_process demo_run hr⟩

/-! ## The sentinel bit -/

theorem lor_land_ne_zero (rp b m : Nat) (h : rp &&& m ≠ 0) : (rp ||| b) &&& m ≠ 0 := by
  intro h0
  rw [Nat.and_distrib_right] at h0
  exact h (lor_eq_zero_left h0)

theorem lor_bit_land_bit (rp p n : Nat) (hp : p < 8) (hn : n < 8) (hne : n ≠ p) :
    (rp ||| (0x80 >>> p)) &&& (0x80 >>> n) = rp &&& (0x80 >>> n) := by
  have h0 : (0x80 >>> p) &&& (0x80 >>> n) = 0 := by
    interval_cases p <;> interval_cases n <;> first | exact absurd rfl hne | rfl
  rw [Nat.and_distrib_right, h0, Nat.or_zero]

theorem lor_bit_land_self (rp p : Nat) (hp : p < 8) :
    (rp ||| (0x80 >>> p)) &&& (0x80 >>> p) ≠ 0 := by
  intro h0
  rw [Nat.and_distrib_right] at h0
  have h1 := lor_eq_zero_right h0
  interval_cases p <;> exact absurd h1 (by decide)

theorem pit_search_some (k : kernel_t) (c j : Nat) (hc : c < 8) :
    ∀ fuel d, 1 ≤ d → d ≤ 8 →
      pit_search k c fuel ((c + d) % 8) (0x80 >>> ((c + d) % 8)) = some j →
      j = c ∨ (eligible k j ∧ j < 8) := by
  intro fuel
  induction fuel with
  | zero =>
    intro d _ _ h
    simp [pit_search] at h
  | succ fuel ih =>
    intro d hd1 hd8 h
    by_cases h8 : d = 8
    · subst h8
      have hcc : (c + 8) % 8 = c := by omega
      rw [pit_search, if_pos hcc, hcc] at h
      exact Or.inl (Option.some.inj h).symm
    · rw [pit_search_step k c fuel d hc hd1 (by omega)] at h
      split_ifs at h with he
      · have hj := (Option.some.inj h).symm
        subst hj
        exact Or.inr ⟨he, Nat.mod_lt _ (by decide)⟩
      · exact ih (d + 1) (by omega) (by omega) h

theorem bootup_shell_pcbs (k : kernel_t) (esp ebp i : Nat) (k' : kernel_t) (hi : i < 8)
    (h : bootup_shell k esp ebp i = .ok (some k')) (a : Nat) :
    ((k'.pcbs a).process_number = if a = pcb_addr i then i else (k.pcbs a).process_number)
      ∧ ((k'.pcbs a).parent_process_number
          = if a = pcb_addr i then 0 else (k.pcbs a).parent_process_number) := by
  have hb := pcb_addr_of_stack_bottom i hi
  by_cases h1 : (setup_new_task k i).1 = -1
  · simp [bootup_shell, h1] at h
  · simp only [bootup_shell, if_neg h1] at h
    cases hl : fs_load k.fs (some (view str_shell)) with
    | fault => simp [hl] at h
    | hang => simp [hl] at h
    | ok ri =>
      obtain ⟨r, img⟩ := ri
      simp only [hl, sys_open_stdin, sys_open_stdout, result_t.ok.injEq, Option.some.injEq] at h
      subst h
      have hs : ∀ b, (setup_new_task k i).2.pcbs b = k.pcbs b := by
        intro b
        unfold setup_new_task
        split_ifs <;> rfl
      rw [open_std_pcbs]
      simp only [set_kernel_stack_bottom_kernel_stack_bottom, hb]
      generalize pcb_addr i = A
      simp only [set_kernel_stack_bottom_pcbs, set_tss_esp0_pcbs, update_pcb_pcbs,
        load_program_img_pcbs, hs]
      by_cases ha : a = A
      · simp only [if_pos ha]
        exact ⟨rfl, rfl⟩
      · simp only [if_neg ha]
        exact ⟨trivial, trivial⟩

theorem live_lt (k : kernel_t) (n : Nat) (h : live k n) : n < 8 := by
  obtain ⟨_, h7, _⟩ := h
  omega

theorem process_tree_current_pcb (k : kernel_t) (h : process_tree k) :
    k.kernel_stack_bottom &&& ALIGN_8KB = pcb_addr k.current_process_number := by
  rw [h.stack]
  exact pcb_addr_of_stack_bottom _ (live_lt k _ h.current)

theorem process_tree_bootup (k0 : kernel_t) (esp ebp : Nat) (buf : Nat → Nat) (e : Nat)
    (k : kernel_t) (h0 : k0.running_processes = 0x80)
    (h : bootup k0 esp ebp buf = .to_the_user_space e k) : process_tree k := by
  obtain ⟨k3, k2, k1, h3, h2, h1, hk⟩ := bootup_cases k0 esp ebp buf e k h
  obtain ⟨r3, _, _, _⟩ := bootup_shell_globals k0 esp ebp 3 k3 h3
  obtain ⟨r2, _, _, _⟩ := bootup_shell_globals k3 esp ebp 2 k2 h2
  obtain ⟨r1, _, hksb, _⟩ := bootup_shell_globals k2 esp ebp 1 k1 h1
  have hrp : k.running_processes = 0xF0 := by
    rw [hk]
    show k1.running_processes ||| INITIAL_SHELLS_BITMASK = 0xF0
    rw [r1, r2, r3, h0]
    rfl
  have hcur : k.current_process_number = 1 := by rw [hk]; rfl
  have hpcbs : ∀ a, k.pcbs a = k1.pcbs a := by intro a; rw [hk]; rfl
  have hlive : ∀ n, live k n → n = 1 ∨ n = 2 ∨ n = 3 := by
    intro n ⟨hn1, hn7, hb⟩
    rw [hrp] at hb
    interval_cases n
    · exact Or.inl rfl
    · exact Or.inr (Or.inl rfl)
    · exact Or.inr (Or.inr rfl)
    all_goals exact absurd rfl hb
  have hne21 : ¬ pcb_addr 2 = pcb_addr 1 := by decide
  have hne31 : ¬ pcb_addr 3 = pcb_addr 1 := by decide
  have hne32 : ¬ pcb_addr 3 = pcb_addr 2 := by decide
  have hfields : ∀ n, live k n → (k.pcbs (pcb_addr n)).process_number = n
      ∧ (k.pcbs (pcb_addr n)).parent_process_number = 0 := by
    intro n hn
    rcases hlive n hn with rfl | rfl | rfl
    · obtain ⟨a1, b1⟩ := bootup_shell_pcbs k2 esp ebp 1 k1 (by decide) h1 (pcb_addr 1)
      rw [hpcbs, a1, b1]
      exact ⟨if_pos rfl, if_pos rfl⟩
    · obtain ⟨a1, b1⟩ := bootup_shell_pcbs k2 esp ebp 1 k1 (by decide) h1 (pcb_addr 2)
      obtain ⟨a2, b2⟩ := bootup_shell_pcbs k3 esp ebp 2 k2 (by decide) h2 (pcb_addr 2)
      rw [hpcbs, a1, b1, if_neg hne21, if_neg hne21, a2, b2]
      exact ⟨if_pos rfl, if_pos rfl⟩
    · obtain ⟨a1, b1⟩ := bootup_shell_pcbs k2 esp ebp 1 k1 (by decide) h1 (pcb_addr 3)
      obtain ⟨a2, b2⟩ := bootup_shell_pcbs k3 esp ebp 2 k2 (by decide) h2 (pcb_addr 3)
      obtain ⟨a3, b3⟩ := bootup_shell_pcbs k0 esp ebp 3 k3 (by decide) h3 (pcb_addr 3)
      rw [hpcbs, a1, b1, if_neg hne31, if_neg hne31, a2, b2, if_neg hne32, if_neg hne32, a3, b3]
      exact ⟨if_pos rfl, if_pos rfl⟩
  refine ⟨?_, ?_, ?_, ?_, ?_, ?_, ?_⟩
  · rw [hrp]
    decide
  · rw [hcur]
    refine ⟨le_refl 1, by decide, ?_⟩
    rw [hrp]
    decide
  · rw [hcur, hk]
    exact hksb
  · intro n hn
    exact (hfields n hn).1
  · intro n hn hpar
    exact absurd (hfields n hn).2 hpar
  · intro n m hn _ hpar
    exact absurd (hfields n hn).2 hpar
  · intro n hn
    rw [(hfields n hn).2, hcur]
    decide

theorem pit_switch_pcbs (k : kernel_t) (esp ebp j : Nat) (a : Nat) :
    ((pit_switch k esp ebp j).pcbs a).process_number = (k.pcbs a).process_number
      ∧ ((pit_switch k esp ebp j).pcbs a).parent_process_number
          = (k.pcbs a).parent_process_number
      ∧ ((pit_switch k esp ebp j).pcbs a).has_child = (k.pcbs a).has_child := by
  unfold pit_switch
  generalize pcb_addr k.current_process_number = A
  simp only [set_kernel_stack_bottom_pcbs, set_tss_esp0_pcbs, set_paging_pcbs,
    set_process_term_number_pcbs, set_current_process_number_pcbs, update_pcb_pcbs]
  by_cases ha : a = A <;> simp [ha]

theorem pit_switch_running_processes (k : kernel_t) (esp ebp j : Nat) :
    (pit_switch k esp ebp j).running_processes = k.running_processes := by
  unfold pit_switch
  generalize pcb_addr k.current_process_number = A
  generalize (k.pcbs A).tty_number = t
  simp only [set_kernel_stack_bottom_running_processes, set_tss_esp0_running_processes,
    set_paging_running_processes, set_process_term_number_running_processes,
    set_current_process_number_running_processes, update_pcb_running_processes]

theorem process_tree_pit_switch (k : kernel_t) (esp ebp j : Nat) (h : process_tree k)
    (hj : eligible k j) (hj8 : j < 8) : process_tree (pit_switch k esp ebp j) := by
  have hrp := pit_switch_running_processes k esp ebp j
  have hcur : (pit_switch k esp ebp j).current_process_number = j := rfl
  have hksb : (pit_switch k esp ebp j).kernel_stack_bottom = _8MB - _8KB * j - 4 := rfl
  have hl : ∀ n, live (pit_switch k esp ebp j) n ↔ live k n := by
    intro n
    unfold live
    rw [hrp]
  obtain ⟨hj0, hjb, hjc⟩ := hj
  have hpn := fun a => (pit_switch_pcbs k esp ebp j a).1
  have hpar := fun a => (pit_switch_pcbs k esp ebp j a).2.1
  have hhc := fun a => (pit_switch_pcbs k esp ebp j a).2.2
  refine ⟨?_, ?_, ?_, ?_, ?_, ?_, ?_⟩
  · rw [hrp]
    exact h.sentinel
  · rw [hcur, hl]
    exact ⟨by omega, by omega, hjb⟩
  · rw [hcur, hksb]
  · intro n hn
    rw [hpn]
    exact h.numbered n ((hl n).1 hn)
  · intro n hn hp
    rw [hpar] at hp ⊢
    rw [hl, hhc]
    exact h.parent n ((hl n).1 hn) hp
  · intro n m hn hm hp he
    rw [hpar] at hp he
    rw [hpar] at he
    exact h.one_child n m ((hl n).1 hn) ((hl m).1 hm) hp he
  · intro n hn he
    rw [hpar, hcur] at he
    have hp : (k.pcbs (pcb_addr n)).parent_process_number ≠ 0 := by rw [he]; exact hj0
    have h2 := (h.parent n ((hl n).1 hn) hp).2
    rw [he] at h2
    exact h2 hjc
theorem halt_switch_pcbs (k : kernel_t) (c q : Nat) (a : Nat) :
    ((halt_switch k c q).pcbs a).process_number = (k.pcbs a).process_number
      ∧ ((halt_switch k c q).pcbs a).parent_process_number = (k.pcbs a).parent_process_number
      ∧ (a ≠ pcb_addr q → ((halt_switch k c q).pcbs a).has_child = (k.pcbs a).has_child) := by
  unfold halt_switch
  generalize pcb_addr q = A
  simp only [set_kernel_stack_bottom_pcbs, set_tss_esp0_pcbs, set_paging_pcbs,
    set_current_process_number_pcbs, set_running_processes_pcbs, update_pcb_pcbs]
  by_cases ha : a = A <;> simp [ha]

theorem halt_switch_running_processes (k : kernel_t) (c q : Nat) (hc1 : 1 ≤ c) (hc7 : c ≤ 7) :
    (halt_switch k c q).running_processes &&& 0x80 = k.running_processes &&& 0x80
      ∧ (halt_switch k c q).running_processes &&& (0x80 >>> c) = 0
      ∧ (∀ j, j < 8 → j ≠ c →
          (halt_switch k c q).running_processes &&& (0x80 >>> j)
            = k.running_processes &&& (0x80 >>> j)) := by
  have hrp : (halt_switch k c q).running_processes
      = k.running_processes &&& halt_bitmask c 0x7F := rfl
  rw [hrp]
  refine ⟨?_, ?_, ?_⟩
  · apply land_land_self
    interval_cases c <;> decide
  · apply land_land_zero
    interval_cases c <;> decide
  · intro j hj hjc
    apply land_land_self
    interval_cases c <;> interval_cases j <;> first | decide | exact absurd rfl hjc

theorem process_tree_halt_switch (k : kernel_t) (h : process_tree k)
    (hq : (k.pcbs (k.kernel_stack_bottom &&& ALIGN_8KB)).parent_process_number ≠ 0) :
    process_tree
      (halt_switch k (k.pcbs (k.kernel_stack_bottom &&& ALIGN_8KB)).process_number
        (k.pcbs (k.kernel_stack_bottom &&& ALIGN_8KB)).parent_process_number) := by
  have hcl := h.current
  rw [process_tree_current_pcb k h] at hq ⊢
  rw [h.numbered _ hcl]
  generalize hc : k.current_process_number = c at hq hcl ⊢
  generalize hqq : (k.pcbs (pcb_addr c)).parent_process_number = q at hq ⊢
  obtain ⟨hc1, hc7, hcb⟩ := hcl
  have hcl : live k c := ⟨hc1, hc7, hcb⟩
  obtain ⟨hql, hqc⟩ := h.parent c hcl (by rw [hqq]; exact hq)
  rw [hqq] at hql hqc
  have hqne : q ≠ c := by
    have := h.leaf c hcl
    rw [hqq, hc] at this
    exact this
  obtain ⟨r7, rc, rj⟩ := halt_switch_running_processes k c q hc1 hc7
  have hcur : (halt_switch k c q).current_process_number = q := rfl
  have hksb : (halt_switch k c q).kernel_stack_bottom = _8MB - _8KB * q - 4 := rfl
  have hl : ∀ n, live (halt_switch k c q) n ↔ live k n ∧ n ≠ c := by
    intro n
    unfold live
    constructor
    · intro ⟨a1, a2, a3⟩
      have hnc : n ≠ c := by
        intro hh
        subst hh
        exact a3 rc
      rw [rj n (by omega) hnc] at a3
      exact ⟨⟨a1, a2, a3⟩, hnc⟩
    · intro ⟨⟨a1, a2, a3⟩, hnc⟩
      rw [← rj n (by omega) hnc] at a3
      exact ⟨a1, a2, a3⟩
  have hpn := fun a => (halt_switch_pcbs k c q a).1
  have hpar := fun a => (halt_switch_pcbs k c q a).2.1
  have hhc := fun a => (halt_switch_pcbs k c q a).2.2
  have honly : ∀ n, live k n → n ≠ c → (k.pcbs (pcb_addr n)).parent_process_number ≠ q := by
    intro n hn hnc he
    have := h.one_child n c hn hcl (by rw [he]; exact hq) (by rw [he, hqq])
    exact hnc this
  refine ⟨?_, ?_, ?_, ?_, ?_, ?_, ?_⟩
  · rw [r7]
    exact h.sentinel
  · rw [hcur, hl]
    exact ⟨hql, hqne⟩
  · rw [hcur, hksb]
  · intro n hn
    rw [hpn]
    exact h.numbered n ((hl n).1 hn).1
  · intro n hn hp
    obtain ⟨hn1, hnc⟩ := (hl n).1 hn
    rw [hpar] at hp ⊢
    obtain ⟨p1, p2⟩ := h.parent n hn1 hp
    have hpc : (k.pcbs (pcb_addr n)).parent_process_number ≠ c := by
      have := h.leaf n hn1
      rw [hc] at this
      exact this
    have hpq := honly n hn1 hnc
    refine ⟨(hl _).2 ⟨p1, hpc⟩, ?_⟩
    rw [hhc _ (fun he => hpq (pcb_addr_inj _ _ (by have := live_lt k _ p1; omega)
      (by have := live_lt k _ hql; omega) he))]
    exact p2
  · intro n m hn hm hp he
    rw [hpar] at hp he
    rw [hpar] at he
    exact h.one_child n m ((hl n).1 hn).1 ((hl m).1 hm).1 hp he
  · intro n hn
    obtain ⟨hn1, hnc⟩ := (hl n).1 hn
    rw [hpar, hcur]
    exact honly n hn1 hnc

theorem execute_result_old_pcb (k : kernel_t) (esp ebp p rp' : Nat) (args img : List Nat)
    (hp : p < 8) (c n : Nat) (hc : c < 8) (hn : n < 8) (hnp : n ≠ p)
    (hesp : esp &&& ALIGN_8KB = pcb_addr c) (hfirst : rp' ≠ 0xC0) :
    ((execute_result k esp ebp p rp' args img).pcbs (pcb_addr n)).process_number
        = (k.pcbs (pcb_addr n)).process_number
      ∧ ((execute_result k esp ebp p rp' args img).pcbs (pcb_addr n)).parent_process_number
        = (k.pcbs (pcb_addr n)).parent_process_number
      ∧ ((k.pcbs (pcb_addr n)).has_child ≠ 0 ∨ n = c →
        ((execute_result k esp ebp p rp' args img).pcbs (pcb_addr n)).has_child ≠ 0) := by
  have hne : ¬ pcb_addr n = pcb_addr p := fun hh =>
    hnp (pcb_addr_inj n p (by omega) (by omega) hh)
  rw [execute_result_pcbs k esp ebp p rp' args img hp (pcb_addr n), if_neg hne, hesp]
  by_cases hnc : n = c
  · subst hnc
    rw [if_pos rfl, if_neg hfirst]
    exact ⟨rfl, rfl, fun _ => Nat.one_ne_zero⟩
  · have hne2 : ¬ pcb_addr n = pcb_addr c := fun hh =>
      hnc (pcb_addr_inj n c (by omega) (by omega) hh)
    rw [if_neg hne2]
    exact ⟨rfl, rfl, fun hh => hh.resolve_right hnc⟩

theorem process_tree_execute_result (k : kernel_t) (esp ebp p rp' : Nat) (args img : List Nat)
    (h : process_tree k) (hesp : esp &&& ALIGN_8KB = k.kernel_stack_bottom &&& ALIGN_8KB)
    (hslot : execute_find_slot k.running_processes 8 0 0x80 = .found p rp') :
    process_tree (execute_result k esp ebp p rp' args img) := by
  obtain ⟨hp, hclear, _, hrp'⟩ := execute_find_slot_found _ _ _ hslot
  have hcl := h.current
  rw [process_tree_current_pcb k h] at hesp
  have hnumc := h.numbered _ hcl
  generalize hc : k.current_process_number = c at hesp hcl hnumc
  obtain ⟨hc1, hc7, hcb⟩ := hcl
  have hcl : live k c := ⟨hc1, hc7, hcb⟩
  have hfirst : rp' ≠ 0xC0 := by
    rw [hrp']
    exact execute_not_first_process _ p c hp hc1 hc7 h.sentinel hcb hclear
  have hp0 : p ≠ 0 := by
    intro h0
    subst h0
    exact h.sentinel hclear
  have hnotlive : ∀ n, live k n → n ≠ p := by
    intro n hn hh
    subst hh
    exact hn.2.2 hclear
  have hpc : c ≠ p := hnotlive c hcl
  obtain ⟨g1, g2, g3, _, _⟩ := execute_result_globals k esp ebp p rp' args img
  obtain ⟨n1, n2, _⟩ := execute_result_new_pcb k esp ebp p rp' args img hp
  rw [if_neg hfirst, hesp, hnumc] at n2
  have hold := fun n (hn : n < 8) (hnp : n ≠ p) =>
    execute_result_old_pcb k esp ebp p rp' args img hp c n (by omega) hn hnp hesp hfirst
  generalize execute_result k esp ebp p rp' args img = k' at g1 g2 g3 n1 n2 hold ⊢
  have hmono : ∀ n, live k n → live k' n := by
    intro n ⟨a1, a2, a3⟩
    refine ⟨a1, a2, ?_⟩
    rw [g1, hrp']
    exact lor_land_ne_zero _ _ _ a3
  have hsplit : ∀ n, live k' n → n = p ∨ live k n := by
    intro n ⟨a1, a2, a3⟩
    by_cases hnp : n = p
    · exact Or.inl hnp
    · rw [g1, hrp', lor_bit_land_bit _ p n hp (by omega) hnp] at a3
      exact Or.inr ⟨a1, a2, a3⟩
  refine ⟨?_, ?_, ?_, ?_, ?_, ?_, ?_⟩
  · rw [g1, hrp']
    exact lor_land_ne_zero _ _ _ h.sentinel
  · rw [g2]
    refine ⟨by omega, by omega, ?_⟩
    rw [g1, hrp']
    exact lor_bit_land_self _ p hp
  · rw [g2, g3]
  · intro n hn
    rcases hsplit n hn with hnp | hn1
    · subst hnp
      exact n1
    · rw [(hold n (live_lt k n hn1) (hnotlive n hn1)).1]
      exact h.numbered n hn1
  · intro n hn hpar
    rcases hsplit n hn with hnp | hn1
    · subst hnp
      rw [n2]
      exact ⟨hmono c hcl, (hold c (by omega) hpc).2.2 (Or.inr rfl)⟩
    · rw [(hold n (live_lt k n hn1) (hnotlive n hn1)).2.1] at hpar ⊢
      obtain ⟨p1, p2⟩ := h.parent n hn1 hpar
      exact ⟨hmono _ p1, (hold _ (live_lt k _ p1) (hnotlive _ p1)).2.2 (Or.inl p2)⟩
  · intro n m hn hm hpar he
    rcases hsplit n hn with hnp | hn1
    · rcases hsplit m hm with hmp | hm1
      · rw [hnp, hmp]
      · subst hnp
        rw [n2, (hold m (live_lt k m hm1) (hnotlive m hm1)).2.1] at he
        have := h.leaf m hm1
        rw [hc] at this
        exact absurd he.symm this
    · rw [(hold n (live_lt k n hn1) (hnotlive n hn1)).2.1] at hpar he
      rcases hsplit m hm with hmp | hm1
      · subst hmp
        rw [n2] at he
        have := h.leaf n hn1
        rw [hc] at this
        exact absurd he this
      · rw [(hold m (live_lt k m hm1) (hnotlive m hm1)).2.1] at he
        exact h.one_child n m hn1 hm1 hpar he
  · intro n hn
    rw [g2]
    rcases hsplit n hn with hnp | hn1
    · subst hnp
      rw [n2]
      exact hpc
    · rw [(hold n (live_lt k n hn1) (hnotlive n hn1)).2.1]
      by_cases hz : (k.pcbs (pcb_addr n)).parent_process_number = 0
      · rw [hz]
        exact fun hh => hp0 hh.symm
      · exact hnotlive _ (h.parent n hn1 hz).1

theorem process_tree_of_reachable (k : kernel_t) (h : ReachableFromInit k) : process_tree k := by
  induction h with
  | boot k0 esp ebp buf e k h0 hb => exact process_tree_bootup k0 esp ebp buf e k h0 hb
  | exec k esp ebp l command k' _ hesp hs ih =>
    rcases execute_state_cases k esp ebp l command k' hs with hk | ⟨p, rp', args, img, hslot, hk⟩
    · subst hk
      exact ih
    · subst hk
      exact process_tree_execute_result k esp ebp p rp' args img ih hesp hslot
  | exit k l status k' _ hs ih =>
    rcases halt_state_cases k l status k' hs with hk | ⟨hq, hk⟩
    · subst hk
      exact ih
    · subst hk
      exact process_tree_halt_switch k ih hq
  | tick fuel k esp ebp k' _ hs ih =>
    rcases pit_interruption_state_cases fuel k esp ebp k' hs with hk | ⟨j, hj, hne, hk⟩
    · subst hk
      exact ih
    · subst hk
      have hc := live_lt k _ ih.current
      rw [pit_bitmask_eq _ (Nat.mod_lt _ (by decide))] at hj
      rcases pit_search_some k _ j hc fuel 1 (le_refl 1) (by decide) hj with hjc | ⟨he, hj8⟩
      · exact absurd hjc.symm hne
      · exact process_tree_pit_switch k esp ebp j ih he hj8

/-- C5: bit 7 (`0x80`, the sentinel process 0) of `running_processes` is set in
every state reached from the initial value `0x80` through `bootup`, `execute`
and `halt` (and timer ticks); so from such a state the slot search of `execute`
never yields process id 0, `execute` never ends with bit 7 clear or with
current process 0, and `halt` never ends with bit 7 clear. -/
theorem sentinel_bit_always_set (k : kernel_t) (h : ReachableFromInit k) :
    k.running_processes &&& 0x80 ≠ 0
      ∧ (∀ p rp', execute_find_slot k.running_processes 8 0 0x80 = .found p rp' → p ≠ 0)
      ∧ (∀ esp ebp l command k', (execute k esp ebp l command).state = some k' →
          k'.running_processes &&& 0x80 ≠ 0 ∧ k'.current_process_number ≠ 0)
      ∧ (∀ l status k', (halt k l status).state = some k' →
          k'.running_processes &&& 0x80 ≠ 0) := by
  have ht := process_tree_of_reachable k h
  have hslot0 : ∀ p rp', execute_find_slot k.running_processes 8 0 0x80 = .found p rp' →
      p ≠ 0 := by
    intro p rp' hs h0
    subst h0
    exact ht.sentinel (execute_find_slot_found _ _ _ hs).2.1
  refine ⟨ht.sentinel, hslot0, ?_, ?_⟩
  · intro esp ebp l command k' hs
    rcases execute_state_cases k esp ebp l command k' hs with hk | ⟨p, rp', args, img, hslot, hk⟩
    · subst hk
      exact ⟨ht.sentinel, by have := ht.current.1; omega⟩
    · obtain ⟨g1, g2, _⟩ := execute_result_globals k esp ebp p rp' args img
      rw [hk, g1, g2, (execute_find_slot_found _ _ _ hslot).2.2.2]
      exact ⟨lor_land_ne_zero _ _ _ ht.sentinel, hslot0 p rp' hslot⟩
  · intro l status k' hs
    exact (process_tree_of_reachable k' (ReachableFromInit.exit k l status k' h hs)).sentinel

theorem sentinel_bit_always_set_witness :
    ReachableFromInit demo_run ∧ demo_run.running_processes &&& 0x80 ≠ 0 :=
  have hr : ReachableFromInit demo_run :=
    ReachableFromInit.exec demo_boot 0x7FDF00 0x7FDF10 demo_locals (some str_shell) demo_run
      (ReachableFromInit.boot demo_k0 0x7FFF00 0x7FFF10 (fun _ => 0) 0x08042010 demo_boot rfl rfl)
      (by decide) rfl
  ⟨hr, (sentinel_bit_always_set demo_run hr).1⟩

/-! ## read_data -/

theorem read_data_loop_ok (fs : filesys_t) (inode offset : Nat) :
    ∀ n total loc cur acc, cur * FS_PAGE_SIZE + loc = offset + total → loc ≤ FS_PAGE_SIZE →
      total + offset ≤ inode_size fs inode →
      (∀ j, cur < j → j * FS_PAGE_SIZE < offset + total + n →
        j * FS_PAGE_SIZE ≤ inode_size fs inode →
        inode_data_block fs inode j < fs.fs_stats.num_datablocks) →
      read_data_loop fs inode offset n total loc cur
          (fs.data_start + inode_data_block fs inode cur * FS_PAGE_SIZE + loc) acc
        = (int32 (total + min n (inode_size fs inode - offset - total)),
            acc ++ (List.range (min n (inode_size fs inode - offset - total))).map
              fun i => file_byte fs inode (offset + total + i)) := by
  have hP : FS_PAGE_SIZE = 4096 := rfl
  intro n
  induction n with
  | zero =>
    intro total loc cur acc _ _ _ _
    simp [read_data_loop]
  | succ n ih =>
    intro total loc cur acc hinv hloc hle hvalid
    rw [hP] at hinv hloc
    rw [read_data_loop]
    by_cases h1 : loc ≥ FS_PAGE_SIZE
    · rw [if_pos h1]
      rw [hP] at h1
      have hv : ¬ inode_data_block fs inode (cur + 1) ≥ fs.fs_stats.num_datablocks := by
        have := hvalid (cur + 1) (by omega) (by rw [hP]; omega) (by rw [hP]; omega)
        omega
      rw [if_neg hv]
      by_cases h2 : total + offset ≥ inode_size fs inode
      · rw [if_pos h2]
        have hm : min (n + 1) (inode_size fs inode - offset - total) = 0 := by omega
        rw [hm]
        simp
      · rw [if_neg h2]
        have hstep := ih (total + 1) 1 (cur + 1)
          (acc ++ [fs.mem (fs.data_start + inode_data_block fs inode (cur + 1) * FS_PAGE_SIZE)])
          (by rw [hP]; omega) (by rw [hP]; omega) (by omega)
          (fun j hj1 hj2 hj3 => hvalid j (by omega) (by omega) hj3)
        rw [hstep]
        have hm : min (n + 1) (inode_size fs inode - offset - total)
            = min n (inode_size fs inode - offset - (total + 1)) + 1 := by omega
        rw [hm, List.range_succ_eq_map, List.map_cons, List.map_map]
        have hb : file_byte fs inode (offset + total + 0)
            = fs.mem (fs.data_start + inode_data_block fs inode (cur + 1) * FS_PAGE_SIZE) := by
          unfold file_byte
          rw [hP]
          have e1 : (offset + total + 0) / 4096 = cur + 1 := by omega
          have e2 : (offset + total + 0) % 4096 = 0 := by omega
          rw [e1, e2, Nat.add_zero]
        have e1 : total + 1 + min n (inode_size fs inode - offset - (total + 1))
            = total + (min n (inode_size fs inode - offset - (total + 1)) + 1) := by omega
        have e2 : (List.range (min n (inode_size fs inode - offset - (total + 1)))).map
              (fun i => file_byte fs inode (offset + (total + 1) + i))
            = (List.range (min n (inode_size fs inode - offset - (total + 1)))).map
              ((fun i => file_byte fs inode (offset + total + i)) ∘ Nat.succ) := by
          apply List.map_congr_left
          intro i _
          show file_byte fs inode (offset + (total + 1) + i)
            = file_byte fs inode (offset + total + (i + 1))
          rw [show offset + (total + 1) + i = offset + total + (i + 1) by omega]
        rw [hb, List.append_assoc, List.singleton_append, e1, e2]
    · rw [if_neg h1]
      rw [hP] at h1
      by_cases h2 : total + offset ≥ inode_size fs inode
      · rw [if_pos h2]
        have hm : min (n + 1) (inode_size fs inode - offset - total) = 0 := by omega
        rw [hm]
        simp
      · rw [if_neg h2]
        have hstep := ih (total + 1) (loc + 1) cur
          (acc ++ [fs.mem (fs.data_start + inode_data_block fs inode cur * FS_PAGE_SIZE + loc)])
          (by rw [hP]; omega) (by rw [hP]; omega) (by omega)
          (fun j hj1 hj2 hj3 => hvalid j hj1 (by omega) hj3)
        rw [Nat.add_assoc _ loc 1, hstep]
        have hm : min (n + 1) (inode_size fs inode - offset - total)
            = min n (inode_size fs inode - offset - (total + 1)) + 1 := by omega
        rw [hm, List.range_succ_eq_map, List.map_cons, List.map_map]
        have hb : file_byte fs inode (offset + total + 0)
            = fs.mem (fs.data_start + inode_data_block fs inode cur * FS_PAGE_SIZE + loc) := by
          unfold file_byte
          rw [hP]
          have e1 : (offset + total + 0) / 4096 = cur := by omega
          have e2 : (offset + total + 0) % 4096 = loc := by omega
          rw [e1, e2]
        have e1 : total + 1 + min n (inode_size fs inode - offset - (total + 1))
            = total + (min n (inode_size fs inode - offset - (total + 1)) + 1) := by omega
        have e2 : (List.range (min n (inode_size fs inode - offset - (total + 1)))).map
              (fun i => file_byte fs inode (offset + (total + 1) + i))
            = (List.range (min n (inode_size fs inode - offset - (total + 1)))).map
              ((fun i => file_byte fs inode (offset + total + i)) ∘ Nat.succ) := by
          apply List.map_congr_left
          intro i _
          show file_byte fs inode (offset + (total + 1) + i)
            = file_byte fs inode (offset + total + (i + 1))
          rw [show offset + (total + 1) + i = offset + total + (i + 1) by omega]
        rw [hb, List.append_assoc, List.singleton_append, e1, e2]

theorem read_data_loop_bad_block (fs : filesys_t) (inode offset j : Nat)
    (hbad : inode_data_block fs inode j ≥ fs.fs_stats.num_datablocks)
    (hj : j * FS_PAGE_SIZE ≤ inode_size fs inode) :
    ∀ n total loc cur read_addr acc, cur * FS_PAGE_SIZE + loc = offset + total →
      loc ≤ FS_PAGE_SIZE → cur < j → j * FS_PAGE_SIZE < offset + total + n →
      (read_data_loop fs inode offset n total loc cur read_addr acc).1 = -1 := by
  have hP : FS_PAGE_SIZE = 4096 := rfl
  rw [hP] at hj
  intro n
  induction n with
  | zero =>
    intro total loc cur read_addr acc hinv hloc hcur hlt
    rw [hP] at hinv hloc hlt
    omega
  | succ n ih =>
    intro total loc cur read_addr acc hinv hloc hcur hlt
    rw [hP] at hinv hloc hlt
    rw [read_data_loop]
    by_cases h1 : loc ≥ FS_PAGE_SIZE
    · rw [if_pos h1]
      rw [hP] at h1
      by_cases hv : inode_data_block fs inode (cur + 1) ≥ fs.fs_stats.num_datablocks
      · rw [if_pos hv]
      · rw [if_neg hv]
        have hne : j ≠ cur + 1 := by
          intro hh
          subst hh
          exact hv hbad
        by_cases h2 : total + offset ≥ inode_size fs inode
        · omega
        · rw [if_neg h2]
          exact ih _ _ _ _ _ (by rw [hP]; omega) (by rw [hP]; omega) (by omega)
            (by rw [hP]; omega)
    · rw [if_neg h1]
      rw [hP] at h1
      by_cases h2 : total + offset ≥ inode_size fs inode
      · omega
      · rw [if_neg h2]
        exact ih _ _ _ _ _ (by rw [hP]; omega) (by rw [hP]; omega) hcur (by rw [hP]; omega)

theorem read_data_ok (fs : filesys_t) (inode offset length : Nat)
    (hino : inode < fs.fs_stats.num_inodes) (hoff : offset < inode_size fs inode)
    (hvalid : ∀ j, offset / FS_PAGE_SIZE ≤ j → j * FS_PAGE_SIZE ≤ inode_size fs inode →
      j * FS_PAGE_SIZE < offset + length ∨ j = offset / FS_PAGE_SIZE →
      inode_data_block fs inode j < fs.fs_stats.num_datablocks) :
    read_data fs inode offset length
      = (int32 (min length (inode_size fs inode - offset)),
          (List.range (min length (inode_size fs inode - offset))).map
            fun i => file_byte fs inode (offset + i)) := by
  have hP : FS_PAGE_SIZE = 4096 := rfl
  have h0 := hvalid (offset / FS_PAGE_SIZE) (le_refl _) (by rw [hP]; omega) (Or.inr rfl)
  rw [read_data, if_neg (by omega), if_neg (by omega), if_neg (by omega)]
  rw [read_data_loop_ok fs inode offset length 0 _ _ [] (by rw [hP]; omega) (by rw [hP]; omega)
    (by omega) (fun j hj1 hj2 hj3 => hvalid j (by omega) hj3 (Or.inl (by omega)))]
  simp

theorem read_data_neg_one (fs : filesys_t) (inode offset length j : Nat)
    (hino : inode < fs.fs_stats.num_inodes) (hoff : offset < inode_size fs inode)
    (hj1 : offset / FS_PAGE_SIZE ≤ j) (hj2 : j * FS_PAGE_SIZE ≤ inode_size fs inode)
    (hj3 : j * FS_PAGE_SIZE < offset + length ∨ j = offset / FS_PAGE_SIZE)
    (hbad : inode_data_block fs inode j ≥ fs.fs_stats.num_datablocks) :
    (read_data fs inode offset length).1 = -1 := by
  have hP : FS_PAGE_SIZE = 4096 := rfl
  rw [read_data, if_neg (by omega), if_neg (by omega)]
  by_cases h0 : inode_data_block fs inode (offset / FS_PAGE_SIZE) ≥ fs.fs_stats.num_datablocks
  · rw [if_pos h0]
  · rw [if_neg h0]
    have hne : j ≠ offset / FS_PAGE_SIZE := by
      intro hh
      subst hh
      exact h0 hbad
    exact read_data_loop_bad_block fs inode offset j hbad hj2 length 0 _ _ _ []
      (by rw [hP]; omega) (by rw [hP]; omega) (by omega)
      (by rcases hj3 with h | h
          · omega
          · exact absurd h hne)
theorem read32_lt (mem : Nat → Nat) (a : Nat) : read32 mem a < 4294967296 := by
  unfold read32
  omega

theorem int32_of_lt (n : Nat) (h : n < 2147483648) : int32 n = (n : Int) := by
  unfold int32
  rw [Nat.mod_eq_of_lt (by omega), if_pos h]

theorem int32_ne_zero (n : Nat) (h0 : 0 < n) (h : n < 4294967296) : int32 n ≠ 0 := by
  unfold int32
  rw [Nat.mod_eq_of_lt h]
  split <;> omega

theorem read_data_loop_fst_ne_zero (fs : filesys_t) (inode offset : Nat) :
    ∀ n total loc cur read_addr acc,
      0 < total ∨ (0 < n ∧ loc < FS_PAGE_SIZE ∧ total + offset < inode_size fs inode) →
      total + offset ≤ inode_size fs inode →
      (read_data_loop fs inode offset n total loc cur read_addr acc).1 ≠ 0 := by
  have hs : inode_size fs inode < 4294967296 := read32_lt _ _
  intro n
  induction n with
  | zero =>
    intro total loc cur read_addr acc h hle
    rw [read_data_loop]
    exact int32_ne_zero total (by omega) (by omega)
  | succ n ih =>
    intro total loc cur read_addr acc h hle
    rw [read_data_loop]
    by_cases h1 : loc ≥ FS_PAGE_SIZE
    · rw [if_pos h1]
      split
      · show (-1 : Int) ≠ 0
        decide
      · split
        · exact int32_ne_zero total (by omega) (by omega)
        · exact ih _ _ _ _ _ (Or.inl (by omega)) (by omega)
    · rw [if_neg h1]
      split
      · exact int32_ne_zero total (by omega) (by omega)
      · exact ih _ _ _ _ _ (Or.inl (by omega)) (by omega)

/-- C11 (code defect): `read_data` moves to the next data block, and checks
its index, before it tests for the end of the file. In `demo_fs2` the file of
inode 0 has size 4096 and its only covering index `data_blocks[0]` is valid,
but reading 10 bytes at offset 4090 returns -1 after the last 6 bytes of the
file were copied, not `min(10, 4096 - 4090) = 6`, because `data_blocks[1]` is
not a valid index. -/
theorem read_data_checks_block_past_end :
    0 < demo_fs2.fs_stats.num_inodes
      ∧ inode_size demo_fs2 0 = 4096
      ∧ (∀ j, j * FS_PAGE_SIZE < inode_size demo_fs2 0 →
          inode_data_block demo_fs2 0 j < demo_fs2.fs_stats.num_datablocks)
      ∧ read_data demo_fs2 0 4090 10 = (-1, [97, 98, 99, 100, 101, 102]) := by
  refine ⟨by decide, by decide, ?_, by decide⟩
  intro j hj
  have h0 : j = 0 := by
    have hs : inode_size demo_fs2 0 = 4096 := by decide
    have hP : FS_PAGE_SIZE = 4096 := rfl
    rw [hs, hP] at hj
    omega
  subst h0
  decide

/-- C12 (counterexample): a read of length 0 at offset 0 of the 28-byte file
`shell` returns 0 although the offset is below the size. -/
theorem read_data_length_zero :
    0 < (fs_init demo_mem).fs_stats.num_inodes
      ∧ inode_size (fs_init demo_mem) 0 = 28
      ∧ read_data (fs_init demo_mem) 0 0 0 = (0, []) := by
  decide

/-- C12 (amended): for every inode index below `num_inodes` and every length
greater than 0, `read_data` returns 0 if and only if the offset is not below
the size of the inode. -/
theorem read_data_returns_zero_iff (fs : filesys_t) (inode offset length : Nat)
    (hino : inode < fs.fs_stats.num_inodes) (hlen : 0 < length) :
    (read_data fs inode offset length).1 = 0 ↔ offset ≥ inode_size fs inode := by
  rw [read_data, if_neg (by omega)]
  by_cases ho : offset ≥ inode_size fs inode
  · rw [if_pos ho]
    exact ⟨fun _ => ho, fun _ => rfl⟩
  · rw [if_neg ho]
    constructor
    · intro h
      exfalso
      revert h
      split
      · decide
      · exact read_data_loop_fst_ne_zero fs inode offset length 0 _ _ _ []
          (Or.inr ⟨hlen, Nat.mod_lt _ (by decide), by omega⟩) (by omega)
    · intro h
      exact absurd h ho

theorem read_data_returns_zero_iff_witness :
    (read_data (fs_init demo_mem) 0 24 4).1 = 0 ↔ 24 ≥ inode_size (fs_init demo_mem) 0 :=
  read_data_returns_zero_iff (fs_init demo_mem) 0 24 4 (by decide) (by decide)

/-- C13 (counterexample): in `demo_fs2` the file of inode 1 has size 8192 and
the second of its two covering indices, `data_blocks[1]`, is not a valid data
block; reading 10 bytes at offset 0 still returns 10. -/
theorem read_data_ignores_later_bad_block :
    1 < demo_fs2.fs_stats.num_inodes
      ∧ inode_size demo_fs2 1 = 8192
      ∧ inode_data_block demo_fs2 1 1 ≥ demo_fs2.fs_stats.num_datablocks
      ∧ read_data demo_fs2 1 0 10 = (10, [0x7f, 0x45, 0x4c, 0x46, 0, 0, 0, 0, 0, 0]) := by
  decide

/-- C13 (amended): for a valid inode with size `s`, `offset < s` and
`length > 0`, `read_data` returns -1 whenever one of the data-block indices
covering the bytes `[offset, offset + min(length, s - offset))` that the call
is to read is not below `num_datablocks`. -/
theorem read_data_bad_block (fs : filesys_t) (inode offset length j : Nat)
    (hino : inode < fs.fs_stats.num_inodes) (hoff : offset < inode_size fs inode)
    (hlen : 0 < length) (hj1 : offset / FS_PAGE_SIZE ≤ j)
    (hj2 : j ≤ (offset + min length (inode_size fs inode - offset) - 1) / FS_PAGE_SIZE)
    (hbad : inode_data_block fs inode j ≥ fs.fs_stats.num_datablocks) :
    (read_data fs inode offset length).1 = -1 := by
  have hP : FS_PAGE_SIZE = 4096 := rfl
  rw [hP] at hj2
  have hle : j * 4096 ≤ offset + min length (inode_size fs inode - offset) - 1 := by
    have := Nat.div_mul_le_self (offset + min length (inode_size fs inode - offset) - 1) 4096
    have := Nat.mul_le_mul_right 4096 hj2
    omega
  exact read_data_neg_one fs inode offset length j hino hoff hj1 (by rw [hP]; omega)
    (Or.inl (by rw [hP]; omega)) hbad

theorem read_data_bad_block_witness : (read_data demo_fs2 1 4090 10).1 = -1 :=
  read_data_bad_block demo_fs2 1 4090 10 1 (by decide) (by decide) (by decide) (by decide)
    (by decide) (by decide)

/-! ## fs_read -/

/-- For a name that the directory lookup finds, whose inode is valid,
has size `s` and valid data-block indices for the bytes `[0, s)`,
`fs_read(name, 0, buf, s)` returns `s` and leaves in `buf[0..s)` the bytes of
the file, byte `i` being byte `i mod 4096` of data block
`data_blocks[i / 4096]`; the rest of `buf` is unchanged. -/
theorem fs_read_round_trip (fs : filesys_t) (name buf : Nat → Nat) (d : dentry_t)
    (hd : read_dentry_by_name fs name = .ok (some d))
    (hino : d.inode < fs.fs_stats.num_inodes)
    (hvalid : ∀ j, j * FS_PAGE_SIZE < inode_size fs d.inode →
      inode_data_block fs d.inode j < fs.fs_stats.num_datablocks)
    (hs : inode_size fs d.inode < 2147483648) :
    ∃ buf', fs_read fs (some name) 0 (some buf) (inode_size fs d.inode)
        = .ok ((inode_size fs d.inode : Int), some buf')
      ∧ (∀ i, i < inode_size fs d.inode → buf' i = file_byte fs d.inode i)
      ∧ (∀ i, inode_size fs d.inode ≤ i → buf' i = buf i) := by
  have hP : FS_PAGE_SIZE = 4096 := rfl
  simp only [fs_read, hd]
  by_cases h0 : inode_size fs d.inode = 0
  · have hr : read_data fs d.inode 0 (inode_size fs d.inode) = (0, []) := by
      rw [read_data, if_neg (by omega), if_pos (by omega)]
    rw [hr, h0]
    refine ⟨_, rfl, ?_, ?_⟩
    · intro i hi
      omega
    · intro i _
      simp [store_bytes]
  · have hr := read_data_ok fs d.inode 0 (inode_size fs d.inode) hino (by omega)
      (fun j _ hj2 hj3 => hvalid j (by
        rcases hj3 with h | h
        · omega
        · rw [h, hP]
          omega))
    rw [hr]
    have hm : min (inode_size fs d.inode) (inode_size fs d.inode - 0) = inode_size fs d.inode := by
      omega
    rw [hm, int32_of_lt _ hs]
    refine ⟨_, rfl, ?_, ?_⟩
    · intro i hi
      simp [store_bytes, hi]
    · intro i hi
      simp [store_bytes]
      intro h
      omega

theorem fs_read_round_trip_witness :
    ∃ buf', fs_read (fs_init demo_mem) (some (view str_shell)) 0 (some fun _ => 0xEE)
          (inode_size (fs_init demo_mem) 0)
        = .ok ((inode_size (fs_init demo_mem) 0 : Int), some buf')
      ∧ (∀ i, i < inode_size (fs_init demo_mem) 0 → buf' i = file_byte (fs_init demo_mem) 0 i)
      ∧ (∀ i, inode_size (fs_init demo_mem) 0 ≤ i → buf' i = 0xEE) :=
  fs_read_round_trip (fs_init demo_mem) (view str_shell) (fun _ => 0xEE) ⟨str_shell, 2, 0⟩ rfl
    (by decide)
    (fun j hj => by
      have hs : inode_size (fs_init demo_mem) 0 = 28 := by decide
      have hP : FS_PAGE_SIZE = 4096 := rfl
      have h0 : j = 0 := by
        rw [show ({ filename := str_shell, filetype := 2, inode := 0 } : dentry_t).inode = 0
          from rfl, hs, hP] at hj
        omega
      subst h0
      decide)
    (by decide)

/-! ## open -/

theorem view_length (l : List Nat) : view l l.length = 0 := by
  simp [view]

theorem strlen_view (l : List Nat) (h : l.length < 4294967296) :
    ∃ len, len ≤ l.length ∧ strlen (view l) = some len :=
  strlen_of_zero (view l) l.length (view_length l) h

theorem open_find_fd_eq (p : pcb_t) :
    open_find_fd p 2 6 =
      if (p.fds 2).flags = NOT_IN_USE then some 2
      else if (p.fds 3).flags = NOT_IN_USE then some 3
      else if (p.fds 4).flags = NOT_IN_USE then some 4
      else if (p.fds 5).flags = NOT_IN_USE then some 5
      else if (p.fds 6).flags = NOT_IN_USE then some 6
      else if (p.fds 7).flags = NOT_IN_USE then some 7
      else none := by
  simp [open_find_fd]

theorem open_find_fd_some (p : pcb_t) (i : Nat) (h : open_find_fd p 2 6 = some i) :
    2 ≤ i ∧ i ≤ 7 ∧ (p.fds i).flags = NOT_IN_USE
      ∧ ∀ j, 2 ≤ j → j < i → (p.fds j).flags ≠ NOT_IN_USE := by
  rw [open_find_fd_eq] at h
  split_ifs at h with h2 h3 h4 h5 h6 h7
  all_goals
    injection h with hi
    subst hi
    refine ⟨by decide, by decide, by assumption, ?_⟩
    intro j hj1 hj2
    interval_cases j <;> assumption

theorem open_find_fd_none (p : pcb_t) :
    open_find_fd p 2 6 = none ↔ ∀ j, 2 ≤ j → j ≤ 7 → (p.fds j).flags ≠ NOT_IN_USE := by
  rw [open_find_fd_eq]
  constructor
  · intro h j hj1 hj2
    split_ifs at h with h2 h3 h4 h5 h6 h7
    interval_cases j <;> assumption
  · intro h
    rw [if_neg (h 2 (by decide) (by decide)), if_neg (h 3 (by decide) (by decide)),
      if_neg (h 4 (by decide) (by decide)), if_neg (h 5 (by decide) (by decide)),
      if_neg (h 6 (by decide) (by decide)), if_neg (h 7 (by decide) (by decide))]

theorem open_find_fd_first (p : pcb_t) (i : Nat) (hi2 : 2 ≤ i) (hi7 : i ≤ 7)
    (hfree : (p.fds i).flags = NOT_IN_USE)
    (hmin : ∀ j, 2 ≤ j → j < i → (p.fds j).flags ≠ NOT_IN_USE) :
    open_find_fd p 2 6 = some i := by
  cases h : open_find_fd p 2 6 with
  | none => exact absurd hfree ((open_find_fd_none p).1 h i hi2 hi7)
  | some m =>
    obtain ⟨m2, m7, mfree, mmin⟩ := open_find_fd_some p m h
    have : m = i := by
      rcases Nat.lt_trichotomy m i with hlt | heq | hgt
      · exact absurd mfree (hmin m m2 hlt)
      · exact heq
      · exact absurd hfree (mmin i hi2 hgt)
    rw [this]

theorem read_dentry_by_name_loop_ok (fs : filesys_t) (fname : Nat → Nat) (lb : Nat)
    (hwf : dentries_terminated fs) (hb : strlen fname = some lb) :
    ∀ n i, i + n ≤ MAX_NUM_FS_DENTRIES → ∃ r, read_dentry_by_name_loop fs fname i n = .ok r := by
  intro n
  induction n with
  | zero =>
    intro i _
    exact ⟨none, rfl⟩
  | succ n ih =>
    intro i hi
    obtain ⟨j, hj, hz⟩ := hwf i (by omega)
    obtain ⟨la, hla, hs⟩ := strlen_of_zero (dentry_filename fs i) j hz (by omega)
    rw [read_dentry_by_name_loop]
    simp only [hs, hb]
    split
    · rw [if_neg (by omega)]
      exact ⟨_, rfl⟩
    · exact ih (i + 1) (by omega)

theorem read_dentry_by_name_ok (fs : filesys_t) (fname : Nat → Nat) (lb : Nat)
    (hwf : dentries_terminated fs) (hb : strlen fname = some lb) :
    ∃ r, read_dentry_by_name fs fname = .ok r :=
  read_dentry_by_name_loop_ok fs fname lb hwf hb MAX_NUM_FS_DENTRIES 0 (by omega)

theorem sys_open_file (k : kernel_t) (filename : List Nat) (d : dentry_t) (i : Nat)
    (hlen : filename.length < 4294967296)
    (hin : strncmp (view filename) (view str_stdin) 5 ≠ 0)
    (hout : strncmp (view filename) (view str_stdout) 5 ≠ 0)
    (hd : read_dentry_by_name k.fs (view filename) = .ok (some d))
    (hfd : open_find_fd (k.pcbs (k.kernel_stack_bottom &&& ALIGN_8KB)) 2 6 = some i) :
    ∃ len, sys_open k filename
      = .ok ((i : Int), update_pcb k (k.kernel_stack_bottom &&& ALIGN_8KB) fun p =>
          p.open_file i d (view filename) len) := by
  obtain ⟨len, _, hs⟩ := strlen_view filename hlen
  have hrtc : ¬ (d.filetype = FILE_TYPE_RTC ∧ rtc_open = -1) := fun h => by
    have : rtc_open ≠ -1 := by decide
    exact this h.2
  refine ⟨len, ?_⟩
  simp only [sys_open, if_neg hin, if_neg hout, hd, hfd, if_neg hrtc, hs]

theorem sys_open_no_descriptor (k : kernel_t) (filename : List Nat)
    (hlen : filename.length < 4294967296)
    (hin : strncmp (view filename) (view str_stdin) 5 ≠ 0)
    (hout : strncmp (view filename) (view str_stdout) 5 ≠ 0)
    (hwf : dentries_terminated k.fs)
    (hfd : open_find_fd (k.pcbs (k.kernel_stack_bottom &&& ALIGN_8KB)) 2 6 = none) :
    sys_open k filename = .ok (-1, k) := by
  obtain ⟨len, _, hs⟩ := strlen_view filename hlen
  obtain ⟨r, hr⟩ := read_dentry_by_name_ok k.fs (view filename) len hwf hs
  cases r with
  | none => simp only [sys_open, if_neg hin, if_neg hout, hr]
  | some d => simp only [sys_open, if_neg hin, if_neg hout, hr, hfd]

/-- For a filename that is not taken for `stdin` or `stdout` (its first
five bytes are neither `stdin` nor `stdou`) and that `read_dentry_by_name`
finds, when `i` is the smallest free descriptor in [2,7], `open` returns `i`,
marks slot `i` in use with the inode of the dentry and the operations vector
of its file type (0 rtc, 1 directory, 2 regular file), and leaves the byte
offset of slot `i`, every other slot and every other PCB unchanged. -/
theorem open_lowest_free_descriptor (k : kernel_t) (filename : List Nat) (d : dentry_t) (i : Nat)
    (hlen : filename.length < 4294967296)
    (hin : strncmp (view filename) (view str_stdin) 5 ≠ 0)
    (hout : strncmp (view filename) (view str_stdout) 5 ≠ 0)
    (hd : read_dentry_by_name k.fs (view filename) = .ok (some d))
    (hi2 : 2 ≤ i) (hi7 : i ≤ 7)
    (hfree : ((k.pcbs (k.kernel_stack_bottom &&& ALIGN_8KB)).fds i).flags = NOT_IN_USE)
    (hmin : ∀ j, 2 ≤ j → j < i →
      ((k.pcbs (k.kernel_stack_bottom &&& ALIGN_8KB)).fds j).flags ≠ NOT_IN_USE) :
    ∃ k', sys_open k filename = .ok ((i : Int), k')
      ∧ ((k'.pcbs (k.kernel_stack_bottom &&& ALIGN_8KB)).fds i).flags = IN_USE
      ∧ ((k'.pcbs (k.kernel_stack_bottom &&& ALIGN_8KB)).fds i).inode = int32 d.inode
      ∧ ((k'.pcbs (k.kernel_stack_bottom &&& ALIGN_8KB)).fds i).jumptable
          = (if d.filetype = FILE_TYPE_RTC then .rtc_fops_table
             else if d.filetype = FILE_TYPE_DIRECTORY then .dir_fops_table
             else if d.filetype = FILE_TYPE_REGULAR_FILE then .file_fops_table
             else ((k.pcbs (k.kernel_stack_bottom &&& ALIGN_8KB)).fds i).jumptable)
      ∧ ((k'.pcbs (k.kernel_stack_bottom &&& ALIGN_8KB)).fds i).fileposition
          = ((k.pcbs (k.kernel_stack_bottom &&& ALIGN_8KB)).fds i).fileposition
      ∧ (∀ j, j ≠ i → (k'.pcbs (k.kernel_stack_bottom &&& ALIGN_8KB)).fds j
          = (k.pcbs (k.kernel_stack_bottom &&& ALIGN_8KB)).fds j)
      ∧ (∀ a, a ≠ k.kernel_stack_bottom &&& ALIGN_8KB → k'.pcbs a = k.pcbs a) := by
  obtain ⟨len, ho⟩ := sys_open_file k filename d i hlen hin hout hd
    (open_find_fd_first _ i hi2 hi7 hfree hmin)
  refine ⟨_, ho, ?_⟩
  generalize k.kernel_stack_bottom &&& ALIGN_8KB = A
  simp only [update_pcb_pcbs, if_true]
  refine ⟨?_, ?_, ?_, ?_, ?_, ?_⟩
  · simp [pcb_t.open_file, pcb_store]
  · simp [pcb_t.open_file, pcb_store]
  · simp [pcb_t.open_file, pcb_store]
  · simp [pcb_t.open_file, pcb_store]
  · intro j hj
    simp [pcb_t.open_file, pcb_store, hj]
  · intro a ha
    simp [ha]

theorem open_lowest_free_descriptor_witness :
    ∃ k', sys_open demo_k2 str_f = .ok ((2 : Nat), k')
      ∧ ((k'.pcbs (demo_k2.kernel_stack_bottom &&& ALIGN_8KB)).fds 2).flags = IN_USE
      ∧ ((k'.pcbs (demo_k2.kernel_stack_bottom &&& ALIGN_8KB)).fds 2).inode = int32 0
      ∧ ((k'.pcbs (demo_k2.kernel_stack_bottom &&& ALIGN_8KB)).fds 2).jumptable
          = .file_fops_table :=
  have h := open_lowest_free_descriptor demo_k2 str_f ⟨str_f, 2, 0⟩ 2 (by decide) (by decide)
    (by decide) rfl (by decide) (by decide) (by decide) (fun j h1 h2 => absurd h1 (by omega))
  h.imp fun _ hk => ⟨hk.1, hk.2.1, hk.2.2.1, hk.2.2.2.1⟩

/-- C17 (counterexample): with all eight descriptors of the current process in
use, `open("stdin")` returns 0, not -1. -/
theorem open_stdin_with_full_table :
    (∀ i, i < 8 →
        ((demo_k2_full.pcbs (demo_k2_full.kernel_stack_bottom &&& ALIGN_8KB)).fds i).flags
          = IN_USE)
      ∧ ∃ k', sys_open demo_k2_full str_stdin = .ok (0, k') :=
  ⟨by decide, _, rfl⟩

/-- C17 (amended): when none of the descriptors 2..7 of the current process is
free (in particular when all eight are in use) and every directory entry is
terminated, `open` returns -1 and leaves the state unchanged for every filename
whose first five bytes are neither `stdin` nor `stdou`; `open("stdin")` and
`open("stdout")` return 0 and bind descriptor 0 and descriptor 1. -/
theorem open_full_table (k : kernel_t) (filename : List Nat)
    (hlen : filename.length < 4294967296)
    (hin : strncmp (view filename) (view str_stdin) 5 ≠ 0)
    (hout : strncmp (view filename) (view str_stdout) 5 ≠ 0)
    (hwf : dentries_terminated k.fs)
    (hfull : ∀ j, 2 ≤ j → j ≤ 7 →
      ((k.pcbs (k.kernel_stack_bottom &&& ALIGN_8KB)).fds j).flags ≠ NOT_IN_USE) :
    sys_open k filename = .ok (-1, k)
      ∧ sys_open k str_stdin = .ok (0, open_stdin k 0)
      ∧ sys_open k str_stdout = .ok (0, open_stdout k 1) :=
  ⟨sys_open_no_descriptor k filename hlen hin hout hwf ((open_find_fd_none _).2 hfull),
    sys_open_stdin k, sys_open_stdout k⟩

/-- C18 (counterexample): `open("stdout")` binds descriptor 1 to the stdout
operations vector and returns 0. -/
theorem open_stdout_returns_zero :
    ∃ k', sys_open demo_k2 str_stdout = .ok (0, k')
      ∧ ((k'.pcbs (demo_k2.kernel_stack_bottom &&& ALIGN_8KB)).fds 1).jumptable
          = .stdout_fops_table :=
  ⟨_, rfl, by decide⟩

/-- C18 (amended): for every fd-table state and every filename whose first
five bytes are neither `stdin` nor `stdou`, on a file system whose directory
entries are terminated, `open` returns, and the value it returns is -1 or a
descriptor in [2,7]; `open("stdin")` and `open("stdout")` return 0. -/
theorem open_returns_descriptor (k : kernel_t) (filename : List Nat)
    (hlen : filename.length < 4294967296)
    (hin : strncmp (view filename) (view str_stdin) 5 ≠ 0)
    (hout : strncmp (view filename) (view str_stdout) 5 ≠ 0)
    (hwf : dentries_terminated k.fs) :
    (∃ r k', sys_open k filename = .ok (r, k') ∧ (r = -1 ∨ (2 ≤ r ∧ r ≤ 7)))
      ∧ (∃ k', sys_open k str_stdin = .ok (0, k'))
      ∧ (∃ k', sys_open k str_stdout = .ok (0, k')) := by
  refine ⟨?_, ⟨_, sys_open_stdin k⟩, ⟨_, sys_open_stdout k⟩⟩
  obtain ⟨len, _, hs⟩ := strlen_view filename hlen
  obtain ⟨r, hr⟩ := read_dentry_by_name_ok k.fs (view filename) len hwf hs
  cases r with
  | none =>
    refine ⟨-1, k, ?_, Or.inl rfl⟩
    simp only [sys_open, if_neg hin, if_neg hout, hr]
  | some d =>
    cases hfd : open_find_fd (k.pcbs (k.kernel_stack_bottom &&& ALIGN_8KB)) 2 6 with
    | none =>
      exact ⟨-1, k, sys_open_no_descriptor k filename hlen hin hout hwf hfd, Or.inl rfl⟩
    | some i =>
      obtain ⟨len', ho⟩ := sys_open_file k filename d i hlen hin hout hr hfd
      obtain ⟨i2, i7, _⟩ := open_find_fd_some _ i hfd
      exact ⟨i, _, ho, Or.inr ⟨by omega, by omega⟩⟩

theorem demo_fs2_terminated : dentries_terminated demo_fs2 := by
  intro i hi
  have hi' : i < 63 := hi
  refine ⟨63, by decide, ?_⟩
  interval_cases i <;> decide

theorem open_full_table_witness : sys_open demo_k2_full str_f = .ok (-1, demo_k2_full) :=
  (open_full_table demo_k2_full str_f (by decide) (by decide) (by decide) demo_fs2_terminated
    (by decide)).1

theorem open_returns_descriptor_witness :
    ∃ r k', sys_open demo_k2 str_f = .ok (r, k') ∧ (r = -1 ∨ (2 ≤ r ∧ r ≤ 7)) :=
  (open_returns_descriptor demo_k2 str_f (by decide) (by decide) (by decide)
    demo_fs2_terminated).1

/-! ## close -/

/-- C19: `close(fd)` returns -1 and leaves the state unchanged if `fd < 2`,
`fd > 7` or slot `fd` is free; otherwise, the slot holding one of the five
operations vectors, it returns 0, resets slot `fd` to free with inode 0, byte
offset 0 and no operations vector, and leaves every other slot (so
descriptors 0 and 1) and every other PCB unchanged. -/
theorem close_resets_descriptor (k : kernel_t) (fd : Int) :
    (fd < 2 ∨ fd > 7
        ∨ ((k.pcbs (k.kernel_stack_bottom &&& ALIGN_8KB)).fds fd.toNat).flags = NOT_IN_USE →
      close k fd = .ok (-1, k))
    ∧ (2 ≤ fd → fd ≤ 7 →
        ((k.pcbs (k.kernel_stack_bottom &&& ALIGN_8KB)).fds fd.toNat).flags ≠ NOT_IN_USE →
        ((k.pcbs (k.kernel_stack_bottom &&& ALIGN_8KB)).fds fd.toNat).jumptable ≠ .NULL →
        (∀ a, ((k.pcbs (k.kernel_stack_bottom &&& ALIGN_8KB)).fds fd.toNat).jumptable
          ≠ .other a) →
        ∃ k', close k fd = .ok (0, k')
          ∧ (k'.pcbs (k.kernel_stack_bottom &&& ALIGN_8KB)).fds fd.toNat
              = { jumptable := .NULL, inode := 0, fileposition := 0, flags := NOT_IN_USE }
          ∧ (∀ j, j ≠ fd.toNat → (k'.pcbs (k.kernel_stack_bottom &&& ALIGN_8KB)).fds j
              = (k.pcbs (k.kernel_stack_bottom &&& ALIGN_8KB)).fds j)
          ∧ (∀ a, a ≠ k.kernel_stack_bottom &&& ALIGN_8KB → k'.pcbs a = k.pcbs a)) := by
  constructor
  · intro h
    rw [close, if_pos h]
  · intro h2 h7 hfl hnull hother
    have hg : ¬ (fd < 2 ∨ fd > 7
        ∨ ((k.pcbs (k.kernel_stack_bottom &&& ALIGN_8KB)).fds fd.toNat).flags = NOT_IN_USE) := by
      rintro (h | h | h)
      · omega
      · omega
      · exact hfl h
    rw [close, if_neg hg]
    generalize k.kernel_stack_bottom &&& ALIGN_8KB = A at hnull hother ⊢
    cases hj : ((k.pcbs A).fds fd.toNat).jumptable with
    | NULL => exact absurd hj hnull
    | other a => exact absurd hj (hother a)
    | stdin_fops_table | stdout_fops_table | rtc_fops_table | file_fops_table | dir_fops_table =>
      refine ⟨_, rfl, ?_, ?_, ?_⟩
      · simp
      · intro j hjne
        simp [hjne]
      · intro a ha
        simp [ha]

theorem close_resets_descriptor_witness :
    ∃ k', close demo_k2_open 2 = .ok (0, k')
      ∧ (k'.pcbs (demo_k2_open.kernel_stack_bottom &&& ALIGN_8KB)).fds (2 : Int).toNat
          = { jumptable := .NULL, inode := 0, fileposition := 0, flags := NOT_IN_USE }
      ∧ (∀ j, j ≠ (2 : Int).toNat →
          (k'.pcbs (demo_k2_open.kernel_stack_bottom &&& ALIGN_8KB)).fds j
            = (demo_k2_open.pcbs (demo_k2_open.kernel_stack_bottom &&& ALIGN_8KB)).fds j)
      ∧ (∀ a, a ≠ demo_k2_open.kernel_stack_bottom &&& ALIGN_8KB →
          k'.pcbs a = demo_k2_open.pcbs a) :=
  (close_resets_descriptor demo_k2_open 2).2 (by decide) (by decide) (by decide) (by decide)
    (fun a h => jumptable_t.noConfusion
      ((by decide : ((demo_k2_open.pcbs (demo_k2_open.kernel_stack_bottom &&& ALIGN_8KB)).fds
          (2 : Int).toNat).jumptable = .file_fops_table).symm.trans h))

/-! ## getargs -/

/-- C20 (code defect): `getargs` rejects the request only when
`strlen(argbuf) > nbytes`, so an argument string of exactly `nbytes`
characters is accepted although its terminator does not fit. For the process
started by `shell ab`, `getargs(buf, 2)` returns 0 and stores three bytes,
`a`, `b` and the terminator, in the two-byte buffer. -/
theorem getargs_terminator_does_not_fit :
    (List.range 3).map
        (demo_args.pcbs (demo_args.kernel_stack_bottom &&& ALIGN_8KB)).argbuf = [97, 98, 0]
      ∧ ∃ b', getargs demo_args (some fun _ => 0xEE) 2 = .ok (0, some b')
          ∧ [b' 0, b' 1, b' 2, b' 3] = [97, 98, 0, 0xEE] :=
  ⟨by decide, _, rfl, by decide⟩

/-! ## read on a regular file -/

/-- C15 (code defect): the same defect as in C11. In `demo_k2_open`
descriptor 2 was opened on the regular file `f` of size 4096, whose only
covering data-block index is valid, and has byte offset 0. The first call
`read(2, buf, 5000)` returns -1 instead of 4096, because `read_data` checks
`data_blocks[1]` before it tests for the end of the file, and the byte offset
of the descriptor becomes -1. -/
theorem read_fails_at_end_of_block :
    ((demo_k2_open.pcbs (demo_k2_open.kernel_stack_bottom &&& ALIGN_8KB)).fds 2).jumptable
        = .file_fops_table
      ∧ ((demo_k2_open.pcbs (demo_k2_open.kernel_stack_bottom &&& ALIGN_8KB)).fds 2).inode = 0
      ∧ ((demo_k2_open.pcbs (demo_k2_open.kernel_stack_bottom &&& ALIGN_8KB)).fds 2).fileposition
          = 0
      ∧ inode_size demo_k2_open.fs 0 = 4096
      ∧ inode_data_block demo_k2_open.fs 0 0 < demo_k2_open.fs.fs_stats.num_datablocks
      ∧ ∃ b' k', read demo_k2_open 2 (some fun _ => 0) 5000 demo_terminal = .ok (-1, b', k')
          ∧ ((k'.pcbs (demo_k2_open.kernel_stack_bottom &&& ALIGN_8KB)).fds 2).fileposition
              = -1 := by
  have hr : (read_data demo_fs2 0 0 5000).1 = -1 :=
    read_data_neg_one demo_fs2 0 0 5000 1 (by decide) (by decide) (by decide) (by decide)
      (Or.inl (by decide)) (by decide)
  have hread : read demo_k2_open 2 (some fun _ => 0) 5000 demo_terminal
      = .ok ((read_data demo_fs2 0 0 5000).1,
          some (store_bytes (read_data demo_fs2 0 0 5000).2 fun _ => 0),
          update_pcb demo_k2_open (demo_k2_open.kernel_stack_bottom &&& ALIGN_8KB) fun p =>
            p.add_fileposition 2 (read_data demo_fs2 0 0 5000).1) := rfl
  rw [hr] at hread
  exact ⟨by decide, by decide, by decide, by decide, by decide, _, _, hread, by decide⟩

/-! ## read: what the calls return on a well-formed file -/

theorem uint32_of_nat (n : Nat) (h : n < 4294967296) : uint32 (n : Int) = n := by
  unfold uint32
  rw [Int.emod_eq_of_lt (by omega) (by omega)]
  rfl

theorem read_regular_file (k : kernel_t) (A : Nat) (hA : k.kernel_stack_bottom &&& ALIGN_8KB = A)
    (fd : Int) (b : Nat → Nat) (nbytes : Int)
    (terminal : (Nat → Nat) → Int → result_t (Int × (Nat → Nat))) (name : Nat → Nat) (d : dentry_t)
    (hfd0 : 0 ≤ fd) (hfd7 : fd ≤ 7) (hfl : ((k.pcbs A).fds fd.toNat).flags ≠ NOT_IN_USE)
    (hjt : ((k.pcbs A).fds fd.toNat).jumptable = .file_fops_table)
    (hname : (k.pcbs A).string_at (128 + 32 * fd.toNat) = some name)
    (hd : read_dentry_by_name k.fs name = .ok (some d)) :
    read k fd (some b) nbytes terminal
      = .ok ((read_data k.fs d.inode (uint32 ((k.pcbs A).fds fd.toNat).fileposition)
                (uint32 nbytes)).1,
          some (store_bytes (read_data k.fs d.inode
            (uint32 ((k.pcbs A).fds fd.toNat).fileposition) (uint32 nbytes)).2 b),
          update_pcb k A fun p => p.add_fileposition fd.toNat
            (read_data k.fs d.inode (uint32 ((k.pcbs A).fds fd.toNat).fileposition)
              (uint32 nbytes)).1) := by
  subst hA
  have hg : ¬ (fd < 0 ∨ fd > 7
      ∨ ((k.pcbs (k.kernel_stack_bottom &&& ALIGN_8KB)).fds fd.toNat).flags = NOT_IN_USE) := by
    rintro (h | h | h)
    · omega
    · omega
    · exact hfl h
  simp only [read, if_neg hg, hjt, hname, file_read, fs_read, hd]

theorem read_regular_file_count (k : kernel_t) (A : Nat)
    (hA : k.kernel_stack_bottom &&& ALIGN_8KB = A) (fd : Int) (b : Nat → Nat) (n pos : Nat)
    (terminal : (Nat → Nat) → Int → result_t (Int × (Nat → Nat))) (name : Nat → Nat) (d : dentry_t)
    (hfd0 : 0 ≤ fd) (hfd7 : fd ≤ 7) (hfl : ((k.pcbs A).fds fd.toNat).flags ≠ NOT_IN_USE)
    (hjt : ((k.pcbs A).fds fd.toNat).jumptable = .file_fops_table)
    (hname : (k.pcbs A).string_at (128 + 32 * fd.toNat) = some name)
    (hd : read_dentry_by_name k.fs name = .ok (some d))
    (hino : d.inode < k.fs.fs_stats.num_inodes)
    (hvalid : ∀ j, j * FS_PAGE_SIZE ≤ inode_size k.fs d.inode →
      inode_data_block k.fs d.inode j < k.fs.fs_stats.num_datablocks)
    (hs : inode_size k.fs d.inode < 2147483648)
    (hpos : ((k.pcbs A).fds fd.toNat).fileposition = (pos : Int))
    (hle : pos ≤ inode_size k.fs d.inode) (hn : n < 2147483648) :
    read k fd (some b) (n : Int) terminal
      = .ok (((min n (inode_size k.fs d.inode - pos) : Nat) : Int),
          some (store_bytes ((List.range (min n (inode_size k.fs d.inode - pos))).map
            fun i => file_byte k.fs d.inode (pos + i)) b),
          update_pcb k A fun p => p.add_fileposition fd.toNat
            ((min n (inode_size k.fs d.inode - pos) : Nat) : Int)) := by
  have hP : FS_PAGE_SIZE = 4096 := rfl
  rw [read_regular_file k A hA fd b n terminal name d hfd0 hfd7 hfl hjt hname hd, hpos,
    uint32_of_nat pos (by omega), uint32_of_nat n (by omega)]
  by_cases he : pos = inode_size k.fs d.inode
  · have hr : read_data k.fs d.inode pos n = (0, []) := by
      rw [read_data, if_neg (by omega), if_pos (by omega)]
    have hm : min n (inode_size k.fs d.inode - pos) = 0 := by omega
    rw [hr, hm]
    rfl
  · rw [read_data_ok k.fs d.inode pos n hino (by omega) (fun j _ hj _ => hvalid j hj),
      int32_of_lt _ (by omega)]

theorem add_fileposition_string_at (p : pcb_t) (fd : Nat) (r : Int) (off : Nat) :
    (p.add_fileposition fd r).string_at off = p.string_at off := rfl

theorem read_calls_regular_file (fd : Int) (A : Nat)
    (terminal : (Nat → Nat) → Int → result_t (Int × (Nat → Nat))) (name : Nat → Nat) (d : dentry_t)
    (fs : filesys_t) (hfd0 : 0 ≤ fd) (hfd7 : fd ≤ 7)
    (hd : read_dentry_by_name fs name = .ok (some d))
    (hino : d.inode < fs.fs_stats.num_inodes)
    (hvalid : ∀ j, j * FS_PAGE_SIZE ≤ inode_size fs d.inode →
      inode_data_block fs d.inode j < fs.fs_stats.num_datablocks)
    (hs : inode_size fs d.inode < 2147483648) :
    ∀ (ns : List Nat) (k : kernel_t) (b : Nat → Nat) (pos : Nat),
      k.kernel_stack_bottom &&& ALIGN_8KB = A → k.fs = fs →
      ((k.pcbs A).fds fd.toNat).flags ≠ NOT_IN_USE →
      ((k.pcbs A).fds fd.toNat).jumptable = .file_fops_table →
      (k.pcbs A).string_at (128 + 32 * fd.toNat) = some name →
      ((k.pcbs A).fds fd.toNat).fileposition = (pos : Int) →
      pos ≤ inode_size fs d.inode → (∀ n ∈ ns, n < 2147483648) →
      ∃ b' k', read_calls k fd b terminal (ns.map fun (n : Nat) => (n : Int))
          = .ok ((spec_read_counts (inode_size fs d.inode) pos ns).map (fun (c : Nat) => (c : Int)),
              b', k')
        ∧ ((k'.pcbs A).fds fd.toNat).fileposition
            = ((pos + (spec_read_counts (inode_size fs d.inode) pos ns).sum : Nat) : Int) := by
  intro ns
  induction ns with
  | nil =>
    intro k b pos _ _ _ _ _ hpos _ _
    exact ⟨b, k, rfl, by simpa [spec_read_counts] using hpos⟩
  | cons n ns ih =>
    intro k b pos hA hfs hfl hjt hname hpos hle hns
    subst hfs
    have hn := hns n (List.mem_cons_self n ns)
    have hstep := read_regular_file_count k A hA fd b n pos terminal name d hfd0 hfd7 hfl hjt
      hname hd hino hvalid hs hpos hle hn
    have hfds : (((update_pcb k A fun p => p.add_fileposition fd.toNat
        ((min n (inode_size k.fs d.inode - pos) : Nat) : Int)).pcbs A).fds fd.toNat)
        = { (k.pcbs A).fds fd.toNat with
            fileposition := int32 (uint32 (((k.pcbs A).fds fd.toNat).fileposition
              + ((min n (inode_size k.fs d.inode - pos) : Nat) : Int))) } := by
      simp [pcb_t.add_fileposition]
    have hstr : ((update_pcb k A fun p => p.add_fileposition fd.toNat
        ((min n (inode_size k.fs d.inode - pos) : Nat) : Int)).pcbs A).string_at
          (128 + 32 * fd.toNat) = some name := by
      simp only [update_pcb_pcbs, if_true, add_fileposition_string_at]
      exact hname
    have hnew : int32 (uint32 (((k.pcbs A).fds fd.toNat).fileposition
          + ((min n (inode_size k.fs d.inode - pos) : Nat) : Int)))
        = ((pos + min n (inode_size k.fs d.inode - pos) : Nat) : Int) := by
      rw [hpos, ← Nat.cast_add, uint32_of_nat _ (by omega), int32_of_lt _ (by omega)]
    obtain ⟨b', k', hcalls, hfp⟩ := ih
      (update_pcb k A fun p => p.add_fileposition fd.toNat
        ((min n (inode_size k.fs d.inode - pos) : Nat) : Int))
      (store_bytes ((List.range (min n (inode_size k.fs d.inode - pos))).map
        fun i => file_byte k.fs d.inode (pos + i)) b)
      (pos + min n (inode_size k.fs d.inode - pos))
      (by rw [update_pcb_kernel_stack_bottom]; exact hA) rfl
      (by rw [hfds]; exact hfl) (by rw [hfds]; exact hjt) hstr
      (by rw [hfds]; exact hnew) (by omega)
      (fun m hm => hns m (List.mem_cons_of_mem n hm))
    refine ⟨b', k', ?_, ?_⟩
    · simp only [List.map_cons, read_calls, hstep, Option.getD_some]
      rw [hcalls]
      simp only [spec_read_counts, List.map_cons]
    · rw [hfp]
      simp only [spec_read_counts, List.sum_cons]
      congr 1
      omega

/-! ## vidmap -/

theorem vidmap_rejects (k : kernel_t) (v : video_bufs_t) (screen_start : Nat)
    (h : screen_start < _128MB ∨ screen_start > _128MB + _4MB) :
    vidmap k v screen_start = (-1, none) := by
  rw [vidmap, if_pos h]

theorem vidmap_stores (k : kernel_t) (v : video_bufs_t) (screen_start : Nat)
    (h1 : _128MB ≤ screen_start) (h2 : screen_start ≤ _128MB + _4MB)
    (ht : get_tty_number k < 3) :
    vidmap k v screen_start = (0, some (v.addr (get_tty_number k))) := by
  have hg : ¬ (screen_start < _128MB ∨ screen_start > _128MB + _4MB) := by omega
  rw [vidmap, if_neg hg]
  generalize get_tty_number k = t at ht
  interval_cases t <;> rfl

/-- C21 (code defect): `vidmap` rejects an address only when it is above
`128 MiB + 4 MiB`, so the address 132 MiB itself, the first one outside the
range [128 MiB, 132 MiB), is accepted: for the first shell (terminal 0)
`vidmap(0x8400000)` returns 0 and stores `VIDEO_BUF1` at that address. -/
theorem vidmap_accepts_132MiB (v : video_bufs_t) :
    get_tty_number demo_boot = 0
      ∧ ¬ (0x8400000 < _128MB + _4MB)
      ∧ vidmap demo_boot v 0x8400000 = (0, some v.VIDEO_BUF1) :=
  ⟨by decide, by decide, rfl⟩

/-! ## terminal_read -/

/-- C22 (code defect): `terminal_read` waits for the flag of the terminal of
the caller but then works on `active_terminal`. In `demo_kb` the caller runs
on terminal 0, where Enter was pressed on the command `ls`, and terminal 1 is
active and holds `cat`: the call delivers `cat`, clears the command, the
length, the cursor and the flag of terminal 1 and leaves the command, the
length and the flag of terminal 0 as they were. -/
theorem terminal_read_uses_active_terminal :
    get_tty_number demo_boot = 0 ∧ demo_kb.active_terminal = 1
      ∧ ∃ b' kb', terminal_read demo_boot demo_kb (fun _ => 0xEE) 3 = .ok (3, b', kb')
        ∧ [b' 0, b' 1, b' 2] = [99, 97, 116]
        ∧ [kb'.command_buffer 1024, kb'.command_buffer 1025, kb'.command_buffer 1026] = [0, 0, 0]
        ∧ kb'.command_length 1 = 0 ∧ kb'.cursor_x 1 = 0 ∧ kb'.allow_terminal_read 1 = 0
        ∧ [kb'.command_buffer 0, kb'.command_buffer 1] = [108, 115]
        ∧ kb'.command_length 0 = 2 ∧ kb'.cursor_x 0 = 2 ∧ kb'.allow_terminal_read 0 = 1 :=
  ⟨by decide, rfl, _, _, rfl, by decide, by decide, by decide, by decide, by decide, by decide,
    by decide, by decide, by decide⟩

theorem terminal_read_returns (k : kernel_t) (kb : keyboard_t) (buf : Nat → Nat) (nbytes : Int)
    (hallow : kb.allow_terminal_read (get_tty_number k) ≠ 0) (hact : kb.active_terminal < 3)
    (hn : TERMINAL_BUFFER_MAX_SIZE * kb.active_terminal + nbytes.toNat
      ≤ 3 * TERMINAL_BUFFER_MAX_SIZE) :
    ∃ b' kb', terminal_read k kb buf nbytes = .ok ((nbytes.toNat : Int), b', kb')
      ∧ kb'.command_length kb.active_terminal = 0 ∧ kb'.cursor_x kb.active_terminal = 0
      ∧ kb'.allow_terminal_read kb.active_terminal = 0 := by
  rw [terminal_read, if_neg hallow, if_neg (by omega), if_neg (by omega)]
  exact ⟨_, _, rfl, by simp [store], by simp [store], by simp [store]⟩

/-- C23 (code defect): `terminal_read` copies `nbytes` bytes and returns
`nbytes`, whatever the length of the command. With the two-character command
`ls` on the caller's own, active terminal 0, `terminal_read(buf, 10)` returns
10, not `min(10, 2) = 2`; the length, the cursor and the flag of the terminal
are reset to 0. -/
theorem terminal_read_returns_nbytes :
    get_tty_number demo_boot = 0 ∧ demo_kb0.active_terminal = 0
      ∧ demo_kb0.command_length 0 = 2
      ∧ ∃ b' kb', terminal_read demo_boot demo_kb0 (fun _ => 0xEE) 10 = .ok (10, b', kb')
        ∧ (List.range 10).map b' = [108, 115, 0, 0, 0, 0, 0, 0, 0, 0]
        ∧ kb'.command_length 0 = 0 ∧ kb'.cursor_x 0 = 0 ∧ kb'.allow_terminal_read 0 = 0 :=
  ⟨by decide, rfl, by decide, _, _, rfl, by decide, by decide, by decide, by decide⟩

/-! ## read_dentry_by_name and fs_load -/

/-- C25 (code defect): `read_dentry_by_name` compares the name with all 63
entries of the array, not with the first `num_dentries` of them. On the image
`demo_mem`, whose single directory entry is `shell`, the empty name is found:
the call returns 0 with the file type 0 and the inode 0 of the unused entry 1.
And it measures the name of an entry with `strlen`, which runs past a name
that fills its 32 bytes: in `demo_fs3` the file named by 32 letters `a` is not
found under its name. -/
theorem read_dentry_by_name_finds_unused_entry :
    ((fs_init demo_mem).fs_stats.num_dentries = 1
      ∧ (List.range 6).map (dentry_filename (fs_init demo_mem) 0) = str_shell ++ [0]
      ∧ read_dentry_by_name (fs_init demo_mem) (view [])
          = .ok (some { filename := [], filetype := 0, inode := 0 }))
    ∧ (demo_fs3.fs_stats.num_dentries = 1
      ∧ (List.range 32).map (dentry_filename demo_fs3 0) = List.replicate 32 97
      ∧ read_dentry_by_name demo_fs3 (view (List.replicate 32 97)) = .ok none) :=
  ⟨⟨by decide, by decide, rfl⟩, by decide, by decide, rfl⟩

theorem read_dentry_by_name_loop_none (fs : filesys_t) (fname : Nat → Nat) (lb : Nat)
    (hb : strlen fname = some lb) :
    ∀ n i, (∀ j, i ≤ j → j < i + n → ∃ la, strlen (dentry_filename fs j) = some la
        ∧ ¬ (la = lb ∧ strncmp (dentry_filename fs j) fname lb = 0)) →
      read_dentry_by_name_loop fs fname i n = .ok none := by
  intro n
  induction n with
  | zero =>
    intro i _
    rfl
  | succ n ih =>
    intro i h
    obtain ⟨la, hla, hne⟩ := h i (le_refl i) (by omega)
    rw [read_dentry_by_name_loop]
    simp only [hla, hb, if_neg hne]
    exact ih (i + 1) (fun j hj1 hj2 => h j (by omega) (by omega))

theorem read_dentry_by_name_loop_first (fs : filesys_t) (fname : Nat → Nat) (lb m : Nat)
    (hb : strlen fname = some lb) (hm : strlen (dentry_filename fs m) = some lb)
    (hcmp : strncmp (dentry_filename fs m) fname lb = 0) (hlb : lb ≤ 63) :
    ∀ n i, i + n = m →
      (∀ j, i ≤ j → j < m → ∃ la, strlen (dentry_filename fs j) = some la
        ∧ ¬ (la = lb ∧ strncmp (dentry_filename fs j) fname lb = 0)) →
      ∀ r, read_dentry_by_name_loop fs fname i (n + 1 + r)
        = .ok (some { filename := (List.range (min lb 32)).map (dentry_filename fs m)
                      filetype := dentry_filetype fs m
                      inode := dentry_inode fs m }) := by
  intro n
  induction n with
  | zero =>
    intro i hi _ r
    have : i = m := by omega
    subst this
    rw [show 0 + 1 + r = r + 1 by omega, read_dentry_by_name_loop]
    simp only [hm, hb]
    rw [if_pos (And.intro trivial hcmp), if_neg (by omega)]
  | succ n ih =>
    intro i hi h r
    obtain ⟨la, hla, hne⟩ := h i (le_refl i) (by omega)
    rw [show n + 1 + 1 + r = (n + 1 + r) + 1 by omega, read_dentry_by_name_loop]
    simp only [hla, hb, if_neg hne]
    exact ih (i + 1) (by omega) (fun j hj1 hj2 => h j (by omega) hj2) r

theorem read_dentry_by_name_first (fs : filesys_t) (fname : Nat → Nat) (lb m : Nat)
    (hm63 : m < MAX_NUM_FS_DENTRIES)
    (hb : strlen fname = some lb) (hm : strlen (dentry_filename fs m) = some lb)
    (hcmp : strncmp (dentry_filename fs m) fname lb = 0) (hlb : lb ≤ 63)
    (hfirst : ∀ j, j < m → ∃ la, strlen (dentry_filename fs j) = some la
        ∧ ¬ (la = lb ∧ strncmp (dentry_filename fs j) fname lb = 0)) :
    read_dentry_by_name fs fname
      = .ok (some { filename := (List.range (min lb 32)).map (dentry_filename fs m)
                    filetype := dentry_filetype fs m
                    inode := dentry_inode fs m }) := by
  have h63 : MAX_NUM_FS_DENTRIES = 63 := rfl
  rw [h63] at hm63
  have := read_dentry_by_name_loop_first fs fname lb m hb hm hcmp hlb m 0 (by omega)
    (fun j _ hj => hfirst j hj) (62 - m)
  rw [show m + 1 + (62 - m) = 63 by omega] at this
  exact this

theorem read_dentry_by_name_none (fs : filesys_t) (fname : Nat → Nat) (lb : Nat)
    (hb : strlen fname = some lb)
    (hnone : ∀ j, j < MAX_NUM_FS_DENTRIES → ∃ la, strlen (dentry_filename fs j) = some la
        ∧ ¬ (la = lb ∧ strncmp (dentry_filename fs j) fname lb = 0)) :
    read_dentry_by_name fs fname = .ok none :=
  read_dentry_by_name_loop_none fs fname lb hb MAX_NUM_FS_DENTRIES 0
    (fun j _ hj => hnone j (by omega))

theorem read_data_ne_zero (fs : filesys_t) (inode offset length : Nat)
    (hino : inode < fs.fs_stats.num_inodes) (hlen : 0 < length)
    (hoff : offset < inode_size fs inode) : (read_data fs inode offset length).1 ≠ 0 := by
  rw [read_data, if_neg (by omega), if_neg (by omega)]
  split
  · decide
  · exact read_data_loop_fst_ne_zero fs inode offset length 0 _ _ _ []
      (Or.inr ⟨hlen, Nat.mod_lt _ (by decide), by omega⟩) (by omega)

theorem fs_load_of_nonempty (fs : filesys_t) (fname : Nat → Nat) (d : dentry_t)
    (hd : read_dentry_by_name fs fname = .ok (some d))
    (hino : d.inode < fs.fs_stats.num_inodes) (hsize : 0 < inode_size fs d.inode) :
    fs_load fs (some fname)
      = .ok (-1, (read_data fs d.inode 0 (inode_size fs d.inode)).2) := by
  simp only [fs_load, hd]
  rw [if_pos (read_data_ne_zero fs d.inode 0 _ hino hsize hsize)]

/-- C26 (code defect): `fs_load` returns -1 whenever `read_data` returns a
nonzero value, and on success `read_data` returns the number of bytes copied.
For the 28-byte file `shell` of `demo_mem` all 28 bytes are copied and
`fs_load` returns -1. -/
theorem fs_load_returns_minus_one :
    inode_size (fs_init demo_mem) 0 = 28
      ∧ ∃ img, fs_load (fs_init demo_mem) (some (view str_shell)) = .ok (-1, img)
        ∧ img = (List.range 28).map (file_byte (fs_init demo_mem) 0) :=
  ⟨by decide, _, rfl, by decide⟩

/-! ## rtc_write -/

/-- C27 (counterexample): for the frequency 0, which is not one of 2, 4, ...,
1024, `rtc_write` returns 0 and clears the rate bits of register A. -/
theorem rtc_write_accepts_zero :
    rtc_write ⟨0x26⟩ (some 0) 4 = (0, ⟨0x20⟩) :=
  rfl

/-- C27 (amended): `rtc_write(buf, nbytes)` returns -1 if and only if
`nbytes != 4`, `buf` is null, or the requested frequency `*buf` is not one of
0, 2, 4, 8, ..., 1024; in every other case it returns 0. -/
theorem rtc_write_returns_minus_one_iff (r : rtc_t) (buf : Option Int) (nbytes : Int) :
    ((rtc_write r buf nbytes).1 = -1 ↔
        nbytes ≠ 4 ∨ buf = none ∨ ∃ freq, buf = some freq ∧
          ¬ (freq = 0 ∨ freq = 2 ∨ freq = 4 ∨ freq = 8 ∨ freq = 16 ∨ freq = 32 ∨ freq = 64
            ∨ freq = 128 ∨ freq = 256 ∨ freq = 512 ∨ freq = 1024))
      ∧ ((rtc_write r buf nbytes).1 = -1 ∨ (rtc_write r buf nbytes).1 = 0) := by
  unfold rtc_write
  by_cases hn : (4 : Int) ≠ nbytes
  · rw [if_pos hn]
    exact ⟨⟨fun _ => Or.inl (fun h => hn h.symm), fun _ => rfl⟩, Or.inl rfl⟩
  · rw [if_neg hn]
    have hn4 : nbytes = 4 := (not_not.1 hn).symm
    cases buf with
    | none => exact ⟨⟨fun _ => Or.inr (Or.inl rfl), fun _ => rfl⟩, Or.inl rfl⟩
    | some freq =>
      have key : rtc_rate freq = none ↔
          ¬ (freq = 0 ∨ freq = 2 ∨ freq = 4 ∨ freq = 8 ∨ freq = 16 ∨ freq = 32 ∨ freq = 64
            ∨ freq = 128 ∨ freq = 256 ∨ freq = 512 ∨ freq = 1024) := by
        unfold rtc_rate
        by_cases hbig : freq = 8192 ∨ freq = 4096 ∨ freq = 2048
        · rw [if_pos hbig]
          exact ⟨fun _ => by omega, fun _ => rfl⟩
        rw [if_neg hbig]
        by_cases h1024 : freq = 1024
        · rw [if_pos h1024]
          exact ⟨fun h => Option.noConfusion h, fun h => (h (by omega)).elim⟩
        rw [if_neg h1024]
        by_cases h512 : freq = 512
        · rw [if_pos h512]
          exact ⟨fun h => Option.noConfusion h, fun h => (h (by omega)).elim⟩
        rw [if_neg h512]
        by_cases h256 : freq = 256
        · rw [if_pos h256]
          exact ⟨fun h => Option.noConfusion h, fun h => (h (by omega)).elim⟩
        rw [if_neg h256]
        by_cases h128 : freq = 128
        · rw [if_pos h128]
          exact ⟨fun h => Option.noConfusion h, fun h => (h (by omega)).elim⟩
        rw [if_neg h128]
        by_cases h64 : freq = 64
        · rw [if_pos h64]
          exact ⟨fun h => Option.noConfusion h, fun h => (h (by omega)).elim⟩
        rw [if_neg h64]
        by_cases h32 : freq = 32
        · rw [if_pos h32]
          exact ⟨fun h => Option.noConfusion h, fun h => (h (by omega)).elim⟩
        rw [if_neg h32]
        by_cases h16 : freq = 16
        · rw [if_pos h16]
          exact ⟨fun h => Option.noConfusion h, fun h => (h (by omega)).elim⟩
        rw [if_neg h16]
        by_cases h8 : freq = 8
        · rw [if_pos h8]
          exact ⟨fun h => Option.noConfusion h, fun h => (h (by omega)).elim⟩
        rw [if_neg h8]
        by_cases h4 : freq = 4
        · rw [if_pos h4]
          exact ⟨fun h => Option.noConfusion h, fun h => (h (by omega)).elim⟩
        rw [if_neg h4]
        by_cases h2 : freq = 2
        · rw [if_pos h2]
          exact ⟨fun h => Option.noConfusion h, fun h => (h (by omega)).elim⟩
        rw [if_neg h2]
        by_cases h0 : freq = 0
        · rw [if_pos h0]
          exact ⟨fun h => Option.noConfusion h, fun h => (h (by omega)).elim⟩
        rw [if_neg h0]
        exact ⟨fun _ => by omega, fun _ => rfl⟩
      dsimp only
      cases hr : rtc_rate freq with
      | none =>
        dsimp only
        refine ⟨⟨fun _ => Or.inr (Or.inr ⟨freq, rfl, key.1 hr⟩), fun _ => rfl⟩, Or.inl rfl⟩
      | some rs =>
        dsimp only
        refine ⟨⟨fun h => absurd h (by decide), ?_⟩, Or.inr rfl⟩
        rintro (h | h | ⟨f, hf, hne⟩)
        · exact absurd hn4 h
        · exact Option.noConfusion h
        · have hf' : freq = f := Option.some.inj hf
          subst hf'
          rw [key.2 hne] at hr
          exact Option.noConfusion hr

/-! ## dir_read -/

/-- C24 (code defect): `dir_read` copies the name with `strcpy` and measures
it with `strlen`, which do not stop at the end of the 32-byte field
`filename`. In `demo_fs3` the name of entry 0 is 32 letters `a` and the file
type that follows it is 2: the first call copies 33 characters, the name and
the byte 2 of the file type, and returns 33, not the length 32 of the name. -/
theorem dir_read_unterminated_name :
    demo_fs3.dir_reads = 0 ∧ demo_fs3.fs_stats.num_dentries = 1
      ∧ (List.range 32).map (dentry_filename demo_fs3 0) = List.replicate 32 97
      ∧ dentry_filetype demo_fs3 0 = 2
      ∧ ∃ b' fs', dir_read demo_fs3 (fun _ => 0xEE) = .ok (33, b', fs')
        ∧ (List.range 35).map b' = List.replicate 32 97 ++ [2, 0, 0xEE]
        ∧ fs'.dir_reads = 1 :=
  ⟨rfl, by decide, by decide, by decide, _, _, rfl, by decide, rfl⟩

theorem dir_read_entry (fs : filesys_t) (buf : Nat → Nat) (len : Nat)
    (hlt : fs.dir_reads < fs.fs_stats.num_dentries)
    (hn : fs.fs_stats.num_dentries < 4294967296)
    (hs : strlen (dentry_filename fs fs.dir_reads) = some len) :
    dir_read fs buf
      = .ok (int32 len, store_bytes (strcpy_bytes (dentry_filename fs fs.dir_reads) len) buf,
          { fs with dir_reads := fs.dir_reads + 1 }) := by
  rw [dir_read, if_neg (by omega)]
  simp only [hs]
  rw [Nat.mod_eq_of_lt (by omega)]

theorem dir_read_end (fs : filesys_t) (buf : Nat → Nat)
    (hge : fs.dir_reads ≥ fs.fs_stats.num_dentries) :
    dir_read fs buf = .ok (0, buf, { fs with dir_reads := 0 }) := by
  rw [dir_read, if_pos hge]

theorem dir_read_calls_names (mem : Nat → Nat) (stats : fs_stats_t) (data_start : Nat)
    (len : Nat → Nat) (hn : stats.num_dentries < 4294967296)
    (hs : ∀ j, j < stats.num_dentries →
      strlen (dentry_filename ⟨mem, stats, data_start, 0⟩ j) = some (len j)) :
    ∀ m i buf, i + m ≤ stats.num_dentries →
      ∃ b', dir_read_calls ⟨mem, stats, data_start, i⟩ buf m
        = .ok ((List.range m).map (fun j => int32 (len (i + j))), b',
            ⟨mem, stats, data_start, i + m⟩) := by
  intro m
  induction m with
  | zero =>
    intro i buf _
    exact ⟨buf, rfl⟩
  | succ m ih =>
    intro i buf him
    have hstep := dir_read_entry ⟨mem, stats, data_start, i⟩ buf (len i)
      (by show i < stats.num_dentries; omega) hn (hs i (by omega))
    obtain ⟨b', hb'⟩ := ih (i + 1)
      (store_bytes (strcpy_bytes (dentry_filename ⟨mem, stats, data_start, i⟩ i) (len i)) buf)
      (by omega)
    refine ⟨b', ?_⟩
    rw [dir_read_calls, hstep]
    simp only [hb']
    rw [List.range_succ_eq_map, List.map_cons, List.map_map]
    have e : i + 1 + m = i + (m + 1) := by omega
    rw [e]
    congr 3
    apply List.map_congr_left
    intro j _
    show int32 (len (i + 1 + j)) = int32 (len (i + (j + 1)))
    rw [show i + 1 + j = i + (j + 1) by omega]

theorem dir_read_calls_all (mem : Nat → Nat) (stats : fs_stats_t) (data_start : Nat)
    (len : Nat → Nat) (buf : Nat → Nat) (hn : stats.num_dentries < 4294967296)
    (hs : ∀ j, j < stats.num_dentries →
      strlen (dentry_filename ⟨mem, stats, data_start, 0⟩ j) = some (len j)) :
    ∃ b' b'', dir_read_calls ⟨mem, stats, data_start, 0⟩ buf stats.num_dentries
        = .ok ((List.range stats.num_dentries).map (fun j => int32 (len j)), b',
            ⟨mem, stats, data_start, stats.num_dentries⟩)
      ∧ dir_read ⟨mem, stats, data_start, stats.num_dentries⟩ b'
        = .ok (0, b'', ⟨mem, stats, data_start, 0⟩) := by
  obtain ⟨b', hb'⟩ := dir_read_calls_names mem stats data_start len hn hs stats.num_dentries 0 buf
    (by omega)
  refine ⟨b', b', ?_, ?_⟩
  · rw [hb']
    simp
  · exact dir_read_end _ _ (le_refl _)

/-! ## setup_new_task -/

/-- C28: `setup_new_task(pid)` returns -1 without changing the state iff
`pid >= 8`; for `pid < 8` it returns 0, entry 32 of directory `pid` is present,
user-accessible, writable and 4 MiB-sized with frame number `pid + 1`, entry 1
is present, supervisor-only, global and 4 MiB-sized with frame number 1, and
the other directories are unchanged; so distinct process ids in [1,7] get
distinct program frames, none of which is the kernel frame 1. -/
theorem setup_new_task_directory (k : kernel_t) (pid : Nat) :
    ((setup_new_task k pid).1 = -1 ↔ pid ≥ 8)
      ∧ (pid ≥ 8 → setup_new_task k pid = (-1, k))
      ∧ (pid < 8 → (setup_new_task k pid).1 = 0
          ∧ ((setup_new_task k pid).2.paging.page_directories pid PROGRAM_IMG_ENTRY).present = 1
          ∧ ((setup_new_task k pid).2.paging.page_directories pid PROGRAM_IMG_ENTRY).user_supervisor
              = 1
          ∧ ((setup_new_task k pid).2.paging.page_directories pid PROGRAM_IMG_ENTRY).read_write = 1
          ∧ ((setup_new_task k pid).2.paging.page_directories pid PROGRAM_IMG_ENTRY).page_size = 1
          ∧ ((setup_new_task k pid).2.paging.page_directories pid PROGRAM_IMG_ENTRY).page_addr
              = pid + 1
          ∧ ((setup_new_task k pid).2.paging.page_directories pid 1).present = 1
          ∧ ((setup_new_task k pid).2.paging.page_directories pid 1).user_supervisor = 0
          ∧ ((setup_new_task k pid).2.paging.page_directories pid 1).global = 1
          ∧ ((setup_new_task k pid).2.paging.page_directories pid 1).page_size = 1
          ∧ ((setup_new_task k pid).2.paging.page_directories pid 1).page_addr = 1
          ∧ (∀ q, q ≠ pid → (setup_new_task k pid).2.paging.page_directories q
              = k.paging.page_directories q))
      ∧ (∀ p q, 1 ≤ p → p ≤ 7 → 1 ≤ q → q ≤ 7 → p ≠ q →
          ((setup_new_task k p).2.paging.page_directories p PROGRAM_IMG_ENTRY).page_addr
            ≠ ((setup_new_task k q).2.paging.page_directories q PROGRAM_IMG_ENTRY).page_addr
          ∧ ((setup_new_task k p).2.paging.page_directories p PROGRAM_IMG_ENTRY).page_addr
            ≠ ((setup_new_task k p).2.paging.page_directories p 1).page_addr) := by
  have hM : MAX_NUM_OF_PROCESSES = 8 := rfl
  have hE : PROGRAM_IMG_ENTRY = 0x20 := rfl
  have hfr : ∀ p, p < 8 →
      ((setup_new_task k p).2.paging.page_directories p PROGRAM_IMG_ENTRY).page_addr = p + 1
      ∧ ((setup_new_task k p).2.paging.page_directories p 1).page_addr = 1 := by
    intro p hp
    rw [setup_new_task_of_lt k p hp]
    simp [paging_t.new_task, paging_t.load_cr3, hE]
  refine ⟨?_, ?_, ?_, ?_⟩
  · unfold setup_new_task
    rw [hM]
    by_cases h : pid ≥ 8
    · rw [if_pos h]
      exact ⟨fun _ => h, fun _ => rfl⟩
    · rw [if_neg h]
      exact ⟨fun h1 => absurd (show (0 : Int) = -1 from h1) (by decide), fun h1 => absurd h1 h⟩
  · intro h
    unfold setup_new_task
    rw [hM, if_pos h]
  · intro hp
    rw [setup_new_task_of_lt k pid hp]
    refine ⟨rfl, ?_, ?_, ?_, ?_, ?_, ?_, ?_, ?_, ?_, ?_, ?_⟩
    all_goals first
      | (intro q hq
         funext e
         simp [paging_t.new_task, paging_t.load_cr3, hq])
      | simp [paging_t.new_task, paging_t.load_cr3, hE]
  · intro p q hp1 hp7 hq1 hq7 hpq
    rw [(hfr p (by omega)).1, (hfr q (by omega)).1, (hfr p (by omega)).2]
    omega

theorem setup_new_task_directory_witness :
    (setup_new_task demo_k0 3).1 = 0
      ∧ ((setup_new_task demo_k0 3).2.paging.page_directories 3 PROGRAM_IMG_ENTRY).page_addr = 3 + 1
      ∧ ((setup_new_task demo_k0 3).2.paging.page_directories 3 1).page_addr = 1 :=
  have h := (setup_new_task_directory demo_k0 3).2.2.1 (by decide)
  ⟨h.1, h.2.2.2.2.2.1, h.2.2.2.2.2.2.2.2.2.2.1⟩

/-! ## bootup -/

theorem bootup_shell_total (k : kernel_t) (esp ebp i : Nat) (d : dentry_t) (hi : i < 8)
    (hd : read_dentry_by_name k.fs (view str_shell) = .ok (some d)) :
    ∃ k', bootup_shell k esp ebp i = .ok (some k') := by
  obtain ⟨r, hl⟩ := fs_load_of_dentry k.fs _ d hd
  have h1 : ¬ (setup_new_task k i).1 = -1 := by
    rw [setup_new_task_of_lt k i hi]
    show ¬ (0 : Int) = -1
    decide
  simp only [bootup_shell, if_neg h1, hl, sys_open_stdin, sys_open_stdout]
  exact ⟨_, rfl⟩

theorem bootup_shell_state (k : kernel_t) (esp ebp i : Nat) (k' : kernel_t) (hi : i < 8)
    (h : bootup_shell k esp ebp i = .ok (some k')) :
    k'.fs = k.fs
      ∧ ∀ a, k'.pcbs a =
        if a = pcb_addr i then
          (((k.pcbs a).bootup_fill esp ebp i).open_std 0 .stdin_fops_table).open_std 1
            .stdout_fops_table
        else k.pcbs a := by
  have hb := pcb_addr_of_stack_bottom i hi
  by_cases h1 : (setup_new_task k i).1 = -1
  · simp [bootup_shell, h1] at h
  · simp only [bootup_shell, if_neg h1] at h
    cases hl : fs_load k.fs (some (view str_shell)) with
    | fault => simp [hl] at h
    | hang => simp [hl] at h
    | ok ri =>
      obtain ⟨r, img⟩ := ri
      simp only [hl, sys_open_stdin, sys_open_stdout, result_t.ok.injEq, Option.some.injEq] at h
      subst h
      have hs : ∀ b, (setup_new_task k i).2.pcbs b = k.pcbs b := by
        intro b
        unfold setup_new_task
        split_ifs <;> rfl
      have hf : (setup_new_task k i).2.fs = k.fs := by
        unfold setup_new_task
        split_ifs <;> rfl
      refine ⟨by simp [open_stdout, open_stdin, hf], ?_⟩
      intro a
      rw [open_std_pcbs]
      simp only [set_kernel_stack_bottom_kernel_stack_bottom, hb]
      generalize pcb_addr i = A
      simp only [set_kernel_stack_bottom_pcbs, set_tss_esp0_pcbs, update_pcb_pcbs,
        load_program_img_pcbs, hs]
      by_cases ha : a = A
      · subst ha
        simp only [if_true]
      · simp only [if_neg ha]

theorem bootup_fill_open_std (p : pcb_t) (esp ebp i : Nat) :
    (((p.bootup_fill esp ebp i).open_std 0 .stdin_fops_table).open_std 1
        .stdout_fops_table).process_number = i
      ∧ (((p.bootup_fill esp ebp i).open_std 0 .stdin_fops_table).open_std 1
        .stdout_fops_table).parent_process_number = 0
      ∧ (((p.bootup_fill esp ebp i).open_std 0 .stdin_fops_table).open_std 1
        .stdout_fops_table).has_child = 0
      ∧ (((p.bootup_fill esp ebp i).open_std 0 .stdin_fops_table).open_std 1
        .stdout_fops_table).tty_number = i - 1
      ∧ ((((p.bootup_fill esp ebp i).open_std 0 .stdin_fops_table).open_std 1
        .stdout_fops_table).fds 0).flags = IN_USE
      ∧ ((((p.bootup_fill esp ebp i).open_std 0 .stdin_fops_table).open_std 1
        .stdout_fops_table).fds 0).jumptable = .stdin_fops_table
      ∧ ((((p.bootup_fill esp ebp i).open_std 0 .stdin_fops_table).open_std 1
        .stdout_fops_table).fds 1).flags = IN_USE
      ∧ ((((p.bootup_fill esp ebp i).open_std 0 .stdin_fops_table).open_std 1
        .stdout_fops_table).fds 1).jumptable = .stdout_fops_table
      ∧ ∀ j, 2 ≤ j → j ≤ 7 →
        ((((p.bootup_fill esp ebp i).open_std 0 .stdin_fops_table).open_std 1
          .stdout_fops_table).fds j).flags = NOT_IN_USE := by
  refine ⟨rfl, rfl, rfl, rfl, ?_, ?_, ?_, ?_, ?_⟩
  · simp [pcb_t.open_std, pcb_t.bootup_fill]
  · simp [pcb_t.open_std, pcb_t.bootup_fill]
  · simp [pcb_t.open_std, pcb_t.bootup_fill]
  · simp [pcb_t.open_std, pcb_t.bootup_fill]
  · intro j h2 h7
    have h0 : j ≠ 0 := by omega
    have h1 : j ≠ 1 := by omega
    have h8 : j < 8 := by omega
    simp [pcb_t.open_std, pcb_t.bootup_fill, h0, h1, h8]

/-- C29: started with `running_processes = 0x80` on a file system whose
directory has the file `shell`, with a valid inode whose first data block is
valid, `bootup` enters user space; then `running_processes = 0xF0`,
`current_process_number = 1`, and for each `i` of 1, 2, 3 the PCB of process
`i` has `process_number = i`, `parent_process_number = 0`, `has_child = 0`,
`tty_number = i - 1`, descriptors 0 and 1 in use with the tables of stdin and
stdout, and descriptors 2 to 7 not in use. -/
theorem bootup_initial_shells (k0 : kernel_t) (esp ebp : Nat) (buf : Nat → Nat) (d : dentry_t)
    (h0 : k0.running_processes = 0x80)
    (hd : read_dentry_by_name k0.fs (view str_shell) = .ok (some d))
    (hino : d.inode < k0.fs.fs_stats.num_inodes)
    (hblk : inode_data_block k0.fs d.inode 0 < k0.fs.fs_stats.num_datablocks) :
    ∃ e k, bootup k0 esp ebp buf = .to_the_user_space e k
      ∧ k.running_processes = 0xF0 ∧ k.current_process_number = 1
      ∧ ∀ i, 1 ≤ i → i ≤ 3 →
        (k.pcbs (pcb_addr i)).process_number = i
        ∧ (k.pcbs (pcb_addr i)).parent_process_number = 0
        ∧ (k.pcbs (pcb_addr i)).has_child = 0
        ∧ (k.pcbs (pcb_addr i)).tty_number = i - 1
        ∧ ((k.pcbs (pcb_addr i)).fds 0).flags = IN_USE
        ∧ ((k.pcbs (pcb_addr i)).fds 0).jumptable = .stdin_fops_table
        ∧ ((k.pcbs (pcb_addr i)).fds 1).flags = IN_USE
        ∧ ((k.pcbs (pcb_addr i)).fds 1).jumptable = .stdout_fops_table
        ∧ ∀ j, 2 ≤ j → j ≤ 7 → ((k.pcbs (pcb_addr i)).fds j).flags = NOT_IN_USE := by
  obtain ⟨k3, h3⟩ := bootup_shell_total k0 esp ebp 3 d (by decide) hd
  obtain ⟨hf3, hp3⟩ := bootup_shell_state k0 esp ebp 3 k3 (by decide) h3
  obtain ⟨k2, h2⟩ := bootup_shell_total k3 esp ebp 2 d (by decide) (by rw [hf3]; exact hd)
  obtain ⟨hf2, hp2⟩ := bootup_shell_state k3 esp ebp 2 k2 (by decide) h2
  obtain ⟨k1, h1⟩ := bootup_shell_total k2 esp ebp 1 d (by decide)
    (by rw [hf2, hf3]; exact hd)
  obtain ⟨_, hp1⟩ := bootup_shell_state k2 esp ebp 1 k1 (by decide) h1
  have hr1 := (bootup_shell_globals k2 esp ebp 1 k1 h1).1
  have hr2 := (bootup_shell_globals k3 esp ebp 2 k2 h2).1
  have hr3 := (bootup_shell_globals k0 esp ebp 3 k3 h3).1
  have hne : (read_data k0.fs d.inode ENTRY_POINT_OFFSET 4).1 ≠ -1 := by
    intro hc
    rw [read_data_fst_eq_neg_one k0.fs d.inode ENTRY_POINT_OFFSET 4 (by decide) (by decide)] at hc
    rcases hc with hc | ⟨_, hc⟩
    · omega
    · have e : ENTRY_POINT_OFFSET / FS_PAGE_SIZE = 0 := by decide
      rw [e] at hc
      omega
  have h12 : pcb_addr 1 ≠ pcb_addr 2 := by decide
  have h13 : pcb_addr 1 ≠ pcb_addr 3 := by decide
  have h21 : pcb_addr 2 ≠ pcb_addr 1 := by decide
  have h23 : pcb_addr 2 ≠ pcb_addr 3 := by decide
  have h31 : pcb_addr 3 ≠ pcb_addr 1 := by decide
  have h32 : pcb_addr 3 ≠ pcb_addr 2 := by decide
  refine ⟨save_entry_point 0 (store_bytes (read_data k0.fs d.inode ENTRY_POINT_OFFSET 4).2 buf),
    set_current_process_number
      (set_running_processes k1 (k1.running_processes ||| INITIAL_SHELLS_BITMASK)) 1,
    ?_, ?_, ?_, ?_⟩
  · unfold bootup
    simp only [fs_read, hd, if_neg hne, h3, h2, h1, Option.getD_some]
  · rw [set_current_process_number_running_processes, set_running_processes_running_processes,
      hr1, hr2, hr3, h0]
    decide
  · rfl
  · intro i hi1 hi3
    rw [set_current_process_number_pcbs, set_running_processes_pcbs]
    have hcase : i = 1 ∨ i = 2 ∨ i = 3 := by omega
    rcases hcase with rfl | rfl | rfl
    · rw [hp1, if_pos rfl]
      exact bootup_fill_open_std _ esp ebp 1
    · rw [hp1, if_neg h21, hp2, if_pos rfl]
      exact bootup_fill_open_std _ esp ebp 2
    · rw [hp1, if_neg h31, hp2, if_neg h32, hp3, if_pos rfl]
      exact bootup_fill_open_std _ esp ebp 3

theorem bootup_initial_shells_witness :
    ∃ e k, bootup demo_k0 0x7FFF00 0x7FFF10 (fun _ => 0) = .to_the_user_space e k
      ∧ k.running_processes = 0xF0 ∧ k.current_process_number = 1
      ∧ ∀ i, 1 ≤ i → i ≤ 3 →
        (k.pcbs (pcb_addr i)).process_number = i
        ∧ (k.pcbs (pcb_addr i)).parent_process_number = 0
        ∧ (k.pcbs (pcb_addr i)).has_child = 0
        ∧ (k.pcbs (pcb_addr i)).tty_number = i - 1
        ∧ ((k.pcbs (pcb_addr i)).fds 0).flags = IN_USE
        ∧ ((k.pcbs (pcb_addr i)).fds 0).jumptable = .stdin_fops_table
        ∧ ((k.pcbs (pcb_addr i)).fds 1).flags = IN_USE
        ∧ ((k.pcbs (pcb_addr i)).fds 1).jumptable = .stdout_fops_table
        ∧ ∀ j, 2 ≤ j → j ≤ 7 → ((k.pcbs (pcb_addr i)).fds j).flags = NOT_IN_USE :=
  bootup_initial_shells demo_k0 0x7FFF00 0x7FFF10 (fun _ => 0) _ rfl rfl (by decide) (by decide)

/-! ## memcpy and update_vid -/

theorem memcpy_bytes_apart (n : Nat) : ∀ (mem : Nat → Nat) (dest src : Nat),
    (src + n ≤ dest ∨ dest + n ≤ src) → ∀ a,
      memcpy_bytes mem dest src n a
        = if dest ≤ a ∧ a < dest + n then mem (src + (a - dest)) else mem a := by
  induction n with
  | zero =>
    intro mem dest src _ a
    rw [memcpy_bytes, if_neg (by omega)]
  | succ n ih =>
    intro mem dest src h a
    rw [memcpy_bytes, ih _ _ _ (by omega)]
    unfold store
    by_cases h1 : dest + 1 ≤ a ∧ a < dest + 1 + n
    · rw [if_pos h1, if_neg (by omega), if_pos (by omega)]
      congr 1
      omega
    · rw [if_neg h1]
      by_cases h2 : a = dest
      · rw [if_pos h2, if_pos (by omega), h2, Nat.sub_self, Nat.add_zero]
      · rw [if_neg h2, if_neg (by omega)]

theorem memcpy_dwords_apart (n : Nat) : ∀ (mem : Nat → Nat) (dest src : Nat),
    (src + 4 * n ≤ dest ∨ dest + 4 * n ≤ src) → ∀ a,
      memcpy_dwords mem dest src n a
        = if dest ≤ a ∧ a < dest + 4 * n then mem (src + (a - dest)) else mem a := by
  induction n with
  | zero =>
    intro mem dest src _ a
    rw [memcpy_dwords, if_neg (by omega)]
  | succ n ih =>
    intro mem dest src h a
    rw [memcpy_dwords, ih _ _ _ (by omega)]
    unfold store
    by_cases h1 : dest + 4 ≤ a ∧ a < dest + 4 + 4 * n
    · rw [if_pos h1, if_neg (by omega), if_neg (by omega), if_neg (by omega), if_neg (by omega),
        if_pos (by omega)]
      congr 1
      omega
    · rw [if_neg h1]
      by_cases h3 : a = dest + 3
      · rw [if_pos h3, if_pos (by omega)]
        congr 1
        omega
      · rw [if_neg h3]
        by_cases h2 : a = dest + 2
        · rw [if_pos h2, if_pos (by omega)]
          congr 1
          omega
        · rw [if_neg h2]
          by_cases h1 : a = dest + 1
          · rw [if_pos h1, if_pos (by omega)]
            congr 1
            omega
          · rw [if_neg h1]
            by_cases h0 : a = dest
            · rw [if_pos h0, if_pos (by omega), h0, Nat.sub_self, Nat.add_zero]
            · rw [if_neg h0, if_neg (by omega)]

theorem memcpy_parts (mem : Nat → Nat) (dest src h q t : Nat)
    (hap : src + (h + 4 * q + t) ≤ dest ∨ dest + (h + 4 * q + t) ≤ src) (a : Nat) :
    memcpy_bytes (memcpy_dwords (memcpy_bytes mem dest src h) (dest + h) (src + h) q)
        (dest + h + 4 * q) (src + h + 4 * q) t a
      = if dest ≤ a ∧ a < dest + (h + 4 * q + t) then mem (src + (a - dest)) else mem a := by
  rw [memcpy_bytes_apart t _ _ _ (by omega)]
  by_cases h3 : dest + h + 4 * q ≤ a ∧ a < dest + h + 4 * q + t
  · rw [if_pos h3, if_pos (by omega), memcpy_dwords_apart q _ _ _ (by omega), if_neg (by omega),
      memcpy_bytes_apart h _ _ _ (by omega), if_neg (by omega)]
    congr 1
    omega
  · rw [if_neg h3, memcpy_dwords_apart q _ _ _ (by omega)]
    by_cases h2 : dest + h ≤ a ∧ a < dest + h + 4 * q
    · rw [if_pos h2, if_pos (by omega), memcpy_bytes_apart h _ _ _ (by omega), if_neg (by omega)]
      congr 1
      omega
    · rw [if_neg h2, memcpy_bytes_apart h _ _ _ (by omega)]
      by_cases h1 : dest ≤ a ∧ a < dest + h
      · rw [if_pos h1, if_pos (by omega)]
      · rw [if_neg h1, if_neg (by omega)]

theorem memcpy_apart (mem : Nat → Nat) (dest src n : Nat)
    (hap : src + n ≤ dest ∨ dest + n ≤ src) (a : Nat) :
    memcpy mem dest src n a
      = if dest ≤ a ∧ a < dest + n then mem (src + (a - dest)) else mem a := by
  have hn : min n ((4 - dest % 4) % 4) + 4 * ((n - min n ((4 - dest % 4) % 4)) / 4)
      + (n - min n ((4 - dest % 4) % 4)) % 4 = n := by
    omega
  unfold memcpy
  rw [memcpy_parts mem dest src _ _ _ (by rw [hn]; exact hap) a, hn]

theorem memcpy_twice (mem : Nat → Nat) (dest src n : Nat)
    (hap : src + n ≤ dest ∨ dest + n ≤ src) :
    memcpy (memcpy mem dest src n) dest src n = memcpy mem dest src n := by
  funext a
  rw [memcpy_apart (memcpy mem dest src n) dest src n hap a]
  by_cases h : dest ≤ a ∧ a < dest + n
  · rw [if_pos h, memcpy_apart mem dest src n hap (src + (a - dest)), if_neg (by omega),
      memcpy_apart mem dest src n hap a, if_pos h]
  · rw [if_neg h]

theorem update_vid_eq (v : video_bufs_t) (s : screen_t) :
    update_vid v s
      = if s.active_term < 3 then
          { mem := memcpy s.mem VIDEO (v.addr s.active_term) _4KB, active_term := s.active_term }
        else s := by
  unfold update_vid
  split
  · next h =>
    rw [h, if_pos (by decide)]
    rfl
  · next h =>
    rw [h, if_pos (by decide)]
    rfl
  · next h =>
    rw [h, if_pos (by decide)]
    rfl
  · next h0 h1 h2 =>
    rw [if_neg]
    intro hc
    rcases (by omega : s.active_term = 0 ∨ s.active_term = 1 ∨ s.active_term = 2) with e | e | e
    · exact h0 e
    · exact h1 e
    · exact h2 e

theorem update_vid_twice (v : video_bufs_t) (s : screen_t) (hv : v.apart) :
    update_vid v (update_vid v s) = update_vid v s := by
  rw [update_vid_eq v s]
  by_cases h : s.active_term < 3
  · rw [if_pos h, update_vid_eq]
    dsimp only
    rw [if_pos h, memcpy_twice s.mem VIDEO (v.addr s.active_term) _4KB (hv _ h)]
  · rw [if_neg h, update_vid_eq, if_neg h]

theorem update_vid_mem (v : video_bufs_t) (s : screen_t) (hv : v.apart) (a : Nat) :
    (update_vid v s).mem a
      = if s.active_term < 3 ∧ VIDEO ≤ a ∧ a < VIDEO + _4KB then
          s.mem (v.addr s.active_term + (a - VIDEO))
        else s.mem a := by
  rw [update_vid_eq v s]
  by_cases h : s.active_term < 3
  · rw [if_pos h]
    dsimp only
    rw [memcpy_apart s.mem VIDEO (v.addr s.active_term) _4KB (hv _ h) a]
    by_cases h1 : VIDEO ≤ a ∧ a < VIDEO + _4KB
    · rw [if_pos h1, if_pos ⟨h, h1⟩]
    · rw [if_neg h1, if_neg (fun hc => h1 hc.2)]
  · rw [if_neg h, if_neg (fun hc => h hc.1)]

theorem update_vid_active_term (v : video_bufs_t) (s : screen_t) :
    (update_vid v s).active_term = s.active_term := by
  rw [update_vid_eq v s]
  by_cases h : s.active_term < 3
  · rw [if_pos h]
  · rw [if_neg h]

/-- C30: when no byte of the 4 KiB at `VIDEO` lies in a back-buffer,
`update_vid` is idempotent: `k >= 1` calls in a row leave the state a single
call leaves. After it, for an active terminal 0, 1 or 2, the 4 KiB at `VIDEO`
hold the bytes of the back-buffer of the active terminal, the three
back-buffers hold what they held before, and `active_term` is unchanged. -/
theorem update_vid_idempotent (v : video_bufs_t) (s : screen_t) (k : Nat) (hv : v.apart)
    (hk : 1 ≤ k) :
    (update_vid v)^[k] s = update_vid v s
      ∧ (s.active_term < 3 → ∀ i, i < _4KB →
          (update_vid v s).mem (VIDEO + i) = s.mem (v.addr s.active_term + i))
      ∧ (∀ t, t < 3 → ∀ i, i < _4KB → (update_vid v s).mem (v.addr t + i) = s.mem (v.addr t + i))
      ∧ (update_vid v s).active_term = s.active_term := by
  refine ⟨?_, ?_, ?_, ?_⟩
  · obtain ⟨m, rfl⟩ : ∃ m, k = m + 1 := ⟨k - 1, by omega⟩
    clear hk
    induction m with
    | zero => rfl
    | succ m ih =>
      rw [Function.iterate_succ_apply', ih, update_vid_twice v s hv]
  · intro ht i hi
    rw [update_vid_mem v s hv, if_pos ⟨ht, by omega, by omega⟩, Nat.add_sub_cancel_left]
  · intro t ht i hi
    have := hv t ht
    rw [update_vid_mem v s hv, if_neg (by omega)]
  · exact update_vid_active_term v s

theorem update_vid_idempotent_witness :
    demo_bufs.apart
      ∧ (update_vid demo_bufs)^[3] demo_screen = update_vid demo_bufs demo_screen
      ∧ (update_vid demo_bufs demo_screen).mem (VIDEO + 9) = 2
      ∧ demo_screen.mem (VIDEO + 9) = 0xEE :=
  have hv : demo_bufs.apart := by
    intro t ht
    interval_cases t <;> decide
  have h := update_vid_idempotent demo_bufs demo_screen 3 hv (by decide)
  ⟨hv, h.1, (h.2.1 (by decide) 9 (by decide)).trans (by decide), by decide⟩

/-! ## The keyboard driver -/

theorem place_character_loop_apply (a : Nat) : ∀ (n : Nat) (cb : Nat → Nat) (j : Nat),
    place_character_loop a n cb j = if a + 1 ≤ j ∧ j ≤ a + n then cb (j - 1) else cb j := by
  intro n
  induction n with
  | zero =>
    intro cb j
    rw [place_character_loop, if_neg (by omega)]
  | succ n ih =>
    intro cb j
    rw [place_character_loop, ih]
    unfold store
    by_cases h1 : a + 1 ≤ j ∧ j ≤ a + n
    · rw [if_pos h1, if_neg (by omega), if_pos (by omega)]
    · rw [if_neg h1]
      by_cases h2 : j = a + n + 1
      · rw [if_pos h2, if_pos (by omega), h2, Nat.add_sub_cancel]
      · rw [if_neg h2, if_neg (by omega)]

theorem delete_loop_apply : ∀ (n a : Nat) (cb : Nat → Nat) (j : Nat),
    delete_loop n a cb j = if a ≤ j ∧ j < a + n then cb (j + 1) else cb j := by
  intro n
  induction n with
  | zero =>
    intro a cb j
    rw [delete_loop, if_neg (by omega)]
  | succ n ih =>
    intro a cb j
    rw [delete_loop, ih]
    unfold store
    by_cases h1 : a + 1 ≤ j ∧ j < a + 1 + n
    · rw [if_pos h1, if_neg (by omega), if_pos (by omega)]
    · rw [if_neg h1]
      by_cases h2 : j = a
      · rw [if_pos h2, if_pos (by omega), h2]
      · rw [if_neg h2, if_neg (by omega)]

theorem process_keyboard_input_visible (kb : keyboard_t) (scancode nextcode : Nat)
    (hact : kb.active_terminal < 3)
    (hctrl : kb.keyboardflag kb.active_terminal &&& FLAG_CTRL = 0)
    (hsc : (scancode ≥ MAKE_1 ∧ scancode ≤ MAKE_EQUALS)
        ∨ (scancode ≥ MAKE_Q ∧ scancode ≤ MAKE_R_SQUARE_BRACKET)
        ∨ (scancode ≥ MAKE_A ∧ scancode ≤ MAKE_ACCENT)
        ∨ (scancode ≥ MAKE_BACKSLASH ∧ scancode ≤ MAKE_SLASH)
        ∨ scancode = MAKE_SPACE)
    (hn : kb.command_length kb.active_terminal ≤ 1022)
    (hx : kb.cursor_x kb.active_terminal ≤ kb.command_length kb.active_terminal) :
    process_keyboard_input kb scancode nextcode =
      .ok { kb with
        command_buffer :=
          store
            (place_character_loop
              (TERMINAL_BUFFER_MAX_SIZE * kb.active_terminal + kb.cursor_x kb.active_terminal)
              (kb.command_length kb.active_terminal - kb.cursor_x kb.active_terminal + 1)
              kb.command_buffer)
            (TERMINAL_BUFFER_MAX_SIZE * kb.active_terminal + kb.cursor_x kb.active_terminal)
            (kbd_chars (kb.keyboardflag kb.active_terminal &&& FLAG_SHIFT_CAPS_MASK) scancode)
        command_length :=
          store kb.command_length kb.active_terminal (kb.command_length kb.active_terminal + 1)
        cursor_x :=
          store kb.cursor_x kb.active_terminal (kb.cursor_x kb.active_terminal + 1) } := by
  have hT : TERMINAL_BUFFER_MAX_SIZE = 1024 := rfl
  have hix : int32 (kb.cursor_x kb.active_terminal) = (kb.cursor_x kb.active_terminal : Int) :=
    int32_of_lt _ (by omega)
  have hin : int32 (kb.command_length kb.active_terminal)
      = (kb.command_length kb.active_terminal : Int) := int32_of_lt _ (by omega)
  rw [process_keyboard_input, if_neg (by omega), if_pos ⟨hctrl, hsc⟩,
    if_pos (by rw [hT, Nat.mod_eq_of_lt (by omega)]; omega), place_character_at_index, hix, hin,
    if_neg (by rw [hT]; push_cast; omega)]
  have e1 : (((TERMINAL_BUFFER_MAX_SIZE : Nat) : Int) * (kb.active_terminal : Int)
      + (kb.cursor_x kb.active_terminal : Int)).toNat
      = TERMINAL_BUFFER_MAX_SIZE * kb.active_terminal + kb.cursor_x kb.active_terminal := by
    rw [hT]
    omega
  have e2 : ((kb.command_length kb.active_terminal : Int)
      - (kb.cursor_x kb.active_terminal : Int) + 1).toNat
      = kb.command_length kb.active_terminal - kb.cursor_x kb.active_terminal + 1 := by
    omega
  rw [e1, e2, Nat.mod_eq_of_lt (by omega), Nat.mod_eq_of_lt (by omega)]

theorem command_insert (f g : Nat → Nat) (n x ch : Nat) (hx : x ≤ n)
    (hg : ∀ i, i ≤ n → g i = if i < x then f i else if i = x then ch else f (i - 1)) :
    (List.range (n + 1)).map g
      = ((List.range n).map f).take x ++ [ch] ++ ((List.range n).map f).drop x := by
  have hlen : (((List.range n).map f).take x).length = x := by simp [hx]
  have hlen1 : (((List.range n).map f).take x ++ [ch]).length = x + 1 := by
    rw [List.length_append, hlen]
    rfl
  apply List.ext_getElem
  · rw [List.length_append, hlen1]
    simp
    omega
  · intro i h1 h2
    simp only [List.length_map, List.length_range] at h1
    rw [List.getElem_map, List.getElem_range, hg i (by omega)]
    by_cases hi : i < x
    · rw [if_pos hi, List.getElem_append_left (by rw [hlen1]; omega),
        List.getElem_append_left (by rw [hlen]; omega)]
      simp
    · rw [if_neg hi]
      by_cases hix : i = x
      · rw [if_pos hix, List.getElem_append_left (by rw [hlen1]; omega),
          List.getElem_append_right (by rw [hlen]; omega)]
        simp [hlen]
      · rw [if_neg hix, List.getElem_append_right (by rw [hlen1]; omega)]
        simp only [List.getElem_drop, List.getElem_map, List.getElem_range, hlen1]
        congr 1
        omega

theorem process_keyboard_input_backspace (kb : keyboard_t) (nextcode : Nat)
    (hact : kb.active_terminal < 3) (hx0 : 0 < kb.cursor_x kb.active_terminal)
    (hx : kb.cursor_x kb.active_terminal ≤ kb.command_length kb.active_terminal)
    (hn : kb.command_length kb.active_terminal ≤ 1023) :
    process_keyboard_input kb MAKE_BKSP nextcode =
      .ok { kb with
        command_buffer :=
          delete_loop
            (kb.command_length kb.active_terminal - (kb.cursor_x kb.active_terminal - 1))
            (TERMINAL_BUFFER_MAX_SIZE * kb.active_terminal
              + (kb.cursor_x kb.active_terminal - 1))
            kb.command_buffer
        command_length :=
          store kb.command_length kb.active_terminal (kb.command_length kb.active_terminal - 1)
        cursor_x :=
          store kb.cursor_x kb.active_terminal (kb.cursor_x kb.active_terminal - 1) } := by
  have hT : TERMINAL_BUFFER_MAX_SIZE = 1024 := rfl
  have hix : int32 (kb.cursor_x kb.active_terminal) = (kb.cursor_x kb.active_terminal : Int) :=
    int32_of_lt _ (by omega)
  have hvis : ¬ (kb.keyboardflag kb.active_terminal &&& FLAG_CTRL = 0
      ∧ ((MAKE_BKSP ≥ MAKE_1 ∧ MAKE_BKSP ≤ MAKE_EQUALS)
        ∨ (MAKE_BKSP ≥ MAKE_Q ∧ MAKE_BKSP ≤ MAKE_R_SQUARE_BRACKET)
        ∨ (MAKE_BKSP ≥ MAKE_A ∧ MAKE_BKSP ≤ MAKE_ACCENT)
        ∨ (MAKE_BKSP ≥ MAKE_BACKSLASH ∧ MAKE_BKSP ≤ MAKE_SLASH)
        ∨ MAKE_BKSP = MAKE_SPACE)) := fun h => absurd h.2 (by decide)
  have e1 : ((kb.cursor_x kb.active_terminal : Int) - 1).toNat
      = kb.cursor_x kb.active_terminal - 1 := by omega
  rw [process_keyboard_input, if_neg (by omega), if_neg hvis, if_neg (by decide), if_pos rfl, hix,
    if_pos (by omega), e1, if_neg (by rw [hT]; omega)]
  have e2 : (kb.command_length kb.active_terminal + 4294967295) % 4294967296
      = kb.command_length kb.active_terminal - 1 := by omega
  have e3 : (kb.cursor_x kb.active_terminal + 4294967295) % 4294967296
      = kb.cursor_x kb.active_terminal - 1 := by omega
  rw [e2, e3]

/-- C33: with Ctrl not held on the active terminal `t`, whose command holds
`n` characters with the cursor at `x <= n`, a scancode of the first branch of
`process_keyboard_input` (a visible character) gives, for `n <= 1022`, the
command `b[0..x) ++ [ch] ++ b[x..n)`, the length `n + 1` and the cursor
`x + 1`, where `ch = kbd_chars[flags & 3][scancode]`; for `n = 1023` the state
is left as it is. -/
theorem visible_character_is_inserted (kb : keyboard_t) (scancode nextcode : Nat)
    (hact : kb.active_terminal < 3)
    (hctrl : kb.keyboardflag kb.active_terminal &&& FLAG_CTRL = 0)
    (hsc : (scancode ≥ MAKE_1 ∧ scancode ≤ MAKE_EQUALS)
        ∨ (scancode ≥ MAKE_Q ∧ scancode ≤ MAKE_R_SQUARE_BRACKET)
        ∨ (scancode ≥ MAKE_A ∧ scancode ≤ MAKE_ACCENT)
        ∨ (scancode ≥ MAKE_BACKSLASH ∧ scancode ≤ MAKE_SLASH)
        ∨ scancode = MAKE_SPACE)
    (hx : kb.cursor_x kb.active_terminal ≤ kb.command_length kb.active_terminal) :
    (kb.command_length kb.active_terminal ≤ 1022 →
      ∃ kb', process_keyboard_input kb scancode nextcode = .ok kb'
        ∧ kb'.active_terminal = kb.active_terminal
        ∧ kb'.command kb.active_terminal
            = (kb.command kb.active_terminal).take (kb.cursor_x kb.active_terminal)
              ++ [kbd_chars (kb.keyboardflag kb.active_terminal &&& FLAG_SHIFT_CAPS_MASK)
                    scancode]
              ++ (kb.command kb.active_terminal).drop (kb.cursor_x kb.active_terminal)
        ∧ kb'.command_length kb.active_terminal = kb.command_length kb.active_terminal + 1
        ∧ kb'.cursor_x kb.active_terminal = kb.cursor_x kb.active_terminal + 1)
      ∧ (kb.command_length kb.active_terminal = 1023 →
          process_keyboard_input kb scancode nextcode = .ok kb) := by
  constructor
  · intro hn
    rw [process_keyboard_input_visible kb scancode nextcode hact hctrl hsc hn hx]
    refine ⟨_, rfl, rfl, ?_, ?_, ?_⟩
    · unfold keyboard_t.command
      dsimp only
      have hl : store kb.command_length kb.active_terminal
          (kb.command_length kb.active_terminal + 1) kb.active_terminal
          = kb.command_length kb.active_terminal + 1 := by
        unfold store
        rw [if_pos rfl]
      rw [hl]
      apply command_insert _ _ _ _ _ hx
      intro i hi
      unfold store
      rw [place_character_loop_apply]
      by_cases h1 : i < kb.cursor_x kb.active_terminal
      · rw [if_pos h1, if_neg (by omega), if_neg (by omega)]
      · rw [if_neg h1]
        by_cases h2 : i = kb.cursor_x kb.active_terminal
        · rw [if_pos h2, if_pos (by omega)]
        · rw [if_neg h2, if_neg (by omega), if_pos (by omega)]
          congr 1
          omega
    · show store _ _ _ _ = _
      unfold store
      rw [if_pos rfl]
    · show store _ _ _ _ = _
      unfold store
      rw [if_pos rfl]
  · intro hn
    have hT : TERMINAL_BUFFER_MAX_SIZE = 1024 := rfl
    rw [process_keyboard_input, if_neg (by omega), if_pos ⟨hctrl, hsc⟩,
      if_neg (by rw [hT, hn]; decide)]

/-- C37: Backspace undoes an insertion. With Ctrl not held on the active
terminal `t`, command length `n <= 1022` and cursor `x <= n`, a visible
character followed by Backspace leaves the active terminal, the lengths, the
cursors and the flags as they were, and every byte of `command_buffer` other
than `command_buffer[t][n + 1]`; in particular the bytes `[0..n]` of the
command of `t`. -/
theorem backspace_undoes_insertion (kb : keyboard_t) (scancode nextcode nextcode2 : Nat)
    (hact : kb.active_terminal < 3)
    (hctrl : kb.keyboardflag kb.active_terminal &&& FLAG_CTRL = 0)
    (hsc : (scancode ≥ MAKE_1 ∧ scancode ≤ MAKE_EQUALS)
        ∨ (scancode ≥ MAKE_Q ∧ scancode ≤ MAKE_R_SQUARE_BRACKET)
        ∨ (scancode ≥ MAKE_A ∧ scancode ≤ MAKE_ACCENT)
        ∨ (scancode ≥ MAKE_BACKSLASH ∧ scancode ≤ MAKE_SLASH)
        ∨ scancode = MAKE_SPACE)
    (hn : kb.command_length kb.active_terminal ≤ 1022)
    (hx : kb.cursor_x kb.active_terminal ≤ kb.command_length kb.active_terminal) :
    ∃ kb1 kb2, process_keyboard_input kb scancode nextcode = .ok kb1
      ∧ process_keyboard_input kb1 MAKE_BKSP nextcode2 = .ok kb2
      ∧ kb2.active_terminal = kb.active_terminal
      ∧ kb2.command_length = kb.command_length
      ∧ kb2.cursor_x = kb.cursor_x
      ∧ kb2.keyboardflag = kb.keyboardflag
      ∧ kb2.allow_terminal_read = kb.allow_terminal_read
      ∧ (∀ a, a ≠ TERMINAL_BUFFER_MAX_SIZE * kb.active_terminal
            + kb.command_length kb.active_terminal + 1 →
          kb2.command_buffer a = kb.command_buffer a)
      ∧ (∀ j, j ≤ kb.command_length kb.active_terminal →
          kb2.command_buffer (TERMINAL_BUFFER_MAX_SIZE * kb.active_terminal + j)
            = kb.command_buffer (TERMINAL_BUFFER_MAX_SIZE * kb.active_terminal + j)) := by
  have hs1 : ∀ (f : Nat → Nat) (i v : Nat), store f i v i = v := by
    intro f i v
    unfold store
    rw [if_pos rfl]
  have hbuf : ∀ a, a ≠ TERMINAL_BUFFER_MAX_SIZE * kb.active_terminal
        + kb.command_length kb.active_terminal + 1 →
      delete_loop
        (kb.command_length kb.active_terminal + 1 - (kb.cursor_x kb.active_terminal + 1 - 1))
        (TERMINAL_BUFFER_MAX_SIZE * kb.active_terminal
          + (kb.cursor_x kb.active_terminal + 1 - 1))
        (store
          (place_character_loop
            (TERMINAL_BUFFER_MAX_SIZE * kb.active_terminal + kb.cursor_x kb.active_terminal)
            (kb.command_length kb.active_terminal - kb.cursor_x kb.active_terminal + 1)
            kb.command_buffer)
          (TERMINAL_BUFFER_MAX_SIZE * kb.active_terminal + kb.cursor_x kb.active_terminal)
          (kbd_chars (kb.keyboardflag kb.active_terminal &&& FLAG_SHIFT_CAPS_MASK) scancode)) a
      = kb.command_buffer a := by
    intro a ha
    rw [delete_loop_apply]
    unfold store
    by_cases h1 : TERMINAL_BUFFER_MAX_SIZE * kb.active_terminal
          + (kb.cursor_x kb.active_terminal + 1 - 1) ≤ a
        ∧ a < TERMINAL_BUFFER_MAX_SIZE * kb.active_terminal
          + (kb.cursor_x kb.active_terminal + 1 - 1)
          + (kb.command_length kb.active_terminal + 1
            - (kb.cursor_x kb.active_terminal + 1 - 1))
    · rw [if_pos h1, if_neg (by omega), place_character_loop_apply, if_pos (by omega),
        Nat.add_sub_cancel]
    · rw [if_neg h1]
      by_cases h2 : a = TERMINAL_BUFFER_MAX_SIZE * kb.active_terminal
          + kb.cursor_x kb.active_terminal
      · exact absurd h2 (by omega)
      · rw [if_neg h2, place_character_loop_apply, if_neg (by omega)]
  obtain ⟨kb1, hvis, hk1⟩ : ∃ kb1, process_keyboard_input kb scancode nextcode = .ok kb1
      ∧ kb1 = { kb with
        command_buffer :=
          store
            (place_character_loop
              (TERMINAL_BUFFER_MAX_SIZE * kb.active_terminal + kb.cursor_x kb.active_terminal)
              (kb.command_length kb.active_terminal - kb.cursor_x kb.active_terminal + 1)
              kb.command_buffer)
            (TERMINAL_BUFFER_MAX_SIZE * kb.active_terminal + kb.cursor_x kb.active_terminal)
            (kbd_chars (kb.keyboardflag kb.active_terminal &&& FLAG_SHIFT_CAPS_MASK) scancode)
        command_length :=
          store kb.command_length kb.active_terminal (kb.command_length kb.active_terminal + 1)
        cursor_x :=
          store kb.cursor_x kb.active_terminal (kb.cursor_x kb.active_terminal + 1) } :=
    ⟨_, process_keyboard_input_visible kb scancode nextcode hact hctrl hsc hn hx, rfl⟩
  have ha1 : kb1.active_terminal = kb.active_terminal := by rw [hk1]
  have hl1 : kb1.command_length kb1.active_terminal
      = kb.command_length kb.active_terminal + 1 := by
    rw [hk1]
    exact hs1 _ _ _
  have hc1 : kb1.cursor_x kb1.active_terminal = kb.cursor_x kb.active_terminal + 1 := by
    rw [hk1]
    exact hs1 _ _ _
  have hbk := process_keyboard_input_backspace kb1 nextcode2 (by rw [ha1]; exact hact)
    (by rw [hc1]; omega) (by rw [hc1, hl1]; omega) (by rw [hl1]; omega)
  refine ⟨kb1, _, hvis, hbk, ?_⟩
  dsimp only
  rw [hc1, hl1, ha1]
  have hcb : kb1.command_buffer = store
      (place_character_loop
        (TERMINAL_BUFFER_MAX_SIZE * kb.active_terminal + kb.cursor_x kb.active_terminal)
        (kb.command_length kb.active_terminal - kb.cursor_x kb.active_terminal + 1)
        kb.command_buffer)
      (TERMINAL_BUFFER_MAX_SIZE * kb.active_terminal + kb.cursor_x kb.active_terminal)
      (kbd_chars (kb.keyboardflag kb.active_terminal &&& FLAG_SHIFT_CAPS_MASK) scancode) := by
    rw [hk1]
  have hcl : kb1.command_length
      = store kb.command_length kb.active_terminal
          (kb.command_length kb.active_terminal + 1) := by
    rw [hk1]
  have hcx : kb1.cursor_x
      = store kb.cursor_x kb.active_terminal (kb.cursor_x kb.active_terminal + 1) := by
    rw [hk1]
  have hkf : kb1.keyboardflag = kb.keyboardflag := by rw [hk1]
  have har : kb1.allow_terminal_read = kb.allow_terminal_read := by rw [hk1]
  rw [hcb, hcl, hcx]
  refine ⟨rfl, ?_, ?_, hkf, har, hbuf, fun j hj => hbuf _ (by omega)⟩
  · funext t
    unfold store
    by_cases ht : t = kb.active_terminal
    · rw [if_pos ht, ht, Nat.add_sub_cancel]
    · rw [if_neg ht, if_neg ht]
  · funext t
    unfold store
    by_cases ht : t = kb.active_terminal
    · rw [if_pos ht, ht, Nat.add_sub_cancel]
    · rw [if_neg ht, if_neg ht]

/-- C31: an F1, F2 or F3 make code processed while the Alt flag of the active
terminal is set makes terminal 0, 1 or 2 the active terminal and leaves the
command buffers, the command lengths and the cursor columns of all terminals
(and the flags) as they were. -/
theorem alt_function_key_switches_terminal (kb : keyboard_t) (scancode nextcode : Nat)
    (hact : kb.active_terminal < 3)
    (hsc : scancode = MAKE_F1 ∨ scancode = MAKE_F2 ∨ scancode = MAKE_F3)
    (halt : kb.keyboardflag kb.active_terminal &&& 0x8 ≠ 0) :
    ∃ kb', process_keyboard_input kb scancode nextcode = .ok kb'
      ∧ kb'.active_terminal = scancode - MAKE_F1
      ∧ kb'.command_buffer = kb.command_buffer
      ∧ kb'.command_length = kb.command_length
      ∧ kb'.cursor_x = kb.cursor_x
      ∧ kb'.keyboardflag = kb.keyboardflag
      ∧ kb'.allow_terminal_read = kb.allow_terminal_read := by
  have hrest : ∀ sc, (sc = MAKE_F1 ∨ sc = MAKE_F2 ∨ sc = MAKE_F3) →
      process_keyboard_input kb sc nextcode
        = if (sc &&& 0x7) - 3 ≠ kb.active_terminal then
            .ok { kb with active_terminal := (sc &&& 0x7) - 3 }
          else .ok kb := by
    intro sc h
    have hvis : ¬ (kb.keyboardflag kb.active_terminal &&& FLAG_CTRL = 0
        ∧ ((sc ≥ MAKE_1 ∧ sc ≤ MAKE_EQUALS)
          ∨ (sc ≥ MAKE_Q ∧ sc ≤ MAKE_R_SQUARE_BRACKET)
          ∨ (sc ≥ MAKE_A ∧ sc ≤ MAKE_ACCENT)
          ∨ (sc ≥ MAKE_BACKSLASH ∧ sc ≤ MAKE_SLASH)
          ∨ sc = MAKE_SPACE)) := by
      rcases h with rfl | rfl | rfl <;> exact fun h => absurd h.2 (by decide)
    rw [process_keyboard_input, if_neg (by omega), if_neg hvis]
    rcases h with rfl | rfl | rfl
    all_goals
      rw [if_neg (by decide), if_neg (by decide), if_neg (by decide), if_neg (by decide),
        if_neg (by decide), if_neg (by decide), if_neg (by decide), if_neg (by decide),
        if_neg (by decide), if_neg (by decide), if_pos (by decide), if_pos halt]
  rw [hrest scancode hsc]
  rcases hsc with rfl | rfl | rfl
  · by_cases h : (MAKE_F1 &&& 0x7) - 3 ≠ kb.active_terminal
    · rw [if_pos h]
      exact ⟨_, rfl, (by decide : (MAKE_F1 &&& 0x7) - 3 = MAKE_F1 - MAKE_F1), rfl, rfl, rfl, rfl, rfl⟩
    · rw [if_neg h]
      exact ⟨_, rfl, (not_not.1 h).symm.trans (by decide), rfl, rfl, rfl, rfl, rfl⟩
  · by_cases h : (MAKE_F2 &&& 0x7) - 3 ≠ kb.active_terminal
    · rw [if_pos h]
      exact ⟨_, rfl, (by decide : (MAKE_F2 &&& 0x7) - 3 = MAKE_F2 - MAKE_F1), rfl, rfl, rfl, rfl, rfl⟩
    · rw [if_neg h]
      exact ⟨_, rfl, (not_not.1 h).symm.trans (by decide), rfl, rfl, rfl, rfl, rfl⟩
  · by_cases h : (MAKE_F3 &&& 0x7) - 3 ≠ kb.active_terminal
    · rw [if_pos h]
      exact ⟨_, rfl, (by decide : (MAKE_F3 &&& 0x7) - 3 = MAKE_F3 - MAKE_F1), rfl, rfl, rfl, rfl, rfl⟩
    · rw [if_neg h]
      exact ⟨_, rfl, (not_not.1 h).symm.trans (by decide), rfl, rfl, rfl, rfl, rfl⟩

theorem cursor_in_command_store (kb : keyboard_t) (cl cx : Nat → Nat) (n x : Nat)
    (hinv : kb.cursor_in_command) (hx : x ≤ n) (hn : n ≤ 1023)
    (hcl : cl = store kb.command_length kb.active_terminal n ∨ (cl = kb.command_length
      ∧ n = kb.command_length kb.active_terminal))
    (hcx : cx = store kb.cursor_x kb.active_terminal x ∨ (cx = kb.cursor_x
      ∧ x = kb.cursor_x kb.active_terminal)) :
    ∀ t, t < 3 → cx t ≤ cl t ∧ cl t ≤ 1023 := by
  intro t ht
  have h := hinv t ht
  have hclt : cl t = if t = kb.active_terminal then n else kb.command_length t := by
    rcases hcl with e | ⟨e, e'⟩
    · rw [e]
      rfl
    · rw [e]
      by_cases h : t = kb.active_terminal
      · rw [if_pos h, e', h]
      · rw [if_neg h]
  have hcxt : cx t = if t = kb.active_terminal then x else kb.cursor_x t := by
    rcases hcx with e | ⟨e, e'⟩
    · rw [e]
      rfl
    · rw [e]
      by_cases h : t = kb.active_terminal
      · rw [if_pos h, e', h]
      · rw [if_neg h]
  rw [hclt, hcxt]
  by_cases h' : t = kb.active_terminal
  · rw [if_pos h', if_pos h']
    exact ⟨hx, hn⟩
  · rw [if_neg h', if_neg h']
    exact h

theorem process_keyboard_input_cursor_in_command (kb : keyboard_t) (scancode nextcode : Nat)
    (hinv : kb.cursor_in_command) (hact : kb.active_terminal < 3) :
    ∃ kb', process_keyboard_input kb scancode nextcode = .ok kb'
      ∧ kb'.cursor_in_command ∧ kb'.active_terminal < 3 := by
  have hT : TERMINAL_BUFFER_MAX_SIZE = 1024 := rfl
  obtain ⟨hx, hn⟩ := hinv _ hact
  have hix : int32 (kb.cursor_x kb.active_terminal) = (kb.cursor_x kb.active_terminal : Int) :=
    int32_of_lt _ (by omega)
  have hin : int32 (kb.command_length kb.active_terminal)
      = (kb.command_length kb.active_terminal : Int) := int32_of_lt _ (by omega)
  have hF : ∀ sc, sc ≥ MAKE_F1 ∧ sc ≤ MAKE_F3 → (sc &&& 0x7) - 3 < 3 := by
    intro sc h
    unfold MAKE_F1 MAKE_F3 at h
    obtain ⟨h1, h2⟩ := h
    interval_cases sc <;> decide
  unfold process_keyboard_input place_character_at_index
  rw [hix, hin, hT, if_neg (by omega)]
  by_cases c1 : kb.keyboardflag kb.active_terminal &&& FLAG_CTRL = 0
      ∧ ((scancode ≥ MAKE_1 ∧ scancode ≤ MAKE_EQUALS)
        ∨ (scancode ≥ MAKE_Q ∧ scancode ≤ MAKE_R_SQUARE_BRACKET)
        ∨ (scancode ≥ MAKE_A ∧ scancode ≤ MAKE_ACCENT)
        ∨ (scancode ≥ MAKE_BACKSLASH ∧ scancode ≤ MAKE_SLASH)
        ∨ scancode = MAKE_SPACE)
  · rw [if_pos c1]
    by_cases c2 : (kb.command_length kb.active_terminal + 1) % 4294967296 < 1024
    · rw [if_pos c2, if_neg (by omega)]
      exact ⟨_, rfl, cursor_in_command_store kb _ _ _ _ hinv (by omega) (by omega)
        (Or.inl rfl) (Or.inl rfl), hact⟩
    · rw [if_neg c2]
      exact ⟨_, rfl, hinv, hact⟩
  rw [if_neg c1]
  by_cases c3 : scancode = MAKE_ENTER
  · rw [if_pos c3]
    exact ⟨_, rfl, hinv, hact⟩
  rw [if_neg c3]
  by_cases c4 : scancode = MAKE_BKSP
  · rw [if_pos c4]
    by_cases c5 : (kb.cursor_x kb.active_terminal : Int) > 0
    · rw [if_pos c5, if_neg (by omega)]
      exact ⟨_, rfl, cursor_in_command_store kb _ _ _ _ hinv (by omega) (by omega)
        (Or.inl rfl) (Or.inl rfl), hact⟩
    · rw [if_neg c5]
      exact ⟨_, rfl, hinv, hact⟩
  rw [if_neg c4]
  by_cases c6 : scancode = MAKE_DELETE
  · rw [if_pos c6]
    by_cases c7 : (kb.cursor_x kb.active_terminal : Int) ≥ 0 ∧ ((kb.cursor_x kb.active_terminal : Nat) : Int).toNat < kb.command_length kb.active_terminal
    · rw [if_pos c7, if_neg (by omega)]
      exact ⟨_, rfl, cursor_in_command_store kb _ _ _ _ hinv (by omega) (by omega)
        (Or.inl rfl) (Or.inr ⟨rfl, rfl⟩), hact⟩
    · rw [if_neg c7]
      exact ⟨_, rfl, hinv, hact⟩
  rw [if_neg c6]
  by_cases c8 : scancode = MAKE_CAPS
  · rw [if_pos c8]
    exact ⟨_, rfl, hinv, hact⟩
  rw [if_neg c8]
  by_cases c9 : scancode = MAKE_L_SHFT ∨ scancode = MAKE_R_SHFT
  · rw [if_pos c9]
    exact ⟨_, rfl, hinv, hact⟩
  rw [if_neg c9]
  by_cases c10 : scancode = BREAK_L_SHFT ∨ scancode = BREAK_R_SHFT
  · rw [if_pos c10]
    exact ⟨_, rfl, hinv, hact⟩
  rw [if_neg c10]
  by_cases c11 : scancode = MAKE_L_CTRL
  · rw [if_pos c11]
    exact ⟨_, rfl, hinv, hact⟩
  rw [if_neg c11]
  by_cases c12 : scancode = BREAK_L_CTRL
  · rw [if_pos c12]
    exact ⟨_, rfl, hinv, hact⟩
  rw [if_neg c12]
  by_cases c13 : scancode = MAKE_L_ALT
  · rw [if_pos c13]
    exact ⟨_, rfl, hinv, hact⟩
  rw [if_neg c13]
  by_cases c14 : scancode = BREAK_L_ALT
  · rw [if_pos c14]
    exact ⟨_, rfl, hinv, hact⟩
  rw [if_neg c14]
  by_cases c15 : scancode ≥ MAKE_F1 ∧ scancode ≤ MAKE_F3
  · rw [if_pos c15]
    by_cases c16 : kb.keyboardflag kb.active_terminal &&& 0x8 ≠ 0
    · rw [if_pos c16]
      by_cases c17 : (scancode &&& 0x7) - 3 ≠ kb.active_terminal
      · rw [if_pos c17]
        exact ⟨_, rfl, hinv, hF _ c15⟩
      · rw [if_neg c17]
        exact ⟨_, rfl, hinv, hact⟩
    · rw [if_neg c16]
      exact ⟨_, rfl, hinv, hact⟩
  rw [if_neg c15]
  by_cases c18 : scancode = EXTRAS
  · rw [if_pos c18]
    by_cases c19 : nextcode = MAKE_L_ARROW ∧ kb.cursor_x kb.active_terminal > 0
    · rw [if_pos c19]
      exact ⟨_, rfl, cursor_in_command_store kb _ _ _ _ hinv (by omega) (by omega)
        (Or.inr ⟨rfl, rfl⟩) (Or.inl rfl), hact⟩
    rw [if_neg c19]
    by_cases c20 : nextcode = MAKE_R_ARROW ∧ kb.cursor_x kb.active_terminal < kb.command_length kb.active_terminal
    · rw [if_pos c20]
      exact ⟨_, rfl, cursor_in_command_store kb _ _ _ _ hinv (by omega) (by omega)
        (Or.inr ⟨rfl, rfl⟩) (Or.inl rfl), hact⟩
    rw [if_neg c20]
    by_cases c21 : nextcode = MAKE_L_CTRL
    · rw [if_pos c21]
      exact ⟨_, rfl, hinv, hact⟩
    rw [if_neg c21]
    by_cases c22 : nextcode = BREAK_L_CTRL
    · rw [if_pos c22]
      exact ⟨_, rfl, hinv, hact⟩
    rw [if_neg c22]
    exact ⟨_, rfl, hinv, hact⟩
  rw [if_neg c18]
  by_cases c23 : kb.keyboardflag kb.active_terminal &&& FLAG_CTRL ≠ 0
  · rw [if_pos c23]
    by_cases c24 : scancode = MAKE_L
    · rw [if_pos c24, if_neg (by omega)]
      exact ⟨_, rfl, cursor_in_command_store kb _ _ _ _ hinv (Nat.le_refl 0) (by omega)
        (Or.inl rfl) (Or.inl rfl), hact⟩
    · rw [if_neg c24]
      exact ⟨_, rfl, hinv, hact⟩
  rw [if_neg c23]
  exact ⟨_, rfl, hinv, hact⟩

theorem terminal_read_cursor_in_command (k : kernel_t) (kb : keyboard_t) (buf : Nat → Nat)
    (nbytes : Int) (r : Int) (b : Nat → Nat) (kb' : keyboard_t) (hinv : kb.cursor_in_command)
    (h : terminal_read k kb buf nbytes = .ok (r, b, kb')) :
    kb'.cursor_in_command ∧ kb'.active_terminal = kb.active_terminal := by
  unfold terminal_read at h
  by_cases c1 : kb.allow_terminal_read (get_tty_number k) = 0
  · rw [if_pos c1] at h
    exact result_t.noConfusion h
  rw [if_neg c1] at h
  by_cases c2 : kb.active_terminal ≥ 3
  · rw [if_pos c2] at h
    exact result_t.noConfusion h
  rw [if_neg c2] at h
  by_cases c3 : TERMINAL_BUFFER_MAX_SIZE * kb.active_terminal + nbytes.toNat
      > 3 * TERMINAL_BUFFER_MAX_SIZE
  · rw [if_pos c3] at h
    exact result_t.noConfusion h
  rw [if_neg c3] at h
  simp only [result_t.ok.injEq, Prod.mk.injEq] at h
  obtain ⟨_, _, hk⟩ := h
  subst hk
  exact ⟨cursor_in_command_store kb _ _ 0 0 hinv (Nat.le_refl 0) (by omega) (Or.inl rfl)
    (Or.inl rfl), rfl⟩

/-- For each of the three terminals `cursor_x <= command_length <= 1023`
holds after `keyboard_open`, where both are 0; in a state where it holds (and
`active_terminal` is 0, 1 or 2) `process_keyboard_input` returns for every
scancode and every follow-up byte, in a state where it holds again; and, when
no interrupt arrives during the call, it holds in every state `terminal_read`
returns in, which it does when the flag of the caller's terminal is set and
`nbytes` stays inside `command_buffer`. -/
theorem cursor_stays_in_command :
    (∀ kb : keyboard_t, (keyboard_open kb).cursor_in_command
        ∧ (keyboard_open kb).active_terminal < 3
        ∧ ∀ t, t < 3 → (keyboard_open kb).cursor_x t = 0
          ∧ (keyboard_open kb).command_length t = 0)
      ∧ (∀ (kb : keyboard_t) (scancode nextcode : Nat),
          kb.cursor_in_command → kb.active_terminal < 3 →
          ∃ kb', process_keyboard_input kb scancode nextcode = .ok kb'
            ∧ kb'.cursor_in_command ∧ kb'.active_terminal < 3)
      ∧ (∀ (k : kernel_t) (kb : keyboard_t) (buf : Nat → Nat) (nbytes r : Int) (b : Nat → Nat)
          (kb' : keyboard_t), kb.cursor_in_command →
          terminal_read k kb buf nbytes = .ok (r, b, kb') →
          kb'.cursor_in_command ∧ kb'.active_terminal = kb.active_terminal)
      ∧ (∀ (k : kernel_t) (kb : keyboard_t) (buf : Nat → Nat) (nbytes : Int),
          kb.allow_terminal_read (get_tty_number k) ≠ 0 → kb.active_terminal < 3 →
          TERMINAL_BUFFER_MAX_SIZE * kb.active_terminal + nbytes.toNat
            ≤ 3 * TERMINAL_BUFFER_MAX_SIZE →
          ∃ r b kb', terminal_read k kb buf nbytes = .ok (r, b, kb')) := by
  refine ⟨?_, process_keyboard_input_cursor_in_command, terminal_read_cursor_in_command, ?_⟩
  · intro kb
    have h0 : ∀ t, t < 3 → (keyboard_open kb).cursor_x t = 0
        ∧ (keyboard_open kb).command_length t = 0 := by
      intro t ht
      unfold keyboard_open
      dsimp only
      rw [if_pos ht, if_pos ht]
      exact ⟨rfl, rfl⟩
    refine ⟨?_, (by decide : (0 : Nat) < 3), h0⟩
    intro t ht
    rw [(h0 t ht).1, (h0 t ht).2]
    omega
  · intro k kb buf nbytes h1 h2 h3
    rw [terminal_read, if_neg h1, if_neg (by omega), if_neg (by omega)]
    exact ⟨_, _, _, rfl⟩

theorem cursor_stays_in_command_witness :
    ∃ kb', process_keyboard_input (keyboard_open demo_kb0) MAKE_A 0 = .ok kb'
      ∧ kb'.cursor_in_command ∧ kb'.active_terminal < 3 :=
  cursor_stays_in_command.2.1 (keyboard_open demo_kb0) MAKE_A 0
    (cursor_stays_in_command.1 demo_kb0).1 (by decide)

theorem visible_character_is_inserted_witness :
    ∃ kb', process_keyboard_input demo_kb0 MAKE_A 0 = .ok kb'
      ∧ kb'.command 0 = [108, 115, 97] ∧ kb'.command_length 0 = 3 ∧ kb'.cursor_x 0 = 3 :=
  match (visible_character_is_inserted demo_kb0 MAKE_A 0 (by decide) (by decide) (by decide)
      (by decide)).1 (by decide) with
  | ⟨kb', h, _, hc, hl, hx⟩ => ⟨kb', h, hc.trans (by decide), hl, hx⟩

theorem backspace_undoes_insertion_witness :
    ∃ kb1 kb2, process_keyboard_input demo_kb0 MAKE_A 0 = .ok kb1
      ∧ process_keyboard_input kb1 MAKE_BKSP 0 = .ok kb2
      ∧ kb2.command_length = demo_kb0.command_length
      ∧ kb2.cursor_x = demo_kb0.cursor_x
      ∧ kb2.command_buffer 0 = 108 ∧ kb2.command_buffer 1 = 115 ∧ kb2.command_buffer 2 = 0 :=
  match backspace_undoes_insertion demo_kb0 MAKE_A 0 0 (by decide) (by decide) (by decide)
      (by decide) (by decide) with
  | ⟨kb1, kb2, h1, h2, _, hl, hx, _, _, _, hb⟩ =>
    ⟨kb1, kb2, h1, h2, hl, hx, (hb 0 (by decide)).trans (by decide),
      (hb 1 (by decide)).trans (by decide), (hb 2 (by decide)).trans (by decide)⟩

theorem alt_function_key_switches_terminal_witness :
    ∃ kb', process_keyboard_input demo_kb_alt MAKE_F2 0 = .ok kb'
      ∧ kb'.active_terminal = 1
      ∧ kb'.command_buffer = demo_kb_alt.command_buffer
      ∧ kb'.command_length = demo_kb_alt.command_length
      ∧ kb'.cursor_x = demo_kb_alt.cursor_x :=
  match alt_function_key_switches_terminal demo_kb_alt MAKE_F2 0 (by decide)
      (Or.inr (Or.inl rfl)) (by decide) with
  | ⟨kb', h, ha, hb, hl, hx, _, _⟩ => ⟨kb', h, ha, hb, hl, hx⟩

/-! ## open: the names stdin and stdout -/

theorem sys_open_stdin_first_five (k : kernel_t) (rest : List Nat) :
    sys_open k (str_stdin ++ rest) = .ok (0, open_stdin k 0) := by
  have h : strncmp (view (str_stdin ++ rest)) (view str_stdin) 5 = 0 := rfl
  rw [sys_open, if_pos h]

theorem sys_open_stdout_first_five (k : kernel_t) (rest : List Nat) :
    sys_open k ([115, 116, 100, 111, 117] ++ rest) = .ok (0, open_stdout k 1) := by
  have h1 : strncmp (view ([115, 116, 100, 111, 117] ++ rest)) (view str_stdin) 5 ≠ 0 := by
    have e : strncmp (view ([115, 116, 100, 111, 117] ++ rest)) (view str_stdin) 5 = 6 := rfl
    rw [e]
    decide
  have h2 : strncmp (view ([115, 116, 100, 111, 117] ++ rest)) (view str_stdout) 5 = 0 := rfl
  rw [sys_open, if_neg h1, if_pos h2]

/-- C32 (code defect): `open` compares only the first five characters of the
name with `strncmp(filename, "stdin", 5)` and `strncmp(filename, "stdout", 5)`.
Every name that starts with `stdin` is taken for stdin and every name that
starts with `stdou` for stdout, without a directory lookup: in `demo_k4`, whose
directory holds the regular file `stdinfo`, `open("stdinfo")` returns 0, binds
descriptor 0 to the stdin vector and leaves descriptor 2 free; and
`open("stdoux")` returns 0 and binds descriptor 1 to the stdout vector, for a
name that no directory entry has. -/
theorem open_compares_five_characters :
    (∀ (k : kernel_t) (rest : List Nat),
        sys_open k (str_stdin ++ rest) = .ok (0, open_stdin k 0)
        ∧ sys_open k ([115, 116, 100, 111, 117] ++ rest) = .ok (0, open_stdout k 1))
      ∧ read_dentry_by_name demo_k4.fs (view str_stdinfo)
          = .ok (some { filename := str_stdinfo, filetype := 2, inode := 0 })
      ∧ (∃ k', sys_open demo_k4 str_stdinfo = .ok (0, k')
          ∧ ((k'.pcbs (demo_k4.kernel_stack_bottom &&& ALIGN_8KB)).fds 0).jumptable
              = .stdin_fops_table
          ∧ ((k'.pcbs (demo_k4.kernel_stack_bottom &&& ALIGN_8KB)).fds 2).flags = NOT_IN_USE)
      ∧ read_dentry_by_name demo_k4.fs (view str_stdoux) = .ok none
      ∧ (∃ k', sys_open demo_k4 str_stdoux = .ok (0, k')
          ∧ ((k'.pcbs (demo_k4.kernel_stack_bottom &&& ALIGN_8KB)).fds 1).jumptable
              = .stdout_fops_table) :=
  ⟨fun k rest => ⟨sys_open_stdin_first_five k rest, sys_open_stdout_first_five k rest⟩,
    rfl, ⟨_, rfl, by decide, by decide⟩, rfl, ⟨_, rfl, by decide⟩⟩

/-! ## The scheduler and the terminal number -/

theorem pit_switch_process_term_number (k : kernel_t) (esp ebp next_process_number : Nat) :
    (pit_switch k esp ebp next_process_number).process_term_number
      = if (k.pcbs (pcb_addr k.current_process_number)).tty_number < 3 then
          (k.pcbs (pcb_addr k.current_process_number)).tty_number
        else k.process_term_number := by
  simp [pit_switch]

/-- C35 (code defect): `pit_interruption` calls `set_process_term_number` with
the `tty_number` of the PCB of the process that is switched out. In
`demo_tick` process 2 (terminal 1) runs; the next tick switches to process 3,
whose `tty_number` is 2, and leaves `process_term_number = 1`. -/
theorem pit_interruption_sets_outgoing_terminal :
    demo_tick.current_process_number = 2
      ∧ (demo_tick.pcbs (pcb_addr 2)).tty_number = 1
      ∧ ∃ esp' ebp' k', pit_interruption 8 demo_tick 0x7FBF00 0x7FBF10
            = .leave_ret 0 esp' ebp' k'
          ∧ k'.current_process_number = 3
          ∧ (k'.pcbs (pcb_addr 3)).tty_number = 2
          ∧ k'.process_term_number = 1 :=
  ⟨by decide, by decide, _, _, _, rfl, by decide, by decide, by decide⟩

/-! ## The PCB address of a kernel stack -/

theorem land_ALIGN_8KB (a : Nat) (h : a < 4294967296) : a &&& ALIGN_8KB = a / 8192 * 8192 := by
  have e : ALIGN_8KB = (2 ^ 19 - 1) <<< 13 := by decide
  have e2 : a / 8192 * 8192 = (a >>> 13) <<< 13 := by
    rw [Nat.shiftLeft_eq, Nat.shiftRight_eq_div_pow]
  rw [e, e2]
  apply Nat.eq_of_testBit_eq
  intro j
  rw [Nat.testBit_and, Nat.testBit_shiftLeft, Nat.testBit_shiftLeft, Nat.testBit_two_pow_sub_one,
    Nat.testBit_shiftRight]
  by_cases hj : 13 ≤ j
  · have e3 : 13 + (j - 13) = j := by omega
    rw [e3]
    by_cases hj2 : j < 32
    · have : j - 13 < 19 := by omega
      simp [hj, this]
    · have hlt : a < 2 ^ j := lt_of_lt_of_le h
        (by
          have : (2 : Nat) ^ 32 ≤ 2 ^ j := Nat.pow_le_pow_right (by decide) (by omega)
          simpa using this)
      rw [Nat.testBit_lt_two_pow hlt]
      simp
  · simp [hj]

/-- C36: for every process id `i` in [0, 7] and every address `a` of the kernel
stack region of process `i`, from `8 MiB - 8 KiB * (i + 1)` to
`8 MiB - 8 KiB * i - 4`, the masked address `a & ALIGN_8KB` is
`8 MiB - 8 KiB * (i + 1)`, which is `pcb_addr i`, the PCB address that
`execute`, `halt` and the scheduler compute from the process id. -/
theorem stack_address_masks_to_pcb (i a : Nat) (hi : i ≤ 7)
    (h1 : _8MB - _8KB * (i + 1) ≤ a) (h2 : a ≤ _8MB - _8KB * i - 4) :
    a &&& ALIGN_8KB = _8MB - _8KB * (i + 1) ∧ pcb_addr i = _8MB - _8KB * (i + 1) := by
  refine ⟨?_, rfl⟩
  unfold _8MB _8KB at h1 h2 ⊢
  rw [land_ALIGN_8KB a (by omega)]
  omega

theorem stack_address_masks_to_pcb_witness :
    0x7FDF00 &&& ALIGN_8KB = _8MB - _8KB * (1 + 1) ∧ pcb_addr 1 = _8MB - _8KB * (1 + 1) :=
  stack_address_masks_to_pcb 1 0x7FDF00 (by decide) (by decide) (by decide)

/-! ## read: a failing call -/

/-- C38 (code defect): `read` adds the value returned by the read function to
the byte offset of the descriptor also when that value is -1. In `demo_k2_g`
descriptor 2 is open on the regular file `g` of size 8192 at byte offset 0, and
the second data block of `g` is invalid: `read(2, buf, 5000)` fails with -1
and leaves the byte offset -1. A call rejected by the argument check, here
`read(8, buf, 5000)`, returns -1 and leaves the state as it was. -/
theorem read_failure_moves_offset :
    ((demo_k2_g.pcbs (demo_k2_g.kernel_stack_bottom &&& ALIGN_8KB)).fds 2).jumptable
        = .file_fops_table
      ∧ ((demo_k2_g.pcbs (demo_k2_g.kernel_stack_bottom &&& ALIGN_8KB)).fds 2).inode = 1
      ∧ ((demo_k2_g.pcbs (demo_k2_g.kernel_stack_bottom &&& ALIGN_8KB)).fds 2).fileposition = 0
      ∧ inode_size demo_k2_g.fs 1 = 8192
      ∧ inode_data_block demo_k2_g.fs 1 1 ≥ demo_k2_g.fs.fs_stats.num_datablocks
      ∧ (∃ b' k', read demo_k2_g 2 (some fun _ => 0) 5000 demo_terminal = .ok (-1, b', k')
          ∧ ((k'.pcbs (demo_k2_g.kernel_stack_bottom &&& ALIGN_8KB)).fds 2).fileposition = -1)
      ∧ (∃ b', read demo_k2_g 8 (some fun _ => 0) 5000 demo_terminal
          = .ok (-1, b', demo_k2_g)) := by
  have hr : (read_data demo_fs2 1 0 5000).1 = -1 :=
    read_data_neg_one demo_fs2 1 0 5000 1 (by decide) (by decide) (by decide) (by decide)
      (Or.inl (by decide)) (by decide)
  have hread : read demo_k2_g 2 (some fun _ => 0) 5000 demo_terminal
      = .ok ((read_data demo_fs2 1 0 5000).1,
          some (store_bytes (read_data demo_fs2 1 0 5000).2 fun _ => 0),
          update_pcb demo_k2_g (demo_k2_g.kernel_stack_bottom &&& ALIGN_8KB) fun p =>
            p.add_fileposition 2 (read_data demo_fs2 1 0 5000).1) := rfl
  rw [hr] at hread
  exact ⟨by decide, by decide, by decide, by decide, by decide, ⟨_, _, hread, by decide⟩,
    ⟨_, rfl⟩⟩

/-! ## execute: has_child of the new PCB -/

theorem execute_fill_keeps_has_child (p : pcb_t) (esp ebp : Nat) (first : Bool)
    (parent_process_number tty_number open_process : Nat) (args : List Nat)
    (h : args.length ≤ 102) :
    (p.execute_fill esp ebp first parent_process_number tty_number open_process
      args).has_child = p.has_child := by
  unfold pcb_t.execute_fill pcb_store
  dsimp only
  unfold stored_word
  dsimp only
  rw [if_neg (by omega), if_neg (by omega), if_neg (by omega), if_neg (by omega)]

set_option maxRecDepth 100000 in
/-- C39 (code defect): `execute` stores `has_child = 1` in the PCB of the
parent but never assigns `has_child` of the new PCB, which keeps what the
memory of the slot held. In `demo_boot_stale` the unused slot 4 holds
`has_child = 1`; shell 1 executing `shell` reaches user space as process 4,
whose PCB still has `has_child = 1`, so the scheduler does not select it. -/
theorem execute_leaves_has_child :
    demo_boot_stale.running_processes = 0xF0
      ∧ (demo_boot_stale.pcbs (pcb_addr 4)).has_child = 1
      ∧ ∃ e k', execute demo_boot_stale 0x7FDF00 0x7FDF10 demo_locals (some str_shell)
            = .to_the_user_space e k'
          ∧ k'.current_process_number = 4
          ∧ (k'.pcbs (pcb_addr 4)).process_number = 4
          ∧ (k'.pcbs (pcb_addr 4)).parent_process_number = 1
          ∧ (k'.pcbs (pcb_addr 4)).has_child = 1
          ∧ ¬ eligible k' 4 :=
  ⟨by decide, by decide, _, _, rfl, by decide, by decide, by decide, by decide, by decide⟩

set_option maxRecDepth 100000 in
/-- C40 (code defect): `execute` accepts an argument string longer than the 100
bytes of `argbuf` and copies it in full. Shell 1 executing `"shell "` followed
by 103 letters `a` reaches user space as process 4; the copy fills `argbuf`
with 100 letters and runs on into `has_child`, which was 0 and is `0x61`
afterwards, so the scheduler does not select the new process. -/
theorem execute_long_args_overwrite_has_child :
    (demo_boot.pcbs (pcb_addr 4)).has_child = 0
      ∧ ∃ e k', execute demo_boot 0x7FDF00 0x7FDF10 demo_locals
            (some (str_shell ++ 32 :: List.replicate 103 97)) = .to_the_user_space e k'
          ∧ k'.current_process_number = 4
          ∧ (List.range 100).map (k'.pcbs (pcb_addr 4)).argbuf = List.replicate 100 97
          ∧ (k'.pcbs (pcb_addr 4)).has_child = 0x61
          ∧ ¬ eligible k' 4 :=
  ⟨by decide, _, _, rfl, by decide, by decide, by decide, by decide⟩

/-! ## fs_read: a name of 32 bytes -/

set_option maxRecDepth 100000 in
/-- C14 (code defect): `fs_read` does not find a file whose name fills the 32
bytes of its field (the defect of `read_dentry_by_name` shown in C25). In
`demo_fs5` the file named by 32 letters `a` is present, has size 28 and a
valid data block, and `fs_read(name, 0, buf, 28)` returns -1 and leaves `buf`
as it was. -/
theorem fs_read_name_32_bytes_not_found :
    demo_fs5.fs_stats.num_dentries = 1
      ∧ (List.range 32).map (dentry_filename demo_fs5 0) = List.replicate 32 97
      ∧ dentry_filetype demo_fs5 0 = 2
      ∧ dentry_inode demo_fs5 0 = 0
      ∧ inode_size demo_fs5 0 = 28
      ∧ inode_data_block demo_fs5 0 0 < demo_fs5.fs_stats.num_datablocks
      ∧ ∃ b', fs_read demo_fs5 (some (view (List.replicate 32 97))) 0 (some fun _ => 0xEE) 28
            = .ok (-1, some b')
          ∧ (List.range 28).map b' = List.replicate 28 0xEE :=
  ⟨by decide, by decide, by decide, by decide, by decide, by decide, _, rfl, by decide⟩

/-! ## open: a file whose name begins with stdin -/

/-- C16 (code defect): the defect of C32 on the path of this claim. In
`demo_k4` the name `stdinfo` is found by `read_dentry_by_name` (a regular
file, inode 0) and the descriptors 2 to 7 are free, but `open("stdinfo")`
returns 0, not 2, and marks none of the descriptors 2 to 7. -/
theorem open_stdinfo_takes_no_descriptor :
    read_dentry_by_name demo_k4.fs (view str_stdinfo)
        = .ok (some { filename := str_stdinfo, filetype := 2, inode := 0 })
      ∧ (∀ i, i < 8 → 2 ≤ i →
          ((demo_k4.pcbs (demo_k4.kernel_stack_bottom &&& ALIGN_8KB)).fds i).flags
            = NOT_IN_USE)
      ∧ ∃ k', sys_open demo_k4 str_stdinfo = .ok (0, k')
          ∧ ∀ i, i < 8 → 2 ≤ i →
            ((k'.pcbs (demo_k4.kernel_stack_bottom &&& ALIGN_8KB)).fds i).flags = NOT_IN_USE
            ∧ ((k'.pcbs (demo_k4.kernel_stack_bottom &&& ALIGN_8KB)).fds i).jumptable = .NULL :=
  ⟨rfl, by decide, _, rfl, by decide⟩

/-! ## terminal_read with a keyboard interrupt -/

theorem terminal_read_interrupted_unknown_scancode (k : kernel_t) (kb : keyboard_t) (buf : Nat → Nat)
    (nbytes : Int) (h1 : kb.allow_terminal_read (get_tty_number k) ≠ 0)
    (h2 : kb.active_terminal < 3)
    (h3 : TERMINAL_BUFFER_MAX_SIZE * kb.active_terminal + nbytes.toNat
      ≤ 3 * TERMINAL_BUFFER_MAX_SIZE)
    (hctrl : kb.keyboardflag kb.active_terminal &&& FLAG_CTRL = 0) :
    terminal_read_interrupted k kb buf nbytes 0 0 = terminal_read k kb buf nbytes := by
  have hpk : ∀ kb0 : keyboard_t, kb0.active_terminal < 3 →
      kb0.keyboardflag kb0.active_terminal &&& FLAG_CTRL = 0 →
      process_keyboard_input kb0 0 0 = .ok kb0 := by
    intro kb0 ha hc
    have hvis : ¬ (kb0.keyboardflag kb0.active_terminal &&& FLAG_CTRL = 0
        ∧ (((0 : Nat) ≥ MAKE_1 ∧ (0 : Nat) ≤ MAKE_EQUALS)
          ∨ ((0 : Nat) ≥ MAKE_Q ∧ (0 : Nat) ≤ MAKE_R_SQUARE_BRACKET)
          ∨ ((0 : Nat) ≥ MAKE_A ∧ (0 : Nat) ≤ MAKE_ACCENT)
          ∨ ((0 : Nat) ≥ MAKE_BACKSLASH ∧ (0 : Nat) ≤ MAKE_SLASH)
          ∨ (0 : Nat) = MAKE_SPACE)) := fun h => absurd h.2 (by decide)
    rw [process_keyboard_input, if_neg (by omega), if_neg hvis, if_neg (by decide),
      if_neg (by decide), if_neg (by decide), if_neg (by decide), if_neg (by decide),
      if_neg (by decide), if_neg (by decide), if_neg (by decide), if_neg (by decide),
      if_neg (by decide), if_neg (by decide), if_neg (by decide),
      if_neg (fun h => h hc)]
  rw [terminal_read_interrupted, terminal_read, if_neg h1, if_neg h1, if_neg (by omega),
    if_neg (by omega), if_neg (by omega), if_neg (by omega),
    hpk { kb with
      command_buffer :=
        (terminal_read_loop kb.active_terminal nbytes.toNat 0 buf kb.command_buffer).2
      command_length := store kb.command_length kb.active_terminal 0 } h2 hctrl]
  dsimp only
  rw [if_neg (by omega)]

end HomebrewOS
